import Mathlib

/-!
# Top-down shooter: the simulation core of `src/main.cpp`

A shallow embedding of the game state, the per-frame `update`, the input
handlers and `restartGame`, followed by the properties of the specification.

Modelling conventions
* `float` values are exact rationals (`ℚ`); rounding, infinities and NaN are
  outside the model.  Three tests compare the results of `float` arithmetic at
  a boundary the specification speaks about (the collision test, the fire
  cooldown, the spawn pacing); for these the section "Binary32 evaluation"
  gives a second embedding of the same source lines in which every `float`
  operation is rounded to binary32 by `f32`, and C10, C13 and C20 are stated
  about it.
* `int` values are unbounded integers (`Int`); signed overflow is undefined
  behaviour in C++ and is outside the model.  `/` on `int` is `Int.tdiv`,
  `%` is `Int.tmod`, and `static_cast<int>` of a float is truncation toward 0.
* The global variables `game`, `bullets`, `enemies`, `powerUps`, the key flags,
  the pointer position and the function-local `static float lastTime` of
  `update` are the fields of `World`.
* `glutGet(GLUT_ELAPSED_TIME) / 1000.0f` is the argument `currentTime` of the
  function that reads it, the results of `rand()` are the argument `Rand`, and
  `sqrt` is the argument `sqrtf`.
* Drawing, `PlaySound`, `glutPostRedisplay` and `glutTimerFunc` have no effect
  on the modelled state and are omitted; the decorative `stars` are omitted.
-/

namespace Shooter

/-! ## Configuration (`struct Config`) -/

namespace Config

def windowWidth : ℚ := 1000
def windowHeight : ℚ := 800
def buttonH : ℚ := 30
def buttonW : ℚ := 100
def playerSize : ℚ := 20
def playerSpeed : ℚ := 200
def playerMouseStopDist : ℚ := 10
def bulletSize : ℚ := 5
def bulletSpeed : ℚ := 400
def bulletCooldown : ℚ := 2 / 10
def fastBulletCooldown : ℚ := 5 / 100
def enemySize : ℚ := 20
def enemyBaseSpeed : ℚ := 100
def enemyRotationSpeed : ℚ := 90
def maxHealth : Int := 3
def spawnInterval : ℚ := 1
def posX : ℚ := (windowWidth / 2) - buttonW / 2
def posY : ℚ := (windowHeight / 2) - buttonH / 2
def powerUpSize : ℚ := 15
def powerUpSpeed : ℚ := 150
def powerUpSpawnInterval : ℚ := 5
def powerUpRotationSpeed : ℚ := 90
def bulletOffset : ℚ := 10
def maxBulletCount : Int := 5
def bulletPowerUpDuration : ℚ := 10
def speedPowerUpDuration : ℚ := 10
def fasterShootingDuration : ℚ := 10
def invincibilityDuration : ℚ := 10
def scoreMultiplierDuration : ℚ := 10
def speedBoostMultiplier : ℚ := 3 / 2
def messageDisplayTime : ℚ := 2
def wavePauseDuration : ℚ := 2

end Config

/-! ## Constants of `GL/freeglut.h` used by the input handlers -/

namespace GLUT

def KEY_LEFT : Int := 100
def KEY_UP : Int := 101
def KEY_RIGHT : Int := 102
def KEY_DOWN : Int := 103
def LEFT_BUTTON : Int := 0
def DOWN : Int := 0

end GLUT

/-! ## Data model -/

/-- The `struct GameState`, with the default member initialisers of the source. -/
structure GameState where
  playerX : ℚ := Config.windowWidth / 2
  playerY : ℚ := 50
  health : Int := Config.maxHealth
  score : Int := 0
  bulletCount : Int := 1
  wave : Int := 1
  enemiesToSpawn : Int := 0
  bulletPowerUpEndTime : ℚ := 0
  speedBoostMultiplier : ℚ := 1
  speedBoostEndTime : ℚ := 0
  fasterShootingEndTime : ℚ := 0
  invincibilityEndTime : ℚ := 0
  scoreMultiplierEndTime : ℚ := 0
  scoreMultiplier : ℚ := 1
  gameOver : Bool := false
  paused : Bool := false
  useMouseControl : Bool := false
  lastShotTime : ℚ := 0
  lastSpawnTime : ℚ := 0
  lastPowerUpSpawnTime : ℚ := 0
  nextWaveTime : ℚ := 0
  message : String := ""
  messageEndTime : ℚ := 0
  deriving DecidableEq

/-- The `struct Bullet`. -/
structure Bullet where
  x : ℚ
  y : ℚ
  dy : ℚ
  deriving DecidableEq

/-- The `struct Enemy`. -/
structure Enemy where
  x : ℚ
  y : ℚ
  speed : ℚ
  rotation : ℚ
  deriving DecidableEq

/-- The `enum class PowerUpType`. -/
inductive PowerUpType where
  | BULLET_INCREASER
  | SPEED_BOOST
  | HEALTH_RESTORE
  | FASTER_SHOOTING
  | INVINCIBILITY
  | SCORE_MULTIPLIER
  deriving DecidableEq

/-- The `struct PowerUp`. -/
structure PowerUp where
  type : PowerUpType
  x : ℚ
  y : ℚ
  rotation : ℚ
  deriving DecidableEq

/-- All mutable program state: the globals of `main.cpp` and the static local
`lastTime` of `update` (`none` until the first call of `update`). -/
structure World where
  game : GameState := {}
  bullets : List Bullet := []
  enemies : List Enemy := []
  powerUps : List PowerUp := []
  keyA : Bool := false
  keyD : Bool := false
  keyW : Bool := false
  keyS : Bool := false
  keyUp : Bool := false
  keyDown : Bool := false
  keyLeft : Bool := false
  keyRight : Bool := false
  mouseX : ℚ := 0
  mouseY : ℚ := 0
  lastTime : Option ℚ := none
  deriving DecidableEq

/-- The three results of `rand()` a tick may consume: the enemy column in
`spawnEnemy`, then the type and the column in `spawnPowerUp`. -/
structure Rand where
  enemyX : Nat := 0
  powerType : Nat := 0
  powerX : Nat := 0
  deriving DecidableEq

/-- The program state at start-up: zero-initialised globals, default `GameState`. -/
def initWorld : World := {}

/-- Conversion `static_cast<int>(q)` of a float: truncation toward zero. -/
def truncToInt (q : ℚ) : Int := Int.tdiv q.num (q.den : Int)

/-! ## `restartGame` and `checkCollision` -/

/-- The function `restartGame`: a fresh `GameState`, the three collections cleared. -/
def restartGame (w : World) : World :=
  { w with game := {}, bullets := [], enemies := [], powerUps := [] }

/-- The function `checkCollision`: AABB test on boxes of 80% of the nominal size. -/
def checkCollision (x1 y1 size1 x2 y2 size2 : ℚ) : Bool :=
  let half1 := size1 * (8 / 10) / 2
  let half2 := size2 * (8 / 10) / 2
  decide (x1 - half1 < x2 + half2) && decide (x1 + half1 > x2 - half2) &&
    decide (y1 - half1 < y2 + half2) && decide (y1 + half1 > y2 - half2)

/-! ## The stages of `update` -/

/-- First `if` of "Check power-up expirations": the bullet power-up. -/
def expireBulletPowerUp (g : GameState) (currentTime : ℚ) : GameState :=
  if currentTime > g.bulletPowerUpEndTime ∧ g.bulletCount > 1 then
    { g with bulletCount := 1 }
  else g

/-- Second `if` of "Check power-up expirations": the speed boost. -/
def expireSpeedBoost (g : GameState) (currentTime : ℚ) : GameState :=
  if currentTime > g.speedBoostEndTime ∧ g.speedBoostMultiplier > 1 then
    { g with speedBoostMultiplier := 1 }
  else g

/-- Last `if` of "Check power-up expirations": the score multiplier (the `if`
on `fasterShootingEndTime` before it has an empty body). -/
def expireScoreMultiplier (g : GameState) (currentTime : ℚ) : GameState :=
  if currentTime > g.scoreMultiplierEndTime ∧ g.scoreMultiplier > 1 then
    { g with scoreMultiplier := 1 }
  else g

/-- Stage "Check power-up expirations" of `update`. -/
def expireEffects (g : GameState) (currentTime : ℚ) : GameState :=
  let g := expireBulletPowerUp g currentTime
  let g := expireSpeedBoost g currentTime
  expireScoreMultiplier g currentTime

/-- The pointer-seek branch of "Player movement": move toward the pointer by
`effectiveSpeed * deltaTime` unless within the stop distance, then clamp both
coordinates with `std::max(lo, std::min(hi, v))`. -/
def moveByMouse (sqrtf : ℚ → ℚ) (g : GameState) (mouseX mouseY effectiveSpeed deltaTime : ℚ) :
    GameState :=
  let dx := mouseX - g.playerX
  let dy := mouseY - g.playerY
  let distance := sqrtf (dx * dx + dy * dy)
  if distance > Config.playerMouseStopDist then
    let speed := effectiveSpeed * deltaTime
    let moveX := (dx / distance) * speed
    let moveY := (dy / distance) * speed
    { g with
      playerX := max (Config.playerSize / 2)
        (min (Config.windowWidth - Config.playerSize / 2) (g.playerX + moveX))
      playerY := max (Config.playerSize / 2)
        (min (Config.windowHeight - Config.playerSize / 2) (g.playerY + moveY)) }
  else g

/-- Keyboard move left: `if ((keyA || keyLeft) && playerX > playerSize / 2)`. -/
def moveLeft (g : GameState) (held : Bool) (effectiveSpeed deltaTime : ℚ) : GameState :=
  if held = true ∧ g.playerX > Config.playerSize / 2 then
    { g with playerX := g.playerX - effectiveSpeed * deltaTime }
  else g

/-- Keyboard move right: `if ((keyD || keyRight) && playerX < windowWidth - playerSize / 2)`. -/
def moveRight (g : GameState) (held : Bool) (effectiveSpeed deltaTime : ℚ) : GameState :=
  if held = true ∧ g.playerX < Config.windowWidth - Config.playerSize / 2 then
    { g with playerX := g.playerX + effectiveSpeed * deltaTime }
  else g

/-- Keyboard move up: `if ((keyW || keyUp) && playerY < windowHeight - playerSize / 2)`. -/
def moveUp (g : GameState) (held : Bool) (effectiveSpeed deltaTime : ℚ) : GameState :=
  if held = true ∧ g.playerY < Config.windowHeight - Config.playerSize / 2 then
    { g with playerY := g.playerY + effectiveSpeed * deltaTime }
  else g

/-- Keyboard move down: `if ((keyS || keyDown) && playerY > playerSize / 2)`. -/
def moveDown (g : GameState) (held : Bool) (effectiveSpeed deltaTime : ℚ) : GameState :=
  if held = true ∧ g.playerY > Config.playerSize / 2 then
    { g with playerY := g.playerY - effectiveSpeed * deltaTime }
  else g

/-- Stage "Player movement" of `update`: pointer-seek with clamping when
`useMouseControl`, else the four guarded keyboard moves in source order. -/
def movePlayer (sqrtf : ℚ → ℚ) (w : World) (deltaTime : ℚ) : GameState :=
  let effectiveSpeed := Config.playerSpeed * w.game.speedBoostMultiplier
  if w.game.useMouseControl = true then
    moveByMouse sqrtf w.game w.mouseX w.mouseY effectiveSpeed deltaTime
  else
    let g := moveLeft w.game (w.keyA || w.keyLeft) effectiveSpeed deltaTime
    let g := moveRight g (w.keyD || w.keyRight) effectiveSpeed deltaTime
    let g := moveUp g (w.keyW || w.keyUp) effectiveSpeed deltaTime
    moveDown g (w.keyS || w.keyDown) effectiveSpeed deltaTime

/-- Stage "Update bullets": advance, then erase those above the window. -/
def moveBullets (bullets : List Bullet) (deltaTime : ℚ) : List Bullet :=
  (bullets.map fun b => { b with y := b.y + b.dy * deltaTime }).filter
    fun b => !decide (b.y > Config.windowHeight)

/-- Stage "Update enemies". -/
def moveEnemies (enemies : List Enemy) (deltaTime : ℚ) : List Enemy :=
  enemies.map fun e =>
    { e with y := e.y - e.speed * deltaTime
             rotation := e.rotation + Config.enemyRotationSpeed * deltaTime }

/-- Stage "Update power-ups". -/
def movePowerUps (powerUps : List PowerUp) (deltaTime : ℚ) : List PowerUp :=
  powerUps.map fun pu =>
    { pu with y := pu.y - Config.powerUpSpeed * deltaTime
              rotation := pu.rotation + Config.powerUpRotationSpeed * deltaTime }

/-- The local `spawnInterval` of `update`. -/
def spawnIntervalOf (score : Int) : ℚ :=
  max (Config.spawnInterval / (1 + (score : ℚ) * (1 / 100))) (1 / 2)

/-- The wave-advance `if` of the stage "Spawn enemies (wave-based)": the quota
is assigned from `game.wave` first, then `game.wave++`, and the message is built
from the incremented wave. -/
def waveStep (g : GameState) (enemies : List Enemy) (currentTime : ℚ) : GameState :=
  if g.enemiesToSpawn = 0 ∧ enemies.isEmpty = true ∧ currentTime > g.nextWaveTime then
    { g with
      enemiesToSpawn := Int.tdiv g.wave 2 + 1
      wave := g.wave + 1
      message := "Wave " ++ toString (g.wave + 1) ++ " Started!"
      messageEndTime := currentTime + Config.messageDisplayTime
      nextWaveTime := currentTime + Config.wavePauseDuration }
  else g

/-- The function `spawnEnemy`. -/
def spawnEnemy (g : GameState) (enemies : List Enemy) (currentTime : ℚ) (r : Nat) :
    GameState × List Enemy :=
  let speed := Config.enemyBaseSpeed + min ((g.score : ℚ) * 5 + (g.wave : ℚ) * 2) 300
  let x : Int := Int.tmod (r : Int) (truncToInt (Config.windowWidth - 20)) + 10
  ({ g with lastSpawnTime := currentTime },
    enemies ++ [{ x := (x : ℚ), y := Config.windowHeight, speed := speed, rotation := 0 }])

/-- The spawn `if` of the stage "Spawn enemies (wave-based)"; `spawnInterval` is
the value computed before the wave-advance `if`. -/
def enemySpawnStep (g : GameState) (enemies : List Enemy) (currentTime spawnInterval : ℚ)
    (r : Nat) : GameState × List Enemy :=
  if g.enemiesToSpawn > 0 ∧ currentTime - g.lastSpawnTime > spawnInterval then
    let ge := spawnEnemy g enemies currentTime r
    ({ ge.1 with
        enemiesToSpawn := ge.1.enemiesToSpawn - 1
        lastSpawnTime := currentTime - spawnInterval + 1 / 2 }, ge.2)
  else (g, enemies)

/-- The type chosen by `spawnPowerUp` from `rand() % 6`. -/
def powerUpTypeOf (randType : Int) : PowerUpType :=
  if randType = 0 then .BULLET_INCREASER
  else if randType = 1 then .SPEED_BOOST
  else if randType = 2 then .HEALTH_RESTORE
  else if randType = 3 then .FASTER_SHOOTING
  else if randType = 4 then .INVINCIBILITY
  else .SCORE_MULTIPLIER

/-- The function `spawnPowerUp`. -/
def spawnPowerUp (g : GameState) (powerUps : List PowerUp) (currentTime : ℚ) (r : Rand) :
    GameState × List PowerUp :=
  let type := powerUpTypeOf (Int.tmod (r.powerType : Int) 6)
  let x : Int := Int.tmod (r.powerX : Int) (truncToInt (Config.windowWidth - 20)) + 10
  ({ g with lastPowerUpSpawnTime := currentTime },
    powerUps ++ [{ type := type, x := (x : ℚ), y := Config.windowHeight, rotation := 0 }])

/-- Stage "Spawn power-ups". -/
def powerUpSpawnStep (g : GameState) (powerUps : List PowerUp) (currentTime : ℚ) (r : Rand) :
    GameState × List PowerUp :=
  if currentTime - g.lastPowerUpSpawnTime > Config.powerUpSpawnInterval then
    spawnPowerUp g powerUps currentTime r
  else (g, powerUps)

/-- Inner loop of "bullets vs enemies" for one enemy: the bullets left after
erasing the first one that overlaps `e`, and the flag `hit`. -/
def hitScan (e : Enemy) : List Bullet → List Bullet × Bool
  | [] => ([], false)
  | b :: bs =>
    if checkCollision b.x b.y Config.bulletSize e.x e.y Config.enemySize = true then
      (bs, true)
    else
      ((hitScan e bs).1.cons b, (hitScan e bs).2)

/-- Stage "Collision detection (bullets vs enemies)": the outer loop over the
enemies in order, threading the game state (score) and the bullets. -/
def bulletsVsEnemies (g : GameState) (bullets : List Bullet) :
    List Enemy → GameState × List Bullet × List Enemy
  | [] => (g, bullets, [])
  | e :: es =>
    if (hitScan e bullets).2 = true then
      bulletsVsEnemies
        { g with score := g.score + truncToInt (1 * g.scoreMultiplier) }
        (hitScan e bullets).1 es
    else
      let r := bulletsVsEnemies g (hitScan e bullets).1 es
      (r.1, r.2.1, e :: r.2.2)

/-- Body of the `if (currentTime > game.invincibilityEndTime)` of the stage
"player vs enemies": one point of damage and the game-over test. -/
def damagePlayer (g : GameState) (currentTime : ℚ) : GameState :=
  if currentTime > g.invincibilityEndTime then
    if g.health - 1 ≤ 0 then { g with health := g.health - 1, gameOver := true }
    else { g with health := g.health - 1 }
  else g

/-- Stage "Collision detection (player vs enemies)". -/
def playerVsEnemies (currentTime : ℚ) (g : GameState) : List Enemy → GameState × List Enemy
  | [] => (g, [])
  | e :: es =>
    if checkCollision g.playerX g.playerY Config.playerSize e.x e.y Config.enemySize = true then
      playerVsEnemies currentTime (damagePlayer g currentTime) es
    else
      let r := playerVsEnemies currentTime g es
      (r.1, e :: r.2)

/-- The `switch (pu->type)` of the stage "player vs power-ups". -/
def applyPowerUp (g : GameState) (currentTime : ℚ) : PowerUpType → GameState
  | .BULLET_INCREASER =>
    if g.bulletCount < Config.maxBulletCount then
      { g with bulletCount := g.bulletCount + 1
               bulletPowerUpEndTime := currentTime + Config.bulletPowerUpDuration
               message := "Bullet Power-Up!"
               messageEndTime := currentTime + Config.messageDisplayTime }
    else g
  | .SPEED_BOOST =>
    { g with speedBoostMultiplier := Config.speedBoostMultiplier
             speedBoostEndTime := currentTime + Config.speedPowerUpDuration
             message := "Speed Boost!"
             messageEndTime := currentTime + Config.messageDisplayTime }
  | .HEALTH_RESTORE =>
    if g.health < Config.maxHealth then
      { g with health := g.health + 1
               message := "Health Restored!"
               messageEndTime := currentTime + Config.messageDisplayTime }
    else g
  | .FASTER_SHOOTING =>
    { g with fasterShootingEndTime := currentTime + Config.fasterShootingDuration
             message := "Faster Shooting!"
             messageEndTime := currentTime + Config.messageDisplayTime }
  | .INVINCIBILITY =>
    { g with invincibilityEndTime := currentTime + Config.invincibilityDuration
             message := "Invincibility!"
             messageEndTime := currentTime + Config.messageDisplayTime }
  | .SCORE_MULTIPLIER =>
    { g with scoreMultiplier := 2
             scoreMultiplierEndTime := currentTime + Config.scoreMultiplierDuration
             message := "Score Multiplier!"
             messageEndTime := currentTime + Config.messageDisplayTime }

/-- Stage "Collision detection (player vs power-ups)". -/
def playerVsPowerUps (currentTime : ℚ) (g : GameState) :
    List PowerUp → GameState × List PowerUp
  | [] => (g, [])
  | pu :: ps =>
    if checkCollision g.playerX g.playerY Config.playerSize pu.x pu.y Config.powerUpSize
        = true then
      playerVsPowerUps currentTime (applyPowerUp g currentTime pu.type) ps
    else
      let r := playerVsPowerUps currentTime g ps
      (r.1, pu :: r.2)

/-- Stage "Remove off-screen enemies". -/
def cullEnemies (enemies : List Enemy) : List Enemy :=
  enemies.filter fun e => !decide (e.y < 0)

/-- Stage "Remove off-screen power-ups". -/
def cullPowerUps (powerUps : List PowerUp) : List PowerUp :=
  powerUps.filter fun pu => !decide (pu.y < 0)

/-- The body of `update` below the `gameOver || paused` early return, for a
given `currentTime` and `deltaTime`: the stages in source order. -/
def simulate (sqrtf : ℚ → ℚ) (w : World) (currentTime deltaTime : ℚ) (r : Rand) : World :=
  let g := expireEffects w.game currentTime
  let g := movePlayer sqrtf { w with game := g } deltaTime
  let bullets := moveBullets w.bullets deltaTime
  let enemies := moveEnemies w.enemies deltaTime
  let powerUps := movePowerUps w.powerUps deltaTime
  let spawnInterval := spawnIntervalOf g.score
  let g := waveStep g enemies currentTime
  let ge := enemySpawnStep g enemies currentTime spawnInterval r.enemyX
  let gp := powerUpSpawnStep ge.1 powerUps currentTime r
  let be := bulletsVsEnemies gp.1 bullets ge.2
  let pe := playerVsEnemies currentTime be.1 be.2.2
  let pp := playerVsPowerUps currentTime pe.1 gp.2
  { w with game := pp.1, bullets := be.2.1, enemies := cullEnemies pe.2,
           powerUps := cullPowerUps pp.2 }

/-- One frame with the elapsed time supplied: the early return of `update`
when `gameOver || paused`, else the simulation stages. -/
def frame (sqrtf : ℚ → ℚ) (w : World) (currentTime deltaTime : ℚ) (r : Rand) : World :=
  if (w.game.gameOver || w.game.paused) = true then w
  else simulate sqrtf w currentTime deltaTime r

/-- The function `update`, called at clock value `currentTime`: `lastTime` is
initialised to the clock on the first call, `deltaTime = currentTime - lastTime`,
and `lastTime` is stored before the early return. -/
def update (sqrtf : ℚ → ℚ) (w : World) (currentTime : ℚ) (r : Rand) : World :=
  let lastTime := w.lastTime.getD currentTime
  let deltaTime := currentTime - lastTime
  frame sqrtf { w with lastTime := some currentTime } currentTime deltaTime r

/-! ## Input handlers -/

/-- Assignment to `game.paused`. -/
def setPaused (w : World) (b : Bool) : World :=
  { w with game := { w.game with paused := b } }

/-- Assignment to `game.useMouseControl`. -/
def setUseMouseControl (w : World) (b : Bool) : World :=
  { w with game := { w.game with useMouseControl := b } }

/-- Assignment to `keyA`. -/
def setKeyA (w : World) (b : Bool) : World := { w with keyA := b }

/-- Assignment to `keyD`. -/
def setKeyD (w : World) (b : Bool) : World := { w with keyD := b }

/-- Assignment to `keyW`. -/
def setKeyW (w : World) (b : Bool) : World := { w with keyW := b }

/-- Assignment to `keyS`. -/
def setKeyS (w : World) (b : Bool) : World := { w with keyS := b }

/-- Assignment to `keyUp`. -/
def setKeyUp (w : World) (b : Bool) : World := { w with keyUp := b }

/-- Assignment to `keyDown`. -/
def setKeyDown (w : World) (b : Bool) : World := { w with keyDown := b }

/-- Assignment to `keyLeft`. -/
def setKeyLeft (w : World) (b : Bool) : World := { w with keyLeft := b }

/-- Assignment to `keyRight`. -/
def setKeyRight (w : World) (b : Bool) : World := { w with keyRight := b }

/-- The burst pushed by a fire: `bulletCount` bullets from `startX`, one
`bulletOffset` apart. -/
def burst (g : GameState) : List Bullet :=
  let startX := g.playerX - ((g.bulletCount - 1 : Int) : ℚ) * Config.bulletOffset / 2
  (List.range g.bulletCount.toNat).map fun i =>
    { x := startX + (i : ℚ) * Config.bulletOffset
      y := g.playerY + Config.playerSize / 2
      dy := Config.bulletSpeed }

/-- The local `effectiveCooldown` of the fire block. -/
def effectiveCooldown (g : GameState) (currentTime : ℚ) : ℚ :=
  if currentTime < g.fasterShootingEndTime then Config.fastBulletCooldown
  else Config.bulletCooldown

/-- The fire block, textually the same in `keyboardDown` (space) and `mouse`
(left click): cooldown test, burst, `lastShotTime`. -/
def fire (w : World) (currentTime : ℚ) : World :=
  if currentTime - w.game.lastShotTime > effectiveCooldown w.game currentTime then
    { w with bullets := w.bullets ++ burst w.game
             game := { w.game with lastShotTime := currentTime } }
  else w

/-- The function `keyboardDown` (the pointer coordinates it receives are unused). -/
def keyboardDown (w : World) (key : Char) (currentTime : ℚ) : World :=
  let w := if key = 'a' ∨ key = 'A' then setKeyA w true else w
  let w := if key = 'd' ∨ key = 'D' then setKeyD w true else w
  let w := if key = 'w' ∨ key = 'W' then setKeyW w true else w
  let w := if key = 's' ∨ key = 'S' then setKeyS w true else w
  let w := if key = 'p' ∨ key = 'P' then setPaused w (!w.game.paused) else w
  let w := if key = 'r' ∨ key = 'R' then restartGame w else w
  let w := if key = 'm' ∨ key = 'M' then setUseMouseControl w (!w.game.useMouseControl) else w
  if key = Char.ofNat 32 then fire w currentTime else w

/-- The function `keyboardUp`. -/
def keyboardUp (w : World) (key : Char) : World :=
  let w := if key = 'a' ∨ key = 'A' then setKeyA w false else w
  let w := if key = 'd' ∨ key = 'D' then setKeyD w false else w
  let w := if key = 'w' ∨ key = 'W' then setKeyW w false else w
  if key = 's' ∨ key = 'S' then setKeyS w false else w

/-- The function `specialDown`. -/
def specialDown (w : World) (key : Int) : World :=
  let w := if key = GLUT.KEY_UP then setKeyUp w true else w
  let w := if key = GLUT.KEY_DOWN then setKeyDown w true else w
  let w := if key = GLUT.KEY_LEFT then setKeyLeft w true else w
  if key = GLUT.KEY_RIGHT then setKeyRight w true else w

/-- The function `specialUp`. -/
def specialUp (w : World) (key : Int) : World :=
  let w := if key = GLUT.KEY_UP then setKeyUp w false else w
  let w := if key = GLUT.KEY_DOWN then setKeyDown w false else w
  let w := if key = GLUT.KEY_LEFT then setKeyLeft w false else w
  if key = GLUT.KEY_RIGHT then setKeyRight w false else w

/-- The function `mouse`. -/
def mouse (w : World) (button state x y : Int) (currentTime : ℚ) : World :=
  if state ≠ GLUT.DOWN then w
  else
    let flippedY : Int := truncToInt (Config.windowHeight - (y : ℚ))
    let w := if w.game.gameOver = false ∧ w.game.paused = false ∧ button = GLUT.LEFT_BUTTON then
      fire w currentTime else w
    let w := if w.game.gameOver = false ∧ (x : ℚ) ≥ Config.windowWidth - 80 ∧
        (x : ℚ) ≤ Config.windowWidth ∧ (flippedY : ℚ) ≥ Config.windowHeight - 40 ∧
        (flippedY : ℚ) ≤ Config.windowHeight - 10 then
      setPaused w true else w
    let w := if w.game.paused = true ∧ x ≥ 200 ∧ x ≤ 300 ∧ flippedY ≥ 220 ∧ flippedY ≤ 250 then
      setPaused w false else w
    if w.game.gameOver = true ∧ (x : ℚ) ≥ Config.posX ∧ (x : ℚ) ≤ Config.posX + 100 ∧
        (flippedY : ℚ) ≥ Config.posY ∧ (flippedY : ℚ) ≤ Config.posY + 40 then
      restartGame w
    else w

/-- The function `passiveMotion`. -/
def passiveMotion (w : World) (x y : Int) : World :=
  { w with mouseX := (x : ℚ), mouseY := Config.windowHeight - (y : ℚ) }

/-! ## Runs of the program -/

/-- What the event loop can deliver: timer ticks (`update`), the input
callbacks, a frame whose elapsed time is given directly, and a direct call of
`restartGame`. -/
inductive Event where
  | tick (currentTime : ℚ) (r : Rand)
  | tickDelta (currentTime deltaTime : ℚ) (r : Rand)
  | keyDown (key : Char) (currentTime : ℚ)
  | keyUp (key : Char)
  | specialDown (key : Int)
  | specialUp (key : Int)
  | mouse (button state x y : Int) (currentTime : ℚ)
  | passiveMotion (x y : Int)
  | restart

/-- The effect of one event on the program state. -/
def step (sqrtf : ℚ → ℚ) (w : World) : Event → World
  | .tick currentTime r => update sqrtf w currentTime r
  | .tickDelta currentTime deltaTime r => frame sqrtf w currentTime deltaTime r
  | .keyDown key currentTime => keyboardDown w key currentTime
  | .keyUp key => keyboardUp w key
  | .specialDown key => specialDown w key
  | .specialUp key => specialUp w key
  | .mouse button state x y currentTime => mouse w button state x y currentTime
  | .passiveMotion x y => passiveMotion w x y
  | .restart => restartGame w

/-- The state after a sequence of events. -/
def run (sqrtf : ℚ → ℚ) (w : World) (evs : List Event) : World :=
  evs.foldl (step sqrtf) w

/-- States reachable from start-up by any sequence of events. -/
def Reachable (sqrtf : ℚ → ℚ) (w : World) : Prop :=
  ∃ evs : List Event, run sqrtf initWorld evs = w


/-! ## Predicates, reference definitions and concrete runs used in the statements -/

/-- The atomic writes to the game state made inside `update`. -/
structure TickStable (P : GameState → Prop) (t : ℚ) : Prop where
  expire : ∀ g, P g → P (expireEffects g t)
  move : ∀ (sqrtf : ℚ → ℚ) (w : World) (dt : ℚ), P w.game → P (movePlayer sqrtf w dt)
  wave : ∀ g es, P g → P (waveStep g es t)
  spawn : ∀ g es si r, P g → P (enemySpawnStep g es t si r).1
  power : ∀ g ps r, P g → P (powerUpSpawnStep g ps t r).1
  score : ∀ g, P g → P { g with score := g.score + truncToInt (1 * g.scoreMultiplier) }
  damage : ∀ g, P g → P (damagePlayer g t)
  apply : ∀ g ty, P g → P (applyPowerUp g t ty)

/-- The atomic writes to the game state made by the input handlers. -/
structure InputStable (P : GameState → Prop) : Prop where
  shot : ∀ (g : GameState) (t : ℚ), P g → P { g with lastShotTime := t }
  pause : ∀ (g : GameState) (b : Bool), P g → P { g with paused := b }
  control : ∀ (g : GameState) (b : Bool), P g → P { g with useMouseControl := b }
  fresh : P {}

/-- The bullet count lies in `1 .. maxBulletCount`. -/
def BulletCountOk (g : GameState) : Prop :=
  1 ≤ g.bulletCount ∧ g.bulletCount ≤ Config.maxBulletCount

/-- Health is at most `maxHealth`, and positive as long as the game is not over. -/
def HealthOk (g : GameState) : Prop :=
  g.health ≤ Config.maxHealth ∧ (g.gameOver = false → 0 < g.health)

/-- The player position is inside the field bounds. -/
def InField (g : GameState) : Prop :=
  Config.playerSize / 2 ≤ g.playerX ∧ g.playerX ≤ Config.windowWidth - Config.playerSize / 2 ∧
    Config.playerSize / 2 ≤ g.playerY ∧ g.playerY ≤ Config.windowHeight - Config.playerSize / 2

/-- The specification's reading of one axis of `overlaps`: the two intervals
centred at `c1` and `c2`, of 80% of the nominal sizes, share a point (touching
ends do not count). -/
def shrunkOverlap (c1 size1 c2 size2 : ℚ) : Prop :=
  ∃ p : ℚ, (c1 - size1 * (8 / 10) / 2 < p ∧ p < c1 + size1 * (8 / 10) / 2) ∧
    (c2 - size2 * (8 / 10) / 2 < p ∧ p < c2 + size2 * (8 / 10) / 2)

/-- Stand-in for `sqrt` on the concrete runs below: they stay in keyboard mode,
where `update` never calls it. -/
def sqrtStub : ℚ → ℚ := fun _ => 0

/-- A run in which two enemies of one wave reach the player in the same tick,
twice.  Wave 1: one enemy in column 10 falls past the player.  Waves 2 and 3
(quota 2 each): the first enemy is spawned in column 500, the game is paused for
0.6 s (`p`, a tick, `p`), so the second enemy is spawned in column 500 only
0.01 s of simulated motion later; a 7 s frame then brings both onto the player
at (500, 50). -/
def doubleHitTrace : List Event :=
  [ .tick (11 / 10) {},
    .tick (91 / 10) {},
    .tick (92 / 10) { enemyX := 490 },
    .keyDown 'p' (93 / 10),
    .tick (98 / 10) {},
    .keyDown 'p' (98 / 10),
    .tick (981 / 100) { enemyX := 490 },
    .tick (1681 / 100) {},
    .tick (1682 / 100) { enemyX := 490 },
    .keyDown 'p' (1683 / 100),
    .tick (174 / 10) {},
    .keyDown 'p' (174 / 10),
    .tick (1741 / 100) { enemyX := 490 },
    .tick (2441 / 100) {} ]

/-- Key `s` pressed at start-up and held for thirteen timer ticks 16 ms apart. -/
def holdDownTrace : List Event :=
  .keyDown 's' 0 :: (List.range 13).map fun k => .tick ((16 * ((k : ℚ) + 1)) / 1000) {}

/-- A run that collects a bullet-increase power-up: it is spawned in column 500
at 5.1 s and has fallen onto the player at (500, 50) five seconds later. -/
def bulletPowerUpTrace : List Event :=
  [ .tick (51 / 10) { powerType := 0, powerX := 490 },
    .tick (101 / 10) {} ]

/-- A run that ends the game by three separate hits: the enemy of wave 1 and the
two enemies of wave 2, all in column 500, reach the player at (500, 50) one
after the other. -/
def gameOverTrace : List Event :=
  [ .tick (11 / 10) { enemyX := 490 },
    .tick (83 / 10) {},
    .tick (84 / 10) { enemyX := 490 },
    .tick (90 / 10) { enemyX := 490 },
    .tick (154 / 10) {},
    .tick (160 / 10) {} ]

/-- The state after `p` is pressed at start-up: paused. -/
def pausedWorld : World := run sqrtStub initWorld [.keyDown 'p' (1 / 2)]

/-- The state after the space key is pressed at 1 s from start-up: one bullet in
flight, the game running. -/
def firedWorld : World := run sqrtStub initWorld [.keyDown (Char.ofNat 32) 1]

/-- The test of the inner loop of "bullets vs enemies": bullet `b` overlaps enemy `e`. -/
def bulletHits (e : Enemy) (b : Bullet) : Bool :=
  checkCollision b.x b.y Config.bulletSize e.x e.y Config.enemySize

/-- The test of "player vs enemies": enemy `e` overlaps the player of `g`. -/
def enemyTouches (g : GameState) (e : Enemy) : Bool :=
  checkCollision g.playerX g.playerY Config.playerSize e.x e.y Config.enemySize

/-- The test of "player vs power-ups": power-up `pu` overlaps the player of `g`. -/
def powerUpTouches (g : GameState) (pu : PowerUp) : Bool :=
  checkCollision g.playerX g.playerY Config.playerSize pu.x pu.y Config.powerUpSize

/-- An enemy on the player's start position (500, 50). -/
def enemyOnPlayer : Enemy := { x := 500, y := 50, speed := 104, rotation := 0 }

/-- An enemy in column 10, away from the player's start position. -/
def enemyAside : Enemy := { x := 10, y := 50, speed := 104, rotation := 0 }

/-- A power-up of the given type on the player's start position (500, 50). -/
def powerUpOnPlayer (type : PowerUpType) : PowerUp :=
  { type := type, x := 500, y := 50, rotation := 0 }

/-- A run that collects an invincibility power-up at 10.1 s (expiry 20.1 s) and
in which an enemy of wave 2, spawned in column 500 at 13.0 s, has fallen to
y = 47.4 when `update` is next called at 20.1 s. -/
def invincibleEdgeTrace : List Event :=
  [ .tick (51 / 10) { powerType := 4, powerX := 490 },
    .tick (101 / 10) {},
    .tick (129 / 10) {},
    .tick (130 / 10) { enemyX := 490 } ]

/-- A game state with bullet count 3, speed multiplier 1.5 and score multiplier
2, all three effects expiring at 20 s. -/
def boostedState : GameState :=
  { bulletCount := 3
    bulletPowerUpEndTime := 20
    speedBoostMultiplier := 3 / 2
    speedBoostEndTime := 20
    scoreMultiplier := 2
    scoreMultiplierEndTime := 20 }

/-- The initial game state with invincibility until 20.1 s. -/
def shieldedState : GameState := { invincibilityEndTime := 201 / 10 }

/-- A game state at full health with the maximal bullet count, its bullet
power-up expiring at 15 s. -/
def fullState : GameState := { bulletCount := 5, bulletPowerUpEndTime := 15 }

/-- A game state of wave 3 with two enemies still to spawn, last spawn time 8.7. -/
def spawnReadyState : GameState := { wave := 3, enemiesToSpawn := 2, lastSpawnTime := 87 / 10 }

/-- A bullet on the position of `enemyOnPlayer`. -/
def bulletOnTarget : Bullet := { x := 500, y := 50, dy := 400 }

/-- A bullet far from every enemy used below. -/
def bulletAside : Bullet := { x := 300, y := 400, dy := 400 }

/-- The magnitudes and counters take only the values the code assigns: the
speed multiplier is 1 or 1.5, the score multiplier 1 or 2, the score is not
negative and the wave number at least 1. -/
def MagnitudesOk (g : GameState) : Prop :=
  (g.speedBoostMultiplier = 1 ∨ g.speedBoostMultiplier = 3 / 2) ∧
    (g.scoreMultiplier = 1 ∨ g.scoreMultiplier = 2) ∧ 0 ≤ g.score ∧ 1 ≤ g.wave

/-- The magnitude and the expiry of every timed effect of a game state. -/
structure TimedEffects where
  bulletCount : Int
  bulletPowerUpEndTime : ℚ
  speedBoostMultiplier : ℚ
  speedBoostEndTime : ℚ
  fasterShootingEndTime : ℚ
  invincibilityEndTime : ℚ
  scoreMultiplier : ℚ
  scoreMultiplierEndTime : ℚ
  deriving DecidableEq

/-- The timed-effect fields of `GameState`. -/
def timedEffects (g : GameState) : TimedEffects :=
  { bulletCount := g.bulletCount
    bulletPowerUpEndTime := g.bulletPowerUpEndTime
    speedBoostMultiplier := g.speedBoostMultiplier
    speedBoostEndTime := g.speedBoostEndTime
    fasterShootingEndTime := g.fasterShootingEndTime
    invincibilityEndTime := g.invincibilityEndTime
    scoreMultiplier := g.scoreMultiplier
    scoreMultiplierEndTime := g.scoreMultiplierEndTime }

/-- The specification's `i`-th bullet of a burst of `N` bullets fired by the
player of `g`. -/
def fannedBullet (g : GameState) (N i : ℕ) : Bullet :=
  { x := g.playerX - ((N : ℚ) - 1) * Config.bulletOffset / 2 + (i : ℚ) * Config.bulletOffset
    y := g.playerY + Config.playerSize / 2
    dy := Config.bulletSpeed }

/-- The local `speed` of `spawnEnemy`, as a function of the game state. -/
def spawnSpeed (g : GameState) : ℚ :=
  Config.enemyBaseSpeed + min ((g.score : ℚ) * 5 + (g.wave : ℚ) * 2) 300

/-- A run that ends the game while a health restore is collected: the enemy of
wave 1 hits at 8.3 s, the two enemies of wave 2 at 15.4 s and 16.0 s; a
health-restore power-up spawned in column 500 at 11.0 s has fallen onto the
player at (500, 50) in the tick at 16.0 s. -/
def lateRestoreTrace : List Event :=
  [ .tick (11 / 10) { enemyX := 490 },
    .tick (51 / 10) {},
    .tick (83 / 10) {},
    .tick (84 / 10) { enemyX := 490 },
    .tick (90 / 10) { enemyX := 490 },
    .tick (110 / 10) { powerType := 2, powerX := 490 },
    .tick (154 / 10) {},
    .tick (160 / 10) {} ]

/-- A game state three seconds into every effect: bullet count 3, speed
multiplier 1.5 and score multiplier 2 with expiries 20, faster shooting and
invincibility until 18. -/
def activeState : GameState :=
  { bulletCount := 3
    bulletPowerUpEndTime := 20
    speedBoostMultiplier := 3 / 2
    speedBoostEndTime := 20
    fasterShootingEndTime := 18
    invincibilityEndTime := 18
    scoreMultiplier := 2
    scoreMultiplierEndTime := 20 }

/-- A power-up of the given type in column 10, away from the player's start
position. -/
def powerUpAside (type : PowerUpType) : PowerUp :=
  { type := type, x := 10, y := 50, rotation := 0 }

/-- The start-up state with bullet count 3 and one bullet already in flight. -/
def tripleWorld : World := { game := { bulletCount := 3 }, bullets := [bulletAside] }

/-! ## Binary32 evaluation of the rounding-sensitive tests

The collision test, the fire cooldown and the spawn pacing compare the results
of `float` arithmetic, so their outcome at a boundary depends on rounding.  The
definitions below evaluate the same source expressions with every `float`
operation rounded to binary32 (round to nearest, ties to even; no extended
precision and no fused multiply-add), on the binary32 values as exact
rationals.  Overflow to infinity, NaN and division by zero stay outside the
model. -/

/-- Rounding of a rational to the nearest integer, ties to the even one. -/
def roundNE (r : ℚ) : Int :=
  if r - (⌊r⌋ : ℚ) < 1 / 2 then ⌊r⌋
  else if 1 / 2 < r - (⌊r⌋ : ℚ) then ⌊r⌋ + 1
  else if ⌊r⌋ % 2 = 0 then ⌊r⌋ else ⌊r⌋ + 1

/-- The number of halvings that bring `n` below 2, at most `fuel` of them. -/
def log2Fuel : Nat → Nat → Nat
  | 0, _ => 0
  | fuel + 1, n => if 2 ≤ n then log2Fuel fuel (n / 2) + 1 else 0

/-- The floor of the base-2 logarithm of a natural number (0 at 0). -/
def nlog2 (n : Nat) : Nat := log2Fuel n n

/-- The floor of the base-2 logarithm of `|q|` for `q ≠ 0`: the difference of
the logarithms of numerator and denominator, or one less. -/
def ilog2 (q : ℚ) : Int :=
  if (2 : ℚ) ^ ((nlog2 q.num.natAbs : Int) - (nlog2 q.den : Int)) ≤ |q| then
    (nlog2 q.num.natAbs : Int) - (nlog2 q.den : Int)
  else (nlog2 q.num.natAbs : Int) - (nlog2 q.den : Int) - 1

/-- The binary32 exponent of `q`: the floor of the base-2 logarithm of `|q|`,
not below the exponent -126 of the subnormal numbers. -/
def expOf (q : ℚ) : Int := max (ilog2 q) (-126)

/-- The spacing of the binary32 numbers at `q` (24 significant bits). -/
def ulp32 (q : ℚ) : ℚ := (2 : ℚ) ^ (expOf q - 23)

/-- The binary32 number nearest to `q`, ties to even: the value of a `float`
operation whose exact result is `q`.  Overflow to infinity is outside the model. -/
def f32 (q : ℚ) : ℚ := (roundNE (q / ulp32 q) : ℚ) * ulp32 q

/-- The value of `glutGet(GLUT_ELAPSED_TIME) / 1000.0f` when the clock reads `ms`
milliseconds. -/
def clock32 (ms : Int) : ℚ := f32 (f32 (ms : ℚ) / 1000)

/-- The locals `half1` and `half2` of `checkCollision` in binary32:
`size * 0.8f / 2`. -/
def half32 (size : ℚ) : ℚ := f32 (f32 (size * f32 (8 / 10)) / 2)

/-- The function `checkCollision` with every operation rounded to binary32. -/
def checkCollision32 (x1 y1 size1 x2 y2 size2 : ℚ) : Bool :=
  let half1 := half32 size1
  let half2 := half32 size2
  decide (f32 (x1 - half1) < f32 (x2 + half2)) && decide (f32 (x1 + half1) > f32 (x2 - half2)) &&
    decide (f32 (y1 - half1) < f32 (y2 + half2)) && decide (f32 (y1 + half1) > f32 (y2 - half2))

/-- The local `effectiveCooldown` of the fire block with the binary32 constants
`0.05f` and `0.2f`. -/
def effectiveCooldown32 (g : GameState) (currentTime : ℚ) : ℚ :=
  if currentTime < g.fasterShootingEndTime then f32 Config.fastBulletCooldown
  else f32 Config.bulletCooldown

/-- The fire block with its cooldown test in binary32; the burst is the one of
`fire`. -/
def fire32 (w : World) (currentTime : ℚ) : World :=
  if f32 (currentTime - w.game.lastShotTime) > effectiveCooldown32 w.game currentTime then
    { w with bullets := w.bullets ++ burst w.game
             game := { w.game with lastShotTime := currentTime } }
  else w

/-- The function `keyboardDown` with the fire block in binary32. -/
def keyboardDown32 (w : World) (key : Char) (currentTime : ℚ) : World :=
  let w := if key = 'a' ∨ key = 'A' then setKeyA w true else w
  let w := if key = 'd' ∨ key = 'D' then setKeyD w true else w
  let w := if key = 'w' ∨ key = 'W' then setKeyW w true else w
  let w := if key = 's' ∨ key = 'S' then setKeyS w true else w
  let w := if key = 'p' ∨ key = 'P' then setPaused w (!w.game.paused) else w
  let w := if key = 'r' ∨ key = 'R' then restartGame w else w
  let w := if key = 'm' ∨ key = 'M' then setUseMouseControl w (!w.game.useMouseControl) else w
  if key = Char.ofNat 32 then fire32 w currentTime else w

/-- The function `mouse` with the fire block in binary32. -/
def mouse32 (w : World) (button state x y : Int) (currentTime : ℚ) : World :=
  if state ≠ GLUT.DOWN then w
  else
    let flippedY : Int := truncToInt (Config.windowHeight - (y : ℚ))
    let w := if w.game.gameOver = false ∧ w.game.paused = false ∧ button = GLUT.LEFT_BUTTON then
      fire32 w currentTime else w
    let w := if w.game.gameOver = false ∧ (x : ℚ) ≥ Config.windowWidth - 80 ∧
        (x : ℚ) ≤ Config.windowWidth ∧ (flippedY : ℚ) ≥ Config.windowHeight - 40 ∧
        (flippedY : ℚ) ≤ Config.windowHeight - 10 then
      setPaused w true else w
    let w := if w.game.paused = true ∧ x ≥ 200 ∧ x ≤ 300 ∧ flippedY ≥ 220 ∧ flippedY ≤ 250 then
      setPaused w false else w
    if w.game.gameOver = true ∧ (x : ℚ) ≥ Config.posX ∧ (x : ℚ) ≤ Config.posX + 100 ∧
        (flippedY : ℚ) ≥ Config.posY ∧ (flippedY : ℚ) ≤ Config.posY + 40 then
      restartGame w
    else w

/-- The local `spawnInterval` of `update` in binary32:
`std::max(Config::spawnInterval / (1.0f + game.score * 0.01f), 0.5f)`, the score
converted to `float` first.  A zero denominator (score -100) is outside the
model. -/
def spawnInterval32 (score : Int) : ℚ :=
  max (f32 (Config.spawnInterval / f32 (1 + f32 (f32 (score : ℚ) * f32 (1 / 100))))) (1 / 2)

/-- The spawn `if` of the stage "Spawn enemies (wave-based)" with its time test
and the new `lastSpawnTime` in binary32. -/
def enemySpawnStep32 (g : GameState) (enemies : List Enemy) (currentTime spawnInterval : ℚ)
    (r : Nat) : GameState × List Enemy :=
  if g.enemiesToSpawn > 0 ∧ f32 (currentTime - g.lastSpawnTime) > spawnInterval then
    let ge := spawnEnemy g enemies currentTime r
    ({ ge.1 with
        enemiesToSpawn := ge.1.enemiesToSpawn - 1
        lastSpawnTime := f32 (f32 (currentTime - spawnInterval) + 1 / 2) }, ge.2)
  else (g, enemies)

/-- The bound used below for the rounding of the new `lastSpawnTime`: four
units in the last place of `|now| + interval + 1`. -/
def spawnSlack (now interval : ℚ) : ℚ := (|now| + interval + 1) / 2 ^ 22

/-- The bound used below for the rounding of the sums compared by
`checkCollision` on one axis. -/
def collisionSlack (c1 size1 c2 size2 : ℚ) : ℚ :=
  (|c1| + |c2| + |half32 size1| + |half32 size2| + 1) / 2 ^ 24

/-- A run that collects a faster-shooting power-up: it is spawned in column 500
at 5.1 s and has fallen onto the player at 10.09 s (expiry 20.09 s). -/
def fasterShootingTrace : List Event :=
  [ .tick (51 / 10) { powerType := 3, powerX := 490 },
    .tick (1009 / 100) {} ]

/-- A game state with score 3 and two enemies still to spawn, last spawn time 15. -/
def scoreThreeState : GameState :=
  { score := 3, wave := 3, enemiesToSpawn := 2, lastSpawnTime := 15 }

/-- The state at the end of `fasterShootingTrace`: running, no bullet in flight,
faster shooting until 20.09 s. -/
def fasterShootingWorld : World := run sqrtStub initWorld fasterShootingTrace

/-- The result of the spawn step on `scoreThreeState` when the clock reads
16471 ms. -/
def scoreThreeSpawned : GameState × List Enemy :=
  enemySpawnStep32 scoreThreeState [] (clock32 16471) (spawnInterval32 scoreThreeState.score) 490

/-! ## Preservation of a predicate on the game state -/

theorem bulletsVsEnemies_preserves (P : GameState → Prop)
    (hscore : ∀ g, P g → P { g with score := g.score + truncToInt (1 * g.scoreMultiplier) })
    (es : List Enemy) : ∀ (g : GameState) (bs : List Bullet),
      P g → P (bulletsVsEnemies g bs es).1 := by
  induction es with
  | nil => intro g bs h; exact h
  | cons e es ih =>
    intro g bs h
    unfold bulletsVsEnemies
    split_ifs
    · exact ih _ _ (hscore g h)
    · exact ih _ _ h

theorem playerVsEnemies_preserves (P : GameState → Prop) (t : ℚ)
    (hdmg : ∀ g, P g → P (damagePlayer g t))
    (es : List Enemy) : ∀ g : GameState, P g → P (playerVsEnemies t g es).1 := by
  induction es with
  | nil => intro g h; exact h
  | cons e es ih =>
    intro g h
    unfold playerVsEnemies
    split_ifs
    · exact ih _ (hdmg g h)
    · exact ih _ h

theorem playerVsPowerUps_preserves (P : GameState → Prop) (t : ℚ)
    (happly : ∀ g ty, P g → P (applyPowerUp g t ty))
    (ps : List PowerUp) : ∀ g : GameState, P g → P (playerVsPowerUps t g ps).1 := by
  induction ps with
  | nil => intro g h; exact h
  | cons p ps ih =>
    intro g h
    unfold playerVsPowerUps
    split_ifs
    · exact ih _ (happly g p.type h)
    · exact ih _ h

theorem simulate_preserves (P : GameState → Prop) (t : ℚ) (hP : TickStable P t)
    (sqrtf : ℚ → ℚ) (w : World) (dt : ℚ) (r : Rand) (h : P w.game) :
    P (simulate sqrtf w t dt r).game := by
  unfold simulate
  apply playerVsPowerUps_preserves P t hP.apply
  apply playerVsEnemies_preserves P t hP.damage
  apply bulletsVsEnemies_preserves P hP.score
  apply hP.power
  apply hP.spawn
  apply hP.wave
  exact hP.move sqrtf { w with game := expireEffects w.game t } dt (hP.expire _ h)

theorem frame_preserves (P : GameState → Prop) (t : ℚ) (hP : TickStable P t)
    (sqrtf : ℚ → ℚ) (w : World) (dt : ℚ) (r : Rand) (h : P w.game) :
    P (frame sqrtf w t dt r).game := by
  unfold frame
  split_ifs
  · exact h
  · exact simulate_preserves P t hP sqrtf w dt r h

theorem update_preserves (P : GameState → Prop) (t : ℚ) (hP : TickStable P t)
    (sqrtf : ℚ → ℚ) (w : World) (r : Rand) (h : P w.game) :
    P (update sqrtf w t r).game :=
  frame_preserves P t hP sqrtf _ _ r h

theorem fire_preserves (P : GameState → Prop) (hP : InputStable P) (w : World) (t : ℚ)
    (h : P w.game) : P (fire w t).game := by
  unfold fire
  split_ifs
  · exact hP.shot _ _ h
  · exact h

/-- A conditional assignment keeps what both of its outcomes keep. -/
theorem ite_world {Q : World → Prop} {c : Prop} [Decidable c] {a b : World}
    (ha : Q a) (hb : Q b) : Q (if c then a else b) := by
  split_ifs <;> assumption

theorem keyboardDown_preserves (P : GameState → Prop) (hP : InputStable P) (w : World)
    (key : Char) (t : ℚ) (h : P w.game) : P (keyboardDown w key t).game := by
  unfold keyboardDown
  lift_lets
  intro w1 w2 w3 w4 w5 w6 w7
  have h1 : P w1.game := ite_world (Q := fun v => P v.game) h h
  have h2 : P w2.game := ite_world (Q := fun v => P v.game) h1 h1
  have h3 : P w3.game := ite_world (Q := fun v => P v.game) h2 h2
  have h4 : P w4.game := ite_world (Q := fun v => P v.game) h3 h3
  have h5 : P w5.game := ite_world (Q := fun v => P v.game) (hP.pause _ _ h4) h4
  have h6 : P w6.game := ite_world (Q := fun v => P v.game) hP.fresh h5
  have h7 : P w7.game := ite_world (Q := fun v => P v.game) (hP.control _ _ h6) h6
  exact ite_world (Q := fun v => P v.game) (fire_preserves P hP _ _ h7) h7

theorem mouse_preserves (P : GameState → Prop) (hP : InputStable P) (w : World)
    (button state x y : Int) (t : ℚ) (h : P w.game) :
    P (mouse w button state x y t).game := by
  unfold mouse
  by_cases hs : state ≠ GLUT.DOWN
  · rw [if_pos hs]; exact h
  · rw [if_neg hs]
    lift_lets
    intro fy w1 w2 w3
    have h1 : P w1.game := ite_world (Q := fun v => P v.game) (fire_preserves P hP _ _ h) h
    have h2 : P w2.game := ite_world (Q := fun v => P v.game) (hP.pause _ _ h1) h1
    have h3 : P w3.game := ite_world (Q := fun v => P v.game) (hP.pause _ _ h2) h2
    exact ite_world (Q := fun v => P v.game) hP.fresh h3

theorem keyboardUp_game (w : World) (key : Char) : (keyboardUp w key).game = w.game := by
  unfold keyboardUp
  lift_lets
  intro w1 w2 w3
  have h1 : w1.game = w.game := ite_world (Q := fun v => v.game = w.game) rfl rfl
  have h2 : w2.game = w.game := ite_world (Q := fun v => v.game = w.game) h1 h1
  have h3 : w3.game = w.game := ite_world (Q := fun v => v.game = w.game) h2 h2
  exact ite_world (Q := fun v => v.game = w.game) h3 h3

theorem specialDown_game (w : World) (key : Int) : (specialDown w key).game = w.game := by
  unfold specialDown
  lift_lets
  intro w1 w2 w3
  have h1 : w1.game = w.game := ite_world (Q := fun v => v.game = w.game) rfl rfl
  have h2 : w2.game = w.game := ite_world (Q := fun v => v.game = w.game) h1 h1
  have h3 : w3.game = w.game := ite_world (Q := fun v => v.game = w.game) h2 h2
  exact ite_world (Q := fun v => v.game = w.game) h3 h3

theorem specialUp_game (w : World) (key : Int) : (specialUp w key).game = w.game := by
  unfold specialUp
  lift_lets
  intro w1 w2 w3
  have h1 : w1.game = w.game := ite_world (Q := fun v => v.game = w.game) rfl rfl
  have h2 : w2.game = w.game := ite_world (Q := fun v => v.game = w.game) h1 h1
  have h3 : w3.game = w.game := ite_world (Q := fun v => v.game = w.game) h2 h2
  exact ite_world (Q := fun v => v.game = w.game) h3 h3

theorem step_preserves (P : GameState → Prop) (hT : ∀ t, TickStable P t) (hI : InputStable P)
    (sqrtf : ℚ → ℚ) (w : World) (ev : Event) (h : P w.game) : P (step sqrtf w ev).game := by
  cases ev with
  | tick t r => exact update_preserves P t (hT t) sqrtf w r h
  | tickDelta t dt r => exact frame_preserves P t (hT t) sqrtf w dt r h
  | keyDown key t => exact keyboardDown_preserves P hI w key t h
  | keyUp key => show P (keyboardUp w key).game; rw [keyboardUp_game]; exact h
  | specialDown key => show P (specialDown w key).game; rw [specialDown_game]; exact h
  | specialUp key => show P (specialUp w key).game; rw [specialUp_game]; exact h
  | mouse b s x y t => exact mouse_preserves P hI w b s x y t h
  | passiveMotion x y => exact h
  | restart => exact hI.fresh

theorem run_preserves (P : GameState → Prop) (hT : ∀ t, TickStable P t) (hI : InputStable P)
    (sqrtf : ℚ → ℚ) (evs : List Event) : ∀ w : World, P w.game → P (run sqrtf w evs).game := by
  induction evs with
  | nil => intro w h; exact h
  | cons ev evs ih =>
    intro w h
    exact ih _ (step_preserves P hT hI sqrtf w ev h)

theorem reachable_invariant (P : GameState → Prop) (hT : ∀ t, TickStable P t)
    (hI : InputStable P) (sqrtf : ℚ → ℚ) (w : World) (h : Reachable sqrtf w) : P w.game := by
  obtain ⟨evs, rfl⟩ := h
  exact run_preserves P hT hI sqrtf evs initWorld hI.fresh


/-! ## The collision test -/

theorem checkCollision_iff (x1 y1 size1 x2 y2 size2 : ℚ) :
    checkCollision x1 y1 size1 x2 y2 size2 = true ↔
      |x1 - x2| < 2 / 5 * (size1 + size2) ∧ |y1 - y2| < 2 / 5 * (size1 + size2) := by
  unfold checkCollision
  simp only [Bool.and_eq_true, decide_eq_true_eq, abs_lt]
  constructor
  · rintro ⟨⟨⟨h1, h2⟩, h3⟩, h4⟩
    refine ⟨⟨?_, ?_⟩, ⟨?_, ?_⟩⟩ <;> linarith
  · rintro ⟨⟨h1, h2⟩, ⟨h3, h4⟩⟩
    refine ⟨⟨⟨?_, ?_⟩, ?_⟩, ?_⟩ <;> linarith

theorem shrunkOverlap_iff (c1 size1 c2 size2 : ℚ) (h1 : 0 < size1) (h2 : 0 < size2) :
    shrunkOverlap c1 size1 c2 size2 ↔ |c1 - c2| < 2 / 5 * (size1 + size2) := by
  unfold shrunkOverlap
  rw [abs_lt]
  constructor
  · rintro ⟨p, ⟨a, b⟩, c, d⟩
    constructor <;> linarith
  · rintro ⟨a, b⟩
    refine ⟨(max (c1 - size1 * (8 / 10) / 2) (c2 - size2 * (8 / 10) / 2) +
      min (c1 + size1 * (8 / 10) / 2) (c2 + size2 * (8 / 10) / 2)) / 2, ?_⟩
    have hlt : max (c1 - size1 * (8 / 10) / 2) (c2 - size2 * (8 / 10) / 2) <
        min (c1 + size1 * (8 / 10) / 2) (c2 + size2 * (8 / 10) / 2) := by
      rw [max_lt_iff, lt_min_iff, lt_min_iff]
      refine ⟨⟨?_, ?_⟩, ?_, ?_⟩ <;> linarith
    have m1 := le_max_left (c1 - size1 * (8 / 10) / 2) (c2 - size2 * (8 / 10) / 2)
    have m2 := le_max_right (c1 - size1 * (8 / 10) / 2) (c2 - size2 * (8 / 10) / 2)
    have m3 := min_le_left (c1 + size1 * (8 / 10) / 2) (c2 + size2 * (8 / 10) / 2)
    have m4 := min_le_right (c1 + size1 * (8 / 10) / 2) (c2 + size2 * (8 / 10) / 2)
    refine ⟨⟨?_, ?_⟩, ?_, ?_⟩ <;> linarith

/-! ## Invariants of the bullet count and the health -/

theorem bulletCountOk_tick (t : ℚ) : TickStable BulletCountOk t where
  expire := by
    intro g h
    unfold expireEffects expireBulletPowerUp expireSpeedBoost expireScoreMultiplier
    unfold BulletCountOk at *
    simp only [Config.maxBulletCount] at *
    split_ifs <;> simp_all
  move := by
    intro sqrtf w dt h
    unfold movePlayer moveByMouse moveLeft moveRight moveUp moveDown
    unfold BulletCountOk at *
    simp only []
    split_ifs <;> exact h
  wave := by
    intro g es h
    unfold waveStep
    split_ifs <;> exact h
  spawn := by
    intro g es si r h
    unfold enemySpawnStep spawnEnemy
    split_ifs <;> exact h
  power := by
    intro g ps r h
    unfold powerUpSpawnStep spawnPowerUp
    split_ifs <;> exact h
  score := fun g h => h
  damage := by
    intro g h
    unfold damagePlayer
    split_ifs <;> exact h
  apply := by
    intro g ty h
    unfold BulletCountOk at *
    simp only [Config.maxBulletCount] at *
    cases ty <;> simp only [applyPowerUp, Config.maxBulletCount] <;> (try split_ifs) <;>
      first | exact h | (constructor <;> simp only [] <;> omega)

theorem bulletCountOk_input : InputStable BulletCountOk where
  shot := fun g t h => h
  pause := fun g b h => h
  control := fun g b h => h
  fresh := by unfold BulletCountOk; decide

theorem healthOk_tick (t : ℚ) : TickStable HealthOk t where
  expire := by
    intro g h
    unfold expireEffects expireBulletPowerUp expireSpeedBoost expireScoreMultiplier
    unfold HealthOk at *
    simp only []
    split_ifs <;> exact h
  move := by
    intro sqrtf w dt h
    unfold movePlayer moveByMouse moveLeft moveRight moveUp moveDown
    unfold HealthOk at *
    simp only []
    split_ifs <;> exact h
  wave := by
    intro g es h
    unfold waveStep
    split_ifs <;> exact h
  spawn := by
    intro g es si r h
    unfold enemySpawnStep spawnEnemy
    split_ifs <;> exact h
  power := by
    intro g ps r h
    unfold powerUpSpawnStep spawnPowerUp
    split_ifs <;> exact h
  score := fun g h => h
  damage := by
    intro g h
    unfold HealthOk at *
    simp only [Config.maxHealth] at *
    unfold damagePlayer
    split_ifs with h1 h2
    · exact ⟨by simp only []; omega, by simp⟩
    · exact ⟨by simp only []; omega, fun _ => by simp only []; omega⟩
    · exact h
  apply := by
    intro g ty h
    unfold HealthOk at *
    simp only [Config.maxHealth] at *
    cases ty <;> simp only [applyPowerUp, Config.maxHealth] <;> (try split_ifs) <;>
      first
      | exact h
      | exact ⟨by simp only []; omega, fun hg => by have := h.2 hg; simp only []; omega⟩

theorem healthOk_input : InputStable HealthOk where
  shot := fun g t h => h
  pause := fun g b h => h
  control := fun g b h => h
  fresh := by unfold HealthOk; decide

/-! ## C1: bounds on the health -/

/-- C1 (as stated, refuted): the state after `doubleHitTrace` is reachable and
has health `-1`, below the claimed lower bound `0`. -/
theorem C1_health_negative_reachable :
    Reachable sqrtStub (run sqrtStub initWorld doubleHitTrace) ∧
      (run sqrtStub initWorld doubleHitTrace).game.health = -1 ∧
      (run sqrtStub initWorld doubleHitTrace).game.gameOver = true :=
  ⟨⟨doubleHitTrace, rfl⟩, by decide!, by decide!⟩

/-- C1 (amended): in every state reachable from the initial state by ticks,
input events and restarts, health is at most `maxHealth`, and it is at least 1
(so within `0 .. maxHealth`) whenever the game is not over. -/
theorem C1_health_bounds (sqrtf : ℚ → ℚ) (w : World) (h : Reachable sqrtf w) :
    w.game.health ≤ Config.maxHealth ∧ (w.game.gameOver = false → 0 < w.game.health) :=
  reachable_invariant HealthOk healthOk_tick healthOk_input sqrtf w h

/-- Witness for C1: the state after the first double hit of `doubleHitTrace`,
where the game is running with health 1. -/
theorem C1_health_bounds_witness :
    (run sqrtStub initWorld (doubleHitTrace.take 8)).game.health = 1 ∧
      (run sqrtStub initWorld (doubleHitTrace.take 8)).game.gameOver = false ∧
      ((run sqrtStub initWorld (doubleHitTrace.take 8)).game.health ≤ Config.maxHealth ∧
        ((run sqrtStub initWorld (doubleHitTrace.take 8)).game.gameOver = false →
          0 < (run sqrtStub initWorld (doubleHitTrace.take 8)).game.health)) :=
  ⟨by decide!, by decide!,
    C1_health_bounds sqrtStub (run sqrtStub initWorld (doubleHitTrace.take 8))
      ⟨doubleHitTrace.take 8, rfl⟩⟩

/-! ## C2: the player stays in the field -/

/-- The pointer-seek branch of the movement stage leaves the player inside the
field, whatever `sqrt` returns: both coordinates are clamped. -/
theorem moveByMouse_inField (sqrtf : ℚ → ℚ) (g : GameState) (mx my v dt : ℚ)
    (h : InField g) : InField (moveByMouse sqrtf g mx my v dt) := by
  unfold moveByMouse
  simp only []
  split_ifs
  · unfold InField
    simp only [Config.playerSize, Config.windowWidth, Config.windowHeight]
    refine ⟨le_max_left _ _, max_le (by norm_num) (min_le_left _ _), le_max_left _ _,
      max_le (by norm_num) (min_le_left _ _)⟩
  · exact h

/-- C2 (the code at the failing input): after `holdDownTrace` the player is
inside the field at (500, 11.6) with key `s` held in keyboard mode; the next
16 ms tick moves it to y = 8.4, below the lower bound `playerSize / 2 = 10`. -/
theorem C2_keyboard_move_leaves_field :
    InField (run sqrtStub initWorld holdDownTrace).game ∧
      (run sqrtStub initWorld holdDownTrace).game.useMouseControl = false ∧
      (update sqrtStub (run sqrtStub initWorld holdDownTrace) (224 / 1000) {}).game.playerY
        = 42 / 5 ∧
      ¬ InField (update sqrtStub (run sqrtStub initWorld holdDownTrace) (224 / 1000) {}).game := by
  unfold InField
  decide!

/-! ## C3: bounds on the bullet count -/

/-- C3: in every state reachable from the initial state by ticks, input events
and restarts, `1 ≤ bulletCount ≤ maxBulletCount`. -/
theorem C3_bulletCount_bounds (sqrtf : ℚ → ℚ) (w : World) (h : Reachable sqrtf w) :
    1 ≤ w.game.bulletCount ∧ w.game.bulletCount ≤ Config.maxBulletCount :=
  reachable_invariant BulletCountOk bulletCountOk_tick bulletCountOk_input sqrtf w h

/-- Witness for C3: the state after collecting a bullet-increase power-up, where
the bullet count is 2. -/
theorem C3_bulletCount_bounds_witness :
    (run sqrtStub initWorld bulletPowerUpTrace).game.bulletCount = 2 ∧
      (1 ≤ (run sqrtStub initWorld bulletPowerUpTrace).game.bulletCount ∧
        (run sqrtStub initWorld bulletPowerUpTrace).game.bulletCount ≤ Config.maxBulletCount) :=
  ⟨by decide!,
    C3_bulletCount_bounds sqrtStub (run sqrtStub initWorld bulletPowerUpTrace)
      ⟨bulletPowerUpTrace, rfl⟩⟩

/-! ## C4: the wave transition -/

/-- C4 (as stated, refuted): from the initial game state (wave 1, quota 0, no
enemies, `nextWaveTime = 0`) the wave step at time 1 makes the wave 2 and the
quota 1, not `2 / 2 + 1 = 2`. -/
theorem C4_quota_from_wave_one :
    (waveStep {} [] 1).wave = 2 ∧ (waveStep {} [] 1).enemiesToSpawn = 1 ∧
      (waveStep {} [] 1).enemiesToSpawn ≠ Int.tdiv (waveStep {} [] 1).wave 2 + 1 := by
  decide!

/-- C4 (amended): with quota 0, no enemies alive and `now > nextWaveTime`, the
wave step increments the wave number, sets the quota to `wave / 2 + 1` by
integer division of the wave number before the increment, and sets
`nextWaveTime = now + wavePauseDuration`; from wave 1 the wave becomes 2 and
the quota `1 / 2 + 1 = 1`. -/
theorem C4_wave_transition (g : GameState) (enemies : List Enemy) (now : ℚ)
    (hq : g.enemiesToSpawn = 0) (he : enemies = []) (ht : now > g.nextWaveTime) :
    (waveStep g enemies now).wave = g.wave + 1 ∧
      (waveStep g enemies now).enemiesToSpawn = Int.tdiv g.wave 2 + 1 ∧
      (waveStep g enemies now).nextWaveTime = now + Config.wavePauseDuration ∧
      (g.wave = 1 →
        (waveStep g enemies now).wave = 2 ∧ (waveStep g enemies now).enemiesToSpawn = 1) := by
  subst he
  have hc : g.enemiesToSpawn = 0 ∧ ([] : List Enemy).isEmpty = true ∧ now > g.nextWaveTime :=
    ⟨hq, rfl, ht⟩
  unfold waveStep
  rw [if_pos hc]
  refine ⟨rfl, rfl, rfl, ?_⟩
  intro h1
  simp only [h1]
  decide

/-- Witness for C4: wave 3 with an empty field at time 12, pause over at 11. -/
theorem C4_wave_transition_witness :
    (waveStep { wave := 3, nextWaveTime := 11 } [] 12).wave = 3 + 1 ∧
      (waveStep { wave := 3, nextWaveTime := 11 } [] 12).enemiesToSpawn = Int.tdiv 3 2 + 1 ∧
      (waveStep { wave := 3, nextWaveTime := 11 } [] 12).nextWaveTime
        = 12 + Config.wavePauseDuration ∧
      ((3 : Int) = 1 →
        (waveStep { wave := 3, nextWaveTime := 11 } [] 12).wave = 2 ∧
          (waveStep { wave := 3, nextWaveTime := 11 } [] 12).enemiesToSpawn = 1) :=
  C4_wave_transition { wave := 3, nextWaveTime := 11 } [] 12 rfl rfl (by decide!)

/-! ## C5, C6, C7: the keyboard handler and the game mode -/

/-- C5 (the code at the failing input): in the paused state reached by pressing
`p`, the space key at time 1 adds a bullet and sets `lastShotTime` to 1. -/
theorem C5_space_fires_while_paused :
    pausedWorld.game.paused = true ∧ pausedWorld.bullets = [] ∧
      pausedWorld.game.lastShotTime = 0 ∧
      (keyboardDown pausedWorld (Char.ofNat 32) 1).bullets
        = [{ x := 500, y := 60, dy := 400 }] ∧
      (keyboardDown pausedWorld (Char.ofNat 32) 1).game.lastShotTime = 1 := by
  decide!

/-- C6 (the code at the failing input): with the game running (`gameOver`
false) and a bullet in flight, key `r` resets the game state and clears the
bullets. -/
theorem C6_r_restarts_while_playing :
    firedWorld.game.gameOver = false ∧ firedWorld.bullets.length = 1 ∧
      firedWorld.game.lastShotTime = 1 ∧
      (keyboardDown firedWorld 'r' 2).bullets = [] ∧
      (keyboardDown firedWorld 'r' 2).game = {} := by
  decide!

/-- C7 (the code at the failing input): after `gameOverTrace` the game is over,
and pressing `p` then sets `paused` as well; the resulting state is reachable
and has both flags set. -/
theorem C7_paused_and_gameOver_reachable :
    (run sqrtStub initWorld gameOverTrace).game.gameOver = true ∧
      Reachable sqrtStub (run sqrtStub initWorld (gameOverTrace ++ [.keyDown 'p' 17])) ∧
      (run sqrtStub initWorld (gameOverTrace ++ [.keyDown 'p' 17])).game.paused = true ∧
      (run sqrtStub initWorld (gameOverTrace ++ [.keyDown 'p' 17])).game.gameOver = true :=
  ⟨by decide!, ⟨_, rfl⟩, by decide!, by decide!⟩

/-! ## C8: no simulation while paused or game over -/

/-- C8: when `paused` or `gameOver` is set, a frame with any time and elapsed
time changes nothing, and `update` at any clock value leaves the game state and
the bullets, enemies and power-ups unchanged. -/
theorem C8_update_frozen (sqrtf : ℚ → ℚ) (w : World) (currentTime : ℚ) (r : Rand)
    (h : w.game.paused = true ∨ w.game.gameOver = true) :
    (∀ deltaTime : ℚ, frame sqrtf w currentTime deltaTime r = w) ∧
      (update sqrtf w currentTime r).game = w.game ∧
      (update sqrtf w currentTime r).bullets = w.bullets ∧
      (update sqrtf w currentTime r).enemies = w.enemies ∧
      (update sqrtf w currentTime r).powerUps = w.powerUps := by
  have hc : (w.game.gameOver || w.game.paused) = true := by
    rcases h with h | h <;> simp [h]
  refine ⟨fun dt => ?_, ?_⟩
  · unfold frame
    rw [if_pos hc]
  · unfold update frame
    simp only []
    rw [if_pos hc]
    exact ⟨rfl, rfl, rfl, rfl⟩

/-- Witness for C8: the paused state reached by pressing `p`. -/
theorem C8_update_frozen_witness :
    (∀ deltaTime : ℚ, frame sqrtStub pausedWorld 3 deltaTime {} = pausedWorld) ∧
      (update sqrtStub pausedWorld 3 {}).game = pausedWorld.game ∧
      (update sqrtStub pausedWorld 3 {}).bullets = pausedWorld.bullets ∧
      (update sqrtStub pausedWorld 3 {}).enemies = pausedWorld.enemies ∧
      (update sqrtStub pausedWorld 3 {}).powerUps = pausedWorld.powerUps :=
  C8_update_frozen sqrtStub pausedWorld 3 {} (Or.inl (by decide!))

/-! ## C9: the collision test is symmetric -/

/-- C9: `checkCollision` is symmetric in its two boxes. -/
theorem C9_checkCollision_symm (x1 y1 size1 x2 y2 size2 : ℚ) :
    checkCollision x1 y1 size1 x2 y2 size2 = checkCollision x2 y2 size2 x1 y1 size1 := by
  rw [Bool.eq_iff_iff, checkCollision_iff, checkCollision_iff, abs_sub_comm x1 x2,
    abs_sub_comm y1 y2, add_comm size1 size2]

/-! ## Frame lemmas for single fields -/

/-- A conditional assignment, with the condition available in each branch. -/
theorem ite_world_cond {Q : World → Prop} {c : Prop} [Decidable c] {a b : World}
    (ha : c → Q a) (hb : ¬c → Q b) : Q (if c then a else b) := by
  split_ifs with h
  · exact ha h
  · exact hb h

theorem fire_game_of_field (f : GameState → α)
    (hshot : ∀ (g : GameState) (t : ℚ), f { g with lastShotTime := t } = f g)
    (w : World) (t : ℚ) : f (fire w t).game = f w.game := by
  unfold fire
  split_ifs
  · exact hshot _ _
  · rfl

/-- Key `r` (or `R`) is exactly `restartGame`. -/
theorem keyboardDown_r (w : World) (t : ℚ) :
    keyboardDown w 'r' t = restartGame w ∧ keyboardDown w 'R' t = restartGame w := by
  constructor <;> rfl

/-- A press (any button) at window position (500, 400), inside the restart
button, in a game-over state is exactly `restartGame`. -/
theorem mouse_restart_click (w : World) (button : Int) (t : ℚ)
    (h : w.game.gameOver = true) : mouse w button GLUT.DOWN 500 400 t = restartGame w := by
  unfold mouse
  rw [if_neg (by decide)]
  lift_lets
  intro fy w1 w2 w3
  have e1 : w1 = w := by simp [w1, h]
  have e2 : w2 = w := by simp [w2, e1, h]
  have e3 : w3 = w := by
    simp only [w3, e2]
    rw [if_neg]
    rintro ⟨-, -, h3, -⟩
    exact absurd h3 (by decide)
  rw [e3, if_pos]
  refine ⟨h, ?_⟩
  simp only [fy]
  decide!

/-! ## The wave number along the stages -/

theorem expireEffects_wave (g : GameState) (t : ℚ) : (expireEffects g t).wave = g.wave := by
  unfold expireEffects expireBulletPowerUp expireSpeedBoost expireScoreMultiplier
  simp only []
  split_ifs <;> rfl

theorem movePlayer_wave (sqrtf : ℚ → ℚ) (w : World) (dt : ℚ) :
    (movePlayer sqrtf w dt).wave = w.game.wave := by
  unfold movePlayer moveByMouse moveLeft moveRight moveUp moveDown
  simp only []
  split_ifs <;> rfl

theorem waveStep_wave (g : GameState) (es : List Enemy) (t : ℚ) :
    (waveStep g es t).wave = g.wave ∨ (waveStep g es t).wave = g.wave + 1 := by
  unfold waveStep
  split_ifs
  · exact Or.inr rfl
  · exact Or.inl rfl

theorem enemySpawnStep_wave (g : GameState) (es : List Enemy) (t si : ℚ) (r : Nat) :
    (enemySpawnStep g es t si r).1.wave = g.wave := by
  unfold enemySpawnStep spawnEnemy
  split_ifs <;> rfl

theorem powerUpSpawnStep_wave (g : GameState) (ps : List PowerUp) (t : ℚ) (r : Rand) :
    (powerUpSpawnStep g ps t r).1.wave = g.wave := by
  unfold powerUpSpawnStep spawnPowerUp
  split_ifs <;> rfl

theorem damagePlayer_wave (g : GameState) (t : ℚ) : (damagePlayer g t).wave = g.wave := by
  unfold damagePlayer
  split_ifs <;> rfl

theorem applyPowerUp_wave (g : GameState) (t : ℚ) (ty : PowerUpType) :
    (applyPowerUp g t ty).wave = g.wave := by
  cases ty <;> simp only [applyPowerUp] <;> (try split_ifs) <;> rfl

theorem simulate_wave (sqrtf : ℚ → ℚ) (w : World) (t dt : ℚ) (r : Rand) :
    (simulate sqrtf w t dt r).game.wave = w.game.wave ∨
      (simulate sqrtf w t dt r).game.wave = w.game.wave + 1 := by
  unfold simulate
  apply playerVsPowerUps_preserves
    (fun g => g.wave = w.game.wave ∨ g.wave = w.game.wave + 1) t
    (fun g ty h => by rw [applyPowerUp_wave]; exact h)
  apply playerVsEnemies_preserves
    (fun g => g.wave = w.game.wave ∨ g.wave = w.game.wave + 1) t
    (fun g h => by rw [damagePlayer_wave]; exact h)
  apply bulletsVsEnemies_preserves
    (fun g => g.wave = w.game.wave ∨ g.wave = w.game.wave + 1) (fun g h => h)
  show _ = _ ∨ _ = _
  rw [powerUpSpawnStep_wave, enemySpawnStep_wave]
  have h0 : (movePlayer sqrtf { w with game := expireEffects w.game t } dt).wave
      = w.game.wave := by
    rw [movePlayer_wave]
    exact expireEffects_wave w.game t
  rw [← h0]
  exact waveStep_wave _ _ _

theorem frame_wave (sqrtf : ℚ → ℚ) (w : World) (t dt : ℚ) (r : Rand) :
    (frame sqrtf w t dt r).game.wave = w.game.wave ∨
      (frame sqrtf w t dt r).game.wave = w.game.wave + 1 := by
  unfold frame
  split_ifs
  · exact Or.inl rfl
  · exact simulate_wave sqrtf w t dt r

theorem keyboardDown_wave (w : World) (key : Char) (t : ℚ) (h1 : key ≠ 'r') (h2 : key ≠ 'R') :
    (keyboardDown w key t).game.wave = w.game.wave := by
  unfold keyboardDown
  lift_lets
  intro w1 w2 w3 w4 w5 w6 w7
  have e1 : w1.game.wave = w.game.wave :=
    ite_world (Q := fun v => v.game.wave = w.game.wave) rfl rfl
  have e2 : w2.game.wave = w.game.wave :=
    ite_world (Q := fun v => v.game.wave = w.game.wave) e1 e1
  have e3 : w3.game.wave = w.game.wave :=
    ite_world (Q := fun v => v.game.wave = w.game.wave) e2 e2
  have e4 : w4.game.wave = w.game.wave :=
    ite_world (Q := fun v => v.game.wave = w.game.wave) e3 e3
  have e5 : w5.game.wave = w.game.wave :=
    ite_world (Q := fun v => v.game.wave = w.game.wave) e4 e4
  have e6 : w6.game.wave = w.game.wave :=
    ite_world_cond (Q := fun v => v.game.wave = w.game.wave)
      (fun hc => absurd hc (by simp [h1, h2])) (fun _ => e5)
  have e7 : w7.game.wave = w.game.wave :=
    ite_world (Q := fun v => v.game.wave = w.game.wave) e6 e6
  exact ite_world (Q := fun v => v.game.wave = w.game.wave)
    ((fire_game_of_field (fun g => g.wave) (fun _ _ => rfl) w7 t).trans e7) e7

theorem mouse_wave (w : World) (button state x y : Int) (t : ℚ) :
    (mouse w button state x y t).game.wave = w.game.wave ∨
      (w.game.gameOver = true ∧ (mouse w button state x y t).game = initWorld.game) := by
  unfold mouse
  by_cases hs : state ≠ GLUT.DOWN
  · rw [if_pos hs]; exact Or.inl rfl
  · rw [if_neg hs]
    lift_lets
    intro fy w1 w2 w3
    have e1 : w1.game.wave = w.game.wave ∧ w1.game.gameOver = w.game.gameOver :=
      ite_world (Q := fun v => v.game.wave = w.game.wave ∧ v.game.gameOver = w.game.gameOver)
        ⟨fire_game_of_field (fun g => g.wave) (fun _ _ => rfl) w t,
          fire_game_of_field (fun g => g.gameOver) (fun _ _ => rfl) w t⟩ ⟨rfl, rfl⟩
    have e2 : w2.game.wave = w.game.wave ∧ w2.game.gameOver = w.game.gameOver :=
      ite_world (Q := fun v => v.game.wave = w.game.wave ∧ v.game.gameOver = w.game.gameOver)
        e1 e1
    have e3 : w3.game.wave = w.game.wave ∧ w3.game.gameOver = w.game.gameOver :=
      ite_world (Q := fun v => v.game.wave = w.game.wave ∧ v.game.gameOver = w.game.gameOver)
        e2 e2
    split_ifs with hc
    · exact Or.inr ⟨e3.2 ▸ hc.1, rfl⟩
    · exact Or.inl e3.1

/-! ## The fire block in the two handlers -/

/-- The space key is exactly the fire block, in every mode. -/
theorem keyboardDown_space (w : World) (t : ℚ) :
    keyboardDown w (Char.ofNat 32) t = fire w t := rfl

theorem burst_length (g : GameState) : (burst g).length = g.bulletCount.toNat := by
  unfold burst
  simp [Function.comp_def]

theorem fire_ready (w : World) (t : ℚ)
    (h : t - w.game.lastShotTime > effectiveCooldown w.game t) :
    (fire w t).bullets = w.bullets ++ burst w.game ∧
      (fire w t).game = { w.game with lastShotTime := t } := by
  unfold fire
  rw [if_pos h]
  exact ⟨rfl, rfl⟩

theorem fire_not_ready (w : World) (t : ℚ)
    (h : ¬ t - w.game.lastShotTime > effectiveCooldown w.game t) : fire w t = w := by
  unfold fire
  rw [if_neg h]

/-- In Playing mode a left press changes the bullets and `lastShotTime` exactly
as the fire block does (the press may also hit the pause button). -/
theorem mouse_left_fire (w : World) (x y : Int) (t : ℚ)
    (hg : w.game.gameOver = false) (hp : w.game.paused = false) :
    (mouse w GLUT.LEFT_BUTTON GLUT.DOWN x y t).bullets = (fire w t).bullets ∧
      (mouse w GLUT.LEFT_BUTTON GLUT.DOWN x y t).game.lastShotTime
        = (fire w t).game.lastShotTime := by
  unfold mouse
  rw [if_neg (by decide)]
  lift_lets
  intro fy w1 w2 w3
  have e1 : w1 = fire w t := by
    simp only [w1]
    rw [if_pos ⟨hg, hp, trivial⟩]
  have g1 : w1.game.gameOver = false := by
    rw [e1]
    exact (fire_game_of_field (fun g => g.gameOver) (fun _ _ => rfl) w t).trans hg
  have e2 : w2.bullets = (fire w t).bullets ∧
      w2.game.lastShotTime = (fire w t).game.lastShotTime ∧ w2.game.gameOver = false :=
    ite_world (Q := fun v => v.bullets = (fire w t).bullets ∧
        v.game.lastShotTime = (fire w t).game.lastShotTime ∧ v.game.gameOver = false)
      ⟨by rw [← e1]; rfl, by rw [← e1]; rfl, g1⟩ ⟨by rw [e1], by rw [e1], g1⟩
  have e3 : w3.bullets = (fire w t).bullets ∧
      w3.game.lastShotTime = (fire w t).game.lastShotTime ∧ w3.game.gameOver = false :=
    ite_world (Q := fun v => v.bullets = (fire w t).bullets ∧
        v.game.lastShotTime = (fire w t).game.lastShotTime ∧ v.game.gameOver = false)
      e2 e2
  rw [if_neg]
  · exact ⟨e3.1, e3.2.1⟩
  · rintro ⟨hc, -⟩
    rw [e3.2.2] at hc
    exact absurd hc (by decide)

/-! ## C11: restart -/

/-- C11: from any game-over state, `restartGame` (reached by key `r` or by a
press on the restart button) resets health to `maxHealth`, score to 0, wave to
1, bullet count to 1 and every timed-effect expiry and magnitude to its initial
value, empties the bullets, enemies and power-ups, and clears `gameOver` and
`paused`. -/
theorem C11_restart_resets (w : World) (button : Int) (currentTime : ℚ)
    (h : w.game.gameOver = true) :
    (restartGame w).game = initWorld.game ∧
      ((restartGame w).game.health = Config.maxHealth ∧ (restartGame w).game.score = 0 ∧
        (restartGame w).game.wave = 1 ∧ (restartGame w).game.bulletCount = 1) ∧
      ((restartGame w).game.bulletPowerUpEndTime = 0 ∧
        (restartGame w).game.speedBoostEndTime = 0 ∧
        (restartGame w).game.fasterShootingEndTime = 0 ∧
        (restartGame w).game.invincibilityEndTime = 0 ∧
        (restartGame w).game.scoreMultiplierEndTime = 0 ∧
        (restartGame w).game.speedBoostMultiplier = 1 ∧
        (restartGame w).game.scoreMultiplier = 1) ∧
      ((restartGame w).bullets = [] ∧ (restartGame w).enemies = [] ∧
        (restartGame w).powerUps = []) ∧
      ((restartGame w).game.gameOver = false ∧ (restartGame w).game.paused = false) ∧
      keyboardDown w 'r' currentTime = restartGame w ∧
      mouse w button GLUT.DOWN 500 400 currentTime = restartGame w :=
  ⟨rfl, ⟨rfl, rfl, rfl, rfl⟩, ⟨rfl, rfl, rfl, rfl, rfl, rfl, rfl⟩, ⟨rfl, rfl, rfl⟩, ⟨rfl, rfl⟩,
    (keyboardDown_r w currentTime).1, mouse_restart_click w button currentTime h⟩

/-- Witness for C11: the game-over state at the end of `gameOverTrace`, which
has health 0, wave 3 and a power-up on the field; restart by key `r` at 17 s. -/
theorem C11_restart_resets_witness :
    ((run sqrtStub initWorld gameOverTrace).game.health = 0 ∧
      (run sqrtStub initWorld gameOverTrace).game.wave = 3 ∧
      (run sqrtStub initWorld gameOverTrace).powerUps.length = 1) ∧
    (keyboardDown (run sqrtStub initWorld gameOverTrace) 'r' 17).game.health
      = Config.maxHealth ∧
    (keyboardDown (run sqrtStub initWorld gameOverTrace) 'r' 17).powerUps = [] ∧
    (keyboardDown (run sqrtStub initWorld gameOverTrace) 'r' 17).game.gameOver = false := by
  have h := C11_restart_resets (run sqrtStub initWorld gameOverTrace) 0 17 (by decide!)
  obtain ⟨-, ⟨h1, -⟩, -, ⟨-, -, h2⟩, ⟨h3, -⟩, h4, -⟩ := h
  rw [h4]
  exact ⟨by decide!, h1, h2, h3⟩

/-! ## C12: the wave number never decreases -/

/-- C12: a tick (`update`, or a frame with any elapsed time) leaves the wave
number unchanged or adds 1; every input event leaves it unchanged, except key
`r`/`R` and a press in a game-over state that resets the game; `restartGame`
sets it to 1. -/
theorem C12_wave_monotone (sqrtf : ℚ → ℚ) (w : World) :
    (∀ (t : ℚ) (r : Rand),
      (update sqrtf w t r).game.wave = w.game.wave ∨
        (update sqrtf w t r).game.wave = w.game.wave + 1) ∧
    (∀ (t dt : ℚ) (r : Rand),
      (frame sqrtf w t dt r).game.wave = w.game.wave ∨
        (frame sqrtf w t dt r).game.wave = w.game.wave + 1) ∧
    (∀ (key : Char) (t : ℚ), key ≠ 'r' → key ≠ 'R' →
      (keyboardDown w key t).game.wave = w.game.wave) ∧
    (∀ key : Char, (keyboardUp w key).game.wave = w.game.wave) ∧
    (∀ key : Int, (specialDown w key).game.wave = w.game.wave) ∧
    (∀ key : Int, (specialUp w key).game.wave = w.game.wave) ∧
    (∀ x y : Int, (passiveMotion w x y).game.wave = w.game.wave) ∧
    (∀ (button state x y : Int) (t : ℚ),
      (mouse w button state x y t).game.wave = w.game.wave ∨
        (w.game.gameOver = true ∧ (mouse w button state x y t).game = initWorld.game)) ∧
    (restartGame w).game.wave = 1 ∧
    (∀ t : ℚ, (keyboardDown w 'r' t).game.wave = 1 ∧ (keyboardDown w 'R' t).game.wave = 1) := by
  refine ⟨fun t r => frame_wave sqrtf _ t _ r, fun t dt r => frame_wave sqrtf w t dt r,
    fun key t h1 h2 => keyboardDown_wave w key t h1 h2,
    fun key => by rw [keyboardUp_game], fun key => by rw [specialDown_game],
    fun key => by rw [specialUp_game], fun x y => rfl,
    fun b s x y t => mouse_wave w b s x y t, rfl, fun t => ?_⟩
  rw [(keyboardDown_r w t).1, (keyboardDown_r w t).2]
  exact ⟨rfl, rfl⟩

/-- Witness for C12: from start-up the first tick at 1.1 s starts wave 2, key
`p` keeps the wave, and key `r` then brings it back to 1. -/
theorem C12_wave_monotone_witness :
    (update sqrtStub initWorld (11 / 10) {}).game.wave = initWorld.game.wave + 1 ∧
    (keyboardDown (update sqrtStub initWorld (11 / 10) {}) 'p' 2).game.wave = 2 ∧
    (keyboardDown (update sqrtStub initWorld (11 / 10) {}) 'r' 2).game.wave = 1 :=
  ⟨by decide!,
    ((C12_wave_monotone sqrtStub (update sqrtStub initWorld (11 / 10) {})).2.2.1 'p' 2
      (by decide) (by decide)).trans (by decide!),
    ((C12_wave_monotone sqrtStub (update sqrtStub initWorld (11 / 10) {})).2.2.2.2.2.2.2.2.2
      2).1⟩

/-! ## The stage "player vs enemies" -/

theorem damagePlayer_pos (g : GameState) (t : ℚ) :
    (damagePlayer g t).playerX = g.playerX ∧ (damagePlayer g t).playerY = g.playerY := by
  unfold damagePlayer
  split_ifs <;> exact ⟨rfl, rfl⟩

theorem enemyTouches_congr (g g' : GameState) (hx : g'.playerX = g.playerX)
    (hy : g'.playerY = g.playerY) (e : Enemy) : enemyTouches g' e = enemyTouches g e := by
  unfold enemyTouches
  rw [hx, hy]

theorem playerVsEnemies_cons_touch (t : ℚ) (g : GameState) (e : Enemy) (es : List Enemy)
    (h : enemyTouches g e = true) :
    playerVsEnemies t g (e :: es) = playerVsEnemies t (damagePlayer g t) es := by
  rw [playerVsEnemies]
  exact if_pos h

theorem playerVsEnemies_cons_miss (t : ℚ) (g : GameState) (e : Enemy) (es : List Enemy)
    (h : enemyTouches g e = false) :
    playerVsEnemies t g (e :: es)
      = ((playerVsEnemies t g es).1, e :: (playerVsEnemies t g es).2) := by
  rw [playerVsEnemies]
  exact if_neg (by rw [show checkCollision g.playerX g.playerY Config.playerSize e.x e.y
    Config.enemySize = enemyTouches g e from rfl, h]; decide)

/-- The enemies left by the stage are those that do not overlap the player. -/
theorem playerVsEnemies_snd (t : ℚ) (es : List Enemy) :
    ∀ g : GameState,
      (playerVsEnemies t g es).2 = es.filter fun e => !enemyTouches g e := by
  induction es with
  | nil => intro g; rfl
  | cons e es ih =>
    intro g
    cases h : enemyTouches g e with
    | true =>
      rw [playerVsEnemies_cons_touch t g e es h, ih, List.filter_cons_of_neg (by simp [h])]
      congr 1
      funext q
      rw [enemyTouches_congr g _ (damagePlayer_pos g t).1 (damagePlayer_pos g t).2]
    | false =>
      rw [playerVsEnemies_cons_miss t g e es h, ih, List.filter_cons_of_pos (by simp [h])]

/-- While the damage test fails the stage leaves the game state alone. -/
theorem playerVsEnemies_fst_of_shielded (t : ℚ) (g : GameState)
    (h : ¬ t > g.invincibilityEndTime) (es : List Enemy) : (playerVsEnemies t g es).1 = g := by
  have hd : damagePlayer g t = g := by
    unfold damagePlayer
    rw [if_neg h]
  induction es with
  | nil => rfl
  | cons e es ih =>
    cases he : enemyTouches g e with
    | true => rw [playerVsEnemies_cons_touch t g e es he, hd, ih]
    | false => rw [playerVsEnemies_cons_miss t g e es he]; exact ih

theorem playerVsEnemies_of_no_touch (t : ℚ) (g : GameState) (es : List Enemy)
    (h : ∀ q ∈ es, enemyTouches g q = false) : playerVsEnemies t g es = (g, es) := by
  induction es with
  | nil => rfl
  | cons e es ih =>
    rw [playerVsEnemies_cons_miss t g e es (h e (List.mem_cons_self e es)),
      ih fun q hq => h q (List.mem_cons_of_mem e hq)]

theorem playerVsEnemies_append_of_no_touch (t : ℚ) (g : GameState) (pre es : List Enemy)
    (h : ∀ q ∈ pre, enemyTouches g q = false) :
    playerVsEnemies t g (pre ++ es)
      = ((playerVsEnemies t g es).1, pre ++ (playerVsEnemies t g es).2) := by
  induction pre with
  | nil => rfl
  | cons e pre ih =>
    rw [List.cons_append,
      playerVsEnemies_cons_miss t g e (pre ++ es) (h e (List.mem_cons_self e pre)),
      ih fun q hq => h q (List.mem_cons_of_mem e hq)]
    rfl

/-- Exactly one overlapping enemy: one application of the damage block, and
that enemy is erased. -/
theorem playerVsEnemies_single (t : ℚ) (g : GameState) (pre post : List Enemy) (e : Enemy)
    (he : enemyTouches g e = true) (hpre : ∀ q ∈ pre, enemyTouches g q = false)
    (hpost : ∀ q ∈ post, enemyTouches g q = false) :
    playerVsEnemies t g (pre ++ e :: post) = (damagePlayer g t, pre ++ post) := by
  rw [playerVsEnemies_append_of_no_touch t g pre (e :: post) hpre,
    playerVsEnemies_cons_touch t g e post he,
    playerVsEnemies_of_no_touch t (damagePlayer g t) post fun q hq => by
      rw [enemyTouches_congr g _ (damagePlayer_pos g t).1 (damagePlayer_pos g t).2]
      exact hpost q hq]

/-! ## The stage "player vs power-ups" -/

theorem applyPowerUp_pos (g : GameState) (t : ℚ) (ty : PowerUpType) :
    (applyPowerUp g t ty).playerX = g.playerX ∧ (applyPowerUp g t ty).playerY = g.playerY := by
  cases ty <;> simp only [applyPowerUp] <;> (try split_ifs) <;>
    first | exact ⟨rfl, rfl⟩ | exact ⟨trivial, trivial⟩

theorem powerUpTouches_congr (g g' : GameState) (hx : g'.playerX = g.playerX)
    (hy : g'.playerY = g.playerY) (pu : PowerUp) :
    powerUpTouches g' pu = powerUpTouches g pu := by
  unfold powerUpTouches
  rw [hx, hy]

theorem playerVsPowerUps_cons_touch (t : ℚ) (g : GameState) (pu : PowerUp) (ps : List PowerUp)
    (h : powerUpTouches g pu = true) :
    playerVsPowerUps t g (pu :: ps) = playerVsPowerUps t (applyPowerUp g t pu.type) ps := by
  rw [playerVsPowerUps]
  exact if_pos h

theorem playerVsPowerUps_cons_miss (t : ℚ) (g : GameState) (pu : PowerUp) (ps : List PowerUp)
    (h : powerUpTouches g pu = false) :
    playerVsPowerUps t g (pu :: ps)
      = ((playerVsPowerUps t g ps).1, pu :: (playerVsPowerUps t g ps).2) := by
  rw [playerVsPowerUps]
  exact if_neg (by rw [show checkCollision g.playerX g.playerY Config.playerSize pu.x pu.y
    Config.powerUpSize = powerUpTouches g pu from rfl, h]; decide)

/-- The power-ups left by the stage are those that do not overlap the player:
every collected power-up is erased, whatever its effect. -/
theorem playerVsPowerUps_snd (t : ℚ) (ps : List PowerUp) :
    ∀ g : GameState,
      (playerVsPowerUps t g ps).2 = ps.filter fun pu => !powerUpTouches g pu := by
  induction ps with
  | nil => intro g; rfl
  | cons pu ps ih =>
    intro g
    cases h : powerUpTouches g pu with
    | true =>
      rw [playerVsPowerUps_cons_touch t g pu ps h, ih, List.filter_cons_of_neg (by simp [h])]
      congr 1
      funext q
      rw [powerUpTouches_congr g _ (applyPowerUp_pos g t pu.type).1
        (applyPowerUp_pos g t pu.type).2]
    | false =>
      rw [playerVsPowerUps_cons_miss t g pu ps h, ih, List.filter_cons_of_pos (by simp [h])]

theorem expireEffects_of_not_expired (g : GameState) (now : ℚ)
    (h1 : now ≤ g.bulletPowerUpEndTime) (h2 : now ≤ g.speedBoostEndTime)
    (h3 : now ≤ g.scoreMultiplierEndTime) : expireEffects g now = g := by
  have e1 : expireBulletPowerUp g now = g := by
    unfold expireBulletPowerUp
    rw [if_neg fun hc => absurd hc.1 (not_lt.mpr h1)]
  have e2 : expireSpeedBoost g now = g := by
    unfold expireSpeedBoost
    rw [if_neg fun hc => absurd hc.1 (not_lt.mpr h2)]
  have e3 : expireScoreMultiplier g now = g := by
    unfold expireScoreMultiplier
    rw [if_neg fun hc => absurd hc.1 (not_lt.mpr h3)]
  unfold expireEffects
  simp only [e1, e2, e3]

theorem expireEffects_bulletCount (g : GameState) (now : ℚ) :
    (expireEffects g now).bulletCount = (expireBulletPowerUp g now).bulletCount := by
  unfold expireEffects expireSpeedBoost expireScoreMultiplier
  simp only []
  split_ifs <;> rfl

theorem expireEffects_bulletCount_of_expired (g : GameState) (now : ℚ)
    (hb : 1 ≤ g.bulletCount) (h : now > g.bulletPowerUpEndTime) :
    (expireEffects g now).bulletCount = 1 := by
  rw [expireEffects_bulletCount]
  unfold expireBulletPowerUp
  split_ifs with hc
  · rfl
  · have : ¬ g.bulletCount > 1 := fun h1 => hc ⟨h, h1⟩
    show g.bulletCount = 1
    omega

/-! ## C14: the bullet-increase power-up -/

/-- C15 (as stated, refuted): after `invincibleEdgeTrace` the invincibility
expiry is 20.1 s.  At `now = 20.1` invincibility is not active in the claim's
sense (`now < expiry` fails), exactly one enemy overlaps the player, and the
stage removes it without changing the health; so does the whole tick. -/
theorem C15_no_damage_at_expiry :
    (run sqrtStub initWorld invincibleEdgeTrace).game.invincibilityEndTime = 201 / 10 ∧
    ¬ ((201 / 10 : ℚ) < (run sqrtStub initWorld invincibleEdgeTrace).game.invincibilityEndTime) ∧
    enemyTouches (run sqrtStub initWorld invincibleEdgeTrace).game
      { x := 500, y := 237 / 5, speed := 106, rotation := 639 } = true ∧
    enemyTouches (run sqrtStub initWorld invincibleEdgeTrace).game
      { x := 10, y := 800, speed := 106, rotation := 0 } = false ∧
    playerVsEnemies (201 / 10) (run sqrtStub initWorld invincibleEdgeTrace).game
        [{ x := 500, y := 237 / 5, speed := 106, rotation := 639 },
          { x := 10, y := 800, speed := 106, rotation := 0 }]
      = ((run sqrtStub initWorld invincibleEdgeTrace).game,
          [{ x := 10, y := 800, speed := 106, rotation := 0 }]) ∧
    (run sqrtStub initWorld invincibleEdgeTrace).game.health = 3 ∧
    (update sqrtStub (run sqrtStub initWorld invincibleEdgeTrace) (201 / 10) {}).game.health
      = 3 ∧
    (update sqrtStub (run sqrtStub initWorld invincibleEdgeTrace) (201 / 10) {}).enemies
      = [{ x := 10, y := 800, speed := 106, rotation := 0 }] := by
  decide!

/-- C15 (amended): in the player-enemy collision stage at time `now`, if exactly
one enemy overlaps the player and `now > invincibilityEndTime`, health decreases
by exactly 1 and that enemy is removed; if `now ≤ invincibilityEndTime` the
enemy is removed and the game state is unchanged. -/
theorem C15_single_hit (now : ℚ) (g : GameState) (pre post : List Enemy) (e : Enemy)
    (he : enemyTouches g e = true) (hpre : ∀ q ∈ pre, enemyTouches g q = false)
    (hpost : ∀ q ∈ post, enemyTouches g q = false) :
    (now > g.invincibilityEndTime →
      (playerVsEnemies now g (pre ++ e :: post)).1.health = g.health - 1 ∧
        (playerVsEnemies now g (pre ++ e :: post)).2 = pre ++ post) ∧
    (now ≤ g.invincibilityEndTime →
      playerVsEnemies now g (pre ++ e :: post) = (g, pre ++ post)) := by
  rw [playerVsEnemies_single now g pre post e he hpre hpost]
  constructor
  · intro h
    refine ⟨?_, rfl⟩
    unfold damagePlayer
    rw [if_pos h]
    split_ifs <;> rfl
  · intro h
    unfold damagePlayer
    rw [if_neg (not_lt.mpr h)]

/-- Witness for C15: an enemy on the player between two enemies in column 10,
at time 1 with the initial expiry 0. -/
theorem C15_single_hit_witness :
    ((1 : ℚ) > ({} : GameState).invincibilityEndTime →
      (playerVsEnemies 1 {} ([enemyAside] ++ enemyOnPlayer :: [enemyAside])).1.health
          = ({} : GameState).health - 1 ∧
        (playerVsEnemies 1 {} ([enemyAside] ++ enemyOnPlayer :: [enemyAside])).2
          = [enemyAside] ++ [enemyAside]) ∧
    ((1 : ℚ) ≤ ({} : GameState).invincibilityEndTime →
      playerVsEnemies 1 {} ([enemyAside] ++ enemyOnPlayer :: [enemyAside])
        = ({}, [enemyAside] ++ [enemyAside])) :=
  C15_single_hit 1 {} [enemyAside] [enemyAside] enemyOnPlayer (by decide!)
    (fun q hq => by rw [List.mem_singleton.mp hq]; decide!)
    (fun q hq => by rw [List.mem_singleton.mp hq]; decide!)

/-- C17: in the player-enemy collision stage at a time `now` with
`now < invincibilityEndTime`, the game state (health and `gameOver` included) is
unchanged, and the enemies left are exactly those that do not overlap the
player. -/
theorem C17_invincible_collision (now : ℚ) (g : GameState) (enemies : List Enemy)
    (h : now < g.invincibilityEndTime) :
    (playerVsEnemies now g enemies).1 = g ∧
    (playerVsEnemies now g enemies).1.health = g.health ∧
    (playerVsEnemies now g enemies).1.gameOver = g.gameOver ∧
    (playerVsEnemies now g enemies).2 = (enemies.filter fun e => !enemyTouches g e) ∧
    (∀ e ∈ enemies, enemyTouches g e = true → e ∉ (playerVsEnemies now g enemies).2) ∧
    (∀ e ∈ enemies, enemyTouches g e = false → e ∈ (playerVsEnemies now g enemies).2) := by
  have h1 := playerVsEnemies_fst_of_shielded now g (not_lt.mpr (le_of_lt h)) enemies
  have h2 := playerVsEnemies_snd now enemies g
  refine ⟨h1, by rw [h1], by rw [h1], h2, fun e _ ht hm => ?_, fun e he ht => ?_⟩
  · rw [h2, List.mem_filter] at hm
    rw [ht] at hm
    exact absurd hm.2 (by decide)
  · rw [h2, List.mem_filter]
    exact ⟨he, by rw [ht]; rfl⟩

/-- Witness for C17: invincible until 20.1 s, an enemy on the player and one in
column 10, at 15 s. -/
theorem C17_invincible_collision_witness :
    (playerVsEnemies 15 shieldedState [enemyOnPlayer, enemyAside]).1.health
      = 3 ∧
    (playerVsEnemies 15 shieldedState [enemyOnPlayer, enemyAside]).2
      = [enemyAside] :=
  ⟨(C17_invincible_collision 15 shieldedState
      [enemyOnPlayer, enemyAside] (by decide!)).2.1,
    by decide!⟩

/-! ## C16: expiry checks before any expiry -/

/-- C16: at a time `now` not after the bullet power-up, speed boost and score
multiplier expiries, the expiry-check stage changes nothing: the bullet count,
the speed multiplier and the score multiplier are unchanged. -/
theorem C16_expire_idempotent (g : GameState) (now : ℚ)
    (h1 : now ≤ g.bulletPowerUpEndTime) (h2 : now ≤ g.speedBoostEndTime)
    (h3 : now ≤ g.scoreMultiplierEndTime) :
    expireEffects g now = g ∧
    (expireEffects g now).bulletCount = g.bulletCount ∧
    (expireEffects g now).speedBoostMultiplier = g.speedBoostMultiplier ∧
    (expireEffects g now).scoreMultiplier = g.scoreMultiplier := by
  rw [expireEffects_of_not_expired g now h1 h2 h3]
  exact ⟨rfl, rfl, rfl, rfl⟩

/-- Witness for C16: three boosted magnitudes with expiry 20, checked at 20. -/
theorem C16_expire_idempotent_witness :
    (expireEffects boostedState 20).bulletCount = 3 ∧
    (expireEffects boostedState 20).speedBoostMultiplier = 3 / 2 ∧
    (expireEffects boostedState 20).scoreMultiplier = 2 :=
  (C16_expire_idempotent boostedState 20 (le_refl _) (le_refl _) (le_refl _)).2

/-! ## C19: guarded power-ups at the maximum -/

theorem applyPowerUp_health_restore_full (g : GameState) (t : ℚ)
    (h : g.health = Config.maxHealth) : applyPowerUp g t .HEALTH_RESTORE = g := by
  simp only [applyPowerUp]
  rw [if_neg (by rw [h]; exact lt_irrefl _)]

theorem applyPowerUp_bullet_increaser_full (g : GameState) (t : ℚ)
    (h : g.bulletCount = Config.maxBulletCount) : applyPowerUp g t .BULLET_INCREASER = g := by
  simp only [applyPowerUp]
  rw [if_neg (by rw [h]; exact lt_irrefl _)]

theorem applyPowerUp_health_of_full (g : GameState) (t : ℚ) (ty : PowerUpType)
    (h : g.health = Config.maxHealth) : (applyPowerUp g t ty).health = Config.maxHealth := by
  cases ty
  case HEALTH_RESTORE => rw [applyPowerUp_health_restore_full g t h]; exact h
  all_goals simp only [applyPowerUp]
  all_goals (try split_ifs)
  all_goals exact h

theorem applyPowerUp_bullets_of_full (g : GameState) (t : ℚ) (ty : PowerUpType) (e : ℚ)
    (h : g.bulletCount = Config.maxBulletCount ∧ g.bulletPowerUpEndTime = e) :
    (applyPowerUp g t ty).bulletCount = Config.maxBulletCount ∧
      (applyPowerUp g t ty).bulletPowerUpEndTime = e := by
  cases ty
  case BULLET_INCREASER => rw [applyPowerUp_bullet_increaser_full g t h.1]; exact h
  all_goals simp only [applyPowerUp]
  all_goals (try split_ifs)
  all_goals exact h

/-- C19: with health at `maxHealth` a health-restore power-up changes nothing,
and the whole power-up stage leaves the health unchanged; with the bullet count
at `maxBulletCount` a bullet-increase power-up changes nothing, and the stage
leaves the bullet count and its expiry unchanged; every power-up that overlaps
the player is removed from the collection. -/
theorem C19_guarded_powerups (now : ℚ) (g : GameState) (powerUps : List PowerUp) :
    (g.health = Config.maxHealth →
      applyPowerUp g now .HEALTH_RESTORE = g ∧
        (playerVsPowerUps now g powerUps).1.health = g.health) ∧
    (g.bulletCount = Config.maxBulletCount →
      applyPowerUp g now .BULLET_INCREASER = g ∧
        (playerVsPowerUps now g powerUps).1.bulletCount = g.bulletCount ∧
        (playerVsPowerUps now g powerUps).1.bulletPowerUpEndTime = g.bulletPowerUpEndTime) ∧
    (playerVsPowerUps now g powerUps).2 = (powerUps.filter fun pu => !powerUpTouches g pu) ∧
    (∀ pu ∈ powerUps, powerUpTouches g pu = true →
      pu ∉ (playerVsPowerUps now g powerUps).2) := by
  refine ⟨fun h => ⟨applyPowerUp_health_restore_full g now h, ?_⟩,
    fun h => ⟨applyPowerUp_bullet_increaser_full g now h, ?_⟩,
    playerVsPowerUps_snd now powerUps g, fun pu _ ht hm => ?_⟩
  · rw [h]
    exact playerVsPowerUps_preserves (fun g' => g'.health = Config.maxHealth) now
      (fun g' ty h' => applyPowerUp_health_of_full g' now ty h') powerUps g h
  · have key := playerVsPowerUps_preserves
      (fun g' => g'.bulletCount = Config.maxBulletCount ∧
        g'.bulletPowerUpEndTime = g.bulletPowerUpEndTime) now
      (fun g' ty h' => applyPowerUp_bullets_of_full g' now ty _ h') powerUps g ⟨h, rfl⟩
    exact ⟨key.1.trans h.symm, key.2⟩
  · rw [playerVsPowerUps_snd, List.mem_filter, ht] at hm
    exact absurd hm.2 (by decide)

/-- Witness for C19: full health and five bullets, a health restore and a
bullet increaser both on the player at 10.1 s. -/
theorem C19_guarded_powerups_witness :
    playerVsPowerUps (101 / 10) fullState
        [powerUpOnPlayer .HEALTH_RESTORE, powerUpOnPlayer .BULLET_INCREASER]
      = (fullState, []) ∧
    (applyPowerUp fullState (101 / 10) .HEALTH_RESTORE = fullState ∧
      (playerVsPowerUps (101 / 10) fullState
        [powerUpOnPlayer .HEALTH_RESTORE, powerUpOnPlayer .BULLET_INCREASER]).1.health
        = fullState.health) ∧
    (applyPowerUp fullState (101 / 10) .BULLET_INCREASER = fullState ∧
      (playerVsPowerUps (101 / 10) fullState
        [powerUpOnPlayer .HEALTH_RESTORE, powerUpOnPlayer .BULLET_INCREASER]).1.bulletCount
        = fullState.bulletCount ∧
      (playerVsPowerUps (101 / 10) fullState
        [powerUpOnPlayer .HEALTH_RESTORE,
          powerUpOnPlayer .BULLET_INCREASER]).1.bulletPowerUpEndTime
        = fullState.bulletPowerUpEndTime) :=
  ⟨by decide!,
    (C19_guarded_powerups (101 / 10) fullState
      [powerUpOnPlayer .HEALTH_RESTORE, powerUpOnPlayer .BULLET_INCREASER]).1 rfl,
    (C19_guarded_powerups (101 / 10) fullState
      [powerUpOnPlayer .HEALTH_RESTORE, powerUpOnPlayer .BULLET_INCREASER]).2.1 rfl⟩

/-! ## C18: bullets against enemies -/

/-- The inner loop erases the first overlapping bullet and reports whether
there was one. -/
theorem hitScan_eq (e : Enemy) (bs : List Bullet) :
    hitScan e bs = (bs.eraseP (bulletHits e), bs.any (bulletHits e)) := by
  induction bs with
  | nil => rfl
  | cons b bs ih =>
    cases h : bulletHits e b with
    | true =>
      have hc : checkCollision b.x b.y Config.bulletSize e.x e.y Config.enemySize = true := h
      rw [hitScan, if_pos hc, List.eraseP_cons_of_pos h, List.any_cons, h]
      rfl
    | false =>
      have hc : ¬ checkCollision b.x b.y Config.bulletSize e.x e.y Config.enemySize = true := by
        rw [show checkCollision b.x b.y Config.bulletSize e.x e.y Config.enemySize
          = bulletHits e b from rfl, h]
        decide
      rw [hitScan, if_neg hc, List.eraseP_cons_of_neg (by rw [h]; decide), List.any_cons, h, ih]
      rfl

theorem bulletsVsEnemies_cons_hit (g : GameState) (bs : List Bullet) (e : Enemy)
    (es : List Enemy) (h : ∃ b ∈ bs, bulletHits e b = true) :
    bulletsVsEnemies g bs (e :: es)
      = bulletsVsEnemies { g with score := g.score + truncToInt (1 * g.scoreMultiplier) }
          (bs.eraseP (bulletHits e)) es := by
  have ha : bs.any (bulletHits e) = true := List.any_eq_true.mpr h
  rw [bulletsVsEnemies, hitScan_eq]
  exact if_pos ha

theorem bulletsVsEnemies_cons_miss (g : GameState) (bs : List Bullet) (e : Enemy)
    (es : List Enemy) (h : ∀ b ∈ bs, bulletHits e b = false) :
    bulletsVsEnemies g bs (e :: es)
      = ((bulletsVsEnemies g bs es).1, (bulletsVsEnemies g bs es).2.1,
          e :: (bulletsVsEnemies g bs es).2.2) := by
  have ha : ¬ bs.any (bulletHits e) = true := by
    rw [List.any_eq_true]
    rintro ⟨b, hb, hh⟩
    rw [h b hb] at hh
    exact absurd hh (by decide)
  have he : bs.eraseP (bulletHits e) = bs :=
    List.eraseP_of_forall_not fun b hb => by rw [h b hb]; decide
  rw [bulletsVsEnemies, hitScan_eq]
  simp only []
  rw [if_neg ha, he]

theorem bulletHits_cases (e : Enemy) (bs : List Bullet) :
    (∃ b ∈ bs, bulletHits e b = true) ∨ (∀ b ∈ bs, bulletHits e b = false) := by
  by_cases h : ∃ b ∈ bs, bulletHits e b = true
  · exact Or.inl h
  · refine Or.inr fun b hb => ?_
    cases hh : bulletHits e b with
    | true => exact absurd ⟨b, hb, hh⟩ h
    | false => rfl

/-- What the stage keeps and counts, by induction on the enemies. -/
theorem bulletsVsEnemies_facts (es : List Enemy) :
    ∀ (g : GameState) (bs : List Bullet),
      (bulletsVsEnemies g bs es).2.1.Sublist bs ∧
      (bulletsVsEnemies g bs es).2.2.Sublist es ∧
      bs.length + (bulletsVsEnemies g bs es).2.2.length
        = (bulletsVsEnemies g bs es).2.1.length + es.length ∧
      (bulletsVsEnemies g bs es).1.score
          + ((bulletsVsEnemies g bs es).2.2.length : Int) * truncToInt (1 * g.scoreMultiplier)
        = g.score + (es.length : Int) * truncToInt (1 * g.scoreMultiplier) ∧
      (bulletsVsEnemies g bs es).1 = { g with score := (bulletsVsEnemies g bs es).1.score } ∧
      (∀ e ∈ (bulletsVsEnemies g bs es).2.2, ∀ b ∈ (bulletsVsEnemies g bs es).2.1,
        bulletHits e b = false) := by
  induction es with
  | nil =>
    intro g bs
    exact ⟨List.Sublist.refl _, List.Sublist.refl _, rfl, rfl, rfl,
      fun e he => absurd he (List.not_mem_nil e)⟩
  | cons e es ih =>
    intro g bs
    rcases bulletHits_cases e bs with h | h
    · rw [bulletsVsEnemies_cons_hit g bs e es h]
      obtain ⟨s1, s2, hl, hs, hg, hk⟩ :=
        ih { g with score := g.score + truncToInt (1 * g.scoreMultiplier) }
          (bs.eraseP (bulletHits e))
      obtain ⟨b, hb, hh⟩ := h
      have hlen := List.length_eraseP_of_mem hb hh
      have hpos : 0 < bs.length := List.length_pos_of_mem hb
      refine ⟨s1.trans (List.eraseP_sublist bs), s2.trans (List.sublist_cons_self e es),
        ?_, ?_, ?_, hk⟩
      · rw [hlen] at hl
        simp only [List.length_cons]
        omega
      · have hs' : (bulletsVsEnemies
            { g with score := g.score + truncToInt (1 * g.scoreMultiplier) }
            (bs.eraseP (bulletHits e)) es).1.score
            + ((bulletsVsEnemies
              { g with score := g.score + truncToInt (1 * g.scoreMultiplier) }
              (bs.eraseP (bulletHits e)) es).2.2.length : Int)
              * truncToInt (1 * g.scoreMultiplier)
            = g.score + truncToInt (1 * g.scoreMultiplier)
              + (es.length : Int) * truncToInt (1 * g.scoreMultiplier) := hs
        simp only [List.length_cons, Nat.cast_add, Nat.cast_one]
        linarith
      · rw [hg]
    · rw [bulletsVsEnemies_cons_miss g bs e es h]
      obtain ⟨s1, s2, hl, hs, hg, hk⟩ := ih g bs
      refine ⟨s1, s2.cons₂ e, ?_, ?_, hg, ?_⟩
      · simp only [List.length_cons]
        omega
      · simp only [List.length_cons, Nat.cast_add, Nat.cast_one]
        linarith
      · intro q hq b hb
        rcases List.mem_cons.mp hq with rfl | hq'
        · exact h b (s1.subset hb)
        · exact hk q hq' b hb

/-- C18: in the bullet-enemy collision stage an enemy is removed iff some
bullet still present when it is examined overlaps it, and then exactly the
first such bullet is removed with it; all other bullets and enemies are kept,
in order; as many bullets as enemies are removed; the score grows by the
number of removed enemies times `static_cast<int>(1 * scoreMultiplier)` and
nothing else in the game state changes; no enemy left overlaps a bullet left. -/
theorem C18_bullets_vs_enemies (g : GameState) (bullets : List Bullet)
    (enemies : List Enemy) :
    (∀ (e : Enemy) (es : List Enemy), (∃ b ∈ bullets, bulletHits e b = true) →
      bulletsVsEnemies g bullets (e :: es)
        = bulletsVsEnemies { g with score := g.score + truncToInt (1 * g.scoreMultiplier) }
            (bullets.eraseP (bulletHits e)) es) ∧
    (∀ (e : Enemy) (es : List Enemy), (∀ b ∈ bullets, bulletHits e b = false) →
      bulletsVsEnemies g bullets (e :: es)
        = ((bulletsVsEnemies g bullets es).1, (bulletsVsEnemies g bullets es).2.1,
            e :: (bulletsVsEnemies g bullets es).2.2)) ∧
    (bulletsVsEnemies g bullets enemies).2.1.Sublist bullets ∧
    (bulletsVsEnemies g bullets enemies).2.2.Sublist enemies ∧
    bullets.length - (bulletsVsEnemies g bullets enemies).2.1.length
      = enemies.length - (bulletsVsEnemies g bullets enemies).2.2.length ∧
    (bulletsVsEnemies g bullets enemies).1.score
      = g.score + ((enemies.length - (bulletsVsEnemies g bullets enemies).2.2.length : ℕ) : Int)
          * truncToInt (1 * g.scoreMultiplier) ∧
    (bulletsVsEnemies g bullets enemies).1
      = { g with score := (bulletsVsEnemies g bullets enemies).1.score } ∧
    (∀ e ∈ (bulletsVsEnemies g bullets enemies).2.2,
      ∀ b ∈ (bulletsVsEnemies g bullets enemies).2.1, bulletHits e b = false) := by
  obtain ⟨s1, s2, hl, hs, hg, hk⟩ := bulletsVsEnemies_facts enemies g bullets
  have l1 := s1.length_le
  have l2 := s2.length_le
  refine ⟨fun e es h => bulletsVsEnemies_cons_hit g bullets e es h,
    fun e es h => bulletsVsEnemies_cons_miss g bullets e es h, s1, s2, by omega, ?_, hg, hk⟩
  rw [Nat.cast_sub l2]
  linarith

/-- Witness for C18: three bullets on one enemy position, one bullet elsewhere,
two enemies on that position and one elsewhere, score multiplier 2: two bullets
and two enemies go, the score grows by 4. -/
theorem C18_bullets_vs_enemies_witness :
    bulletsVsEnemies boostedState [bulletOnTarget, bulletAside, bulletOnTarget, bulletOnTarget]
        [enemyOnPlayer, enemyAside, enemyOnPlayer]
      = ({ boostedState with score := 4 }, [bulletAside, bulletOnTarget], [enemyAside]) ∧
    [bulletOnTarget, bulletAside, bulletOnTarget, bulletOnTarget].length
        - (bulletsVsEnemies boostedState
            [bulletOnTarget, bulletAside, bulletOnTarget, bulletOnTarget]
            [enemyOnPlayer, enemyAside, enemyOnPlayer]).2.1.length
      = [enemyOnPlayer, enemyAside, enemyOnPlayer].length
        - (bulletsVsEnemies boostedState
            [bulletOnTarget, bulletAside, bulletOnTarget, bulletOnTarget]
            [enemyOnPlayer, enemyAside, enemyOnPlayer]).2.2.length :=
  ⟨by decide!,
    (C18_bullets_vs_enemies boostedState
      [bulletOnTarget, bulletAside, bulletOnTarget, bulletOnTarget]
      [enemyOnPlayer, enemyAside, enemyOnPlayer]).2.2.2.2.1⟩

/-! ## The burst of a fire -/

/-- The index list of the burst, read as rationals, is the cast of each index. -/
theorem range_cast_eq_map (l : List ℕ) :
    (do let a ← l; pure (a : ℚ)) = l.map fun a : ℕ => (a : ℚ) := by
  induction l with
  | nil => rfl
  | cons a l ih =>
    show [(a : ℚ)] ++ (do let a ← l; pure (a : ℚ)) = _
    rw [ih]
    rfl

/-- The burst as a map over the indices `0 .. bulletCount - 1`. -/
theorem burst_eq_map (g : GameState) :
    burst g = (List.range g.bulletCount.toNat).map fun i : ℕ =>
      ({ x := g.playerX - ((g.bulletCount - 1 : Int) : ℚ) * Config.bulletOffset / 2
              + (i : ℚ) * Config.bulletOffset
         y := g.playerY + Config.playerSize / 2
         dy := Config.bulletSpeed } : Bullet) := by
  unfold burst
  simp only []
  rw [range_cast_eq_map, List.map_map]
  rfl

/-! ## The values of the magnitudes and counters -/

theorem truncToInt_score_step (m : ℚ) (h : m = 1 ∨ m = 2) : 0 ≤ truncToInt (1 * m) := by
  rcases h with h | h <;> rw [h] <;> decide!

theorem magnitudesOk_tick (t : ℚ) : TickStable MagnitudesOk t where
  expire := by
    intro g h
    unfold expireEffects expireBulletPowerUp expireSpeedBoost expireScoreMultiplier
    unfold MagnitudesOk at *
    simp only []
    split_ifs <;> simp_all
  move := by
    intro sqrtf w dt h
    unfold movePlayer moveByMouse moveLeft moveRight moveUp moveDown
    unfold MagnitudesOk at *
    simp only []
    split_ifs <;> exact h
  wave := by
    intro g es h
    unfold waveStep
    unfold MagnitudesOk at *
    split_ifs
    · exact ⟨h.1, h.2.1, h.2.2.1, by show 1 ≤ g.wave + 1; omega⟩
    · exact h
  spawn := by
    intro g es si r h
    unfold enemySpawnStep spawnEnemy
    split_ifs <;> exact h
  power := by
    intro g ps r h
    unfold powerUpSpawnStep spawnPowerUp
    split_ifs <;> exact h
  score := by
    intro g h
    have hs := truncToInt_score_step g.scoreMultiplier h.2.1
    have h0 := h.2.2.1
    exact ⟨h.1, h.2.1, by show 0 ≤ g.score + truncToInt (1 * g.scoreMultiplier); omega, h.2.2.2⟩
  damage := by
    intro g h
    unfold damagePlayer
    split_ifs <;> exact h
  apply := by
    intro g ty h
    obtain ⟨h1, h2, h3, h4⟩ := h
    cases ty
    case BULLET_INCREASER =>
      simp only [applyPowerUp]
      split_ifs <;> exact ⟨h1, h2, h3, h4⟩
    case SPEED_BOOST => exact ⟨Or.inr rfl, h2, h3, h4⟩
    case HEALTH_RESTORE =>
      simp only [applyPowerUp]
      split_ifs <;> exact ⟨h1, h2, h3, h4⟩
    case FASTER_SHOOTING => exact ⟨h1, h2, h3, h4⟩
    case INVINCIBILITY => exact ⟨h1, h2, h3, h4⟩
    case SCORE_MULTIPLIER => exact ⟨h1, Or.inr rfl, h3, h4⟩

theorem magnitudesOk_input : InputStable MagnitudesOk where
  shot := fun g t h => h
  pause := fun g b h => h
  control := fun g b h => h
  fresh := by unfold MagnitudesOk; decide!

/-! ## C21: the speed of a spawned enemy -/

/-- C21: the enemy appended by `spawnEnemy` has speed
`enemyBaseSpeed + min (5 * score + 2 * wave) 300`; for score ≥ 0 and wave ≥ 1
it lies in (100, 400], and it does not decrease when the score or the wave
grows; in every reachable state the score is ≥ 0 and the wave ≥ 1. -/
theorem C21_spawn_speed (g g' : GameState) (enemies : List Enemy) (now : ℚ) (r : Nat)
    (hs : 0 ≤ g.score) (hw : 1 ≤ g.wave) (hs' : g.score ≤ g'.score) (hw' : g.wave ≤ g'.wave) :
    (∃ e : Enemy, (spawnEnemy g enemies now r).2 = enemies ++ [e] ∧ e.speed = spawnSpeed g) ∧
    spawnSpeed g = Config.enemyBaseSpeed + min (5 * (g.score : ℚ) + 2 * (g.wave : ℚ)) 300 ∧
    (Config.enemyBaseSpeed < spawnSpeed g ∧ spawnSpeed g ≤ Config.enemyBaseSpeed + 300) ∧
    (100 < spawnSpeed g ∧ spawnSpeed g ≤ 400) ∧
    spawnSpeed g ≤ spawnSpeed g' ∧
    (∀ (sqrtf : ℚ → ℚ) (w : World), Reachable sqrtf w → 0 ≤ w.game.score ∧ 1 ≤ w.game.wave) := by
  have hsq : (0 : ℚ) ≤ (g.score : ℚ) := by exact_mod_cast hs
  have hwq : (1 : ℚ) ≤ (g.wave : ℚ) := by exact_mod_cast hw
  have hsq' : (g.score : ℚ) ≤ (g'.score : ℚ) := by exact_mod_cast hs'
  have hwq' : (g.wave : ℚ) ≤ (g'.wave : ℚ) := by exact_mod_cast hw'
  have hpos : (0 : ℚ) < min ((g.score : ℚ) * 5 + (g.wave : ℚ) * 2) 300 :=
    lt_min (by linarith) (by norm_num)
  have hle : min ((g.score : ℚ) * 5 + (g.wave : ℚ) * 2) 300 ≤ 300 := min_le_right _ _
  have hmono : min ((g.score : ℚ) * 5 + (g.wave : ℚ) * 2) 300
      ≤ min ((g'.score : ℚ) * 5 + (g'.wave : ℚ) * 2) 300 :=
    min_le_min (by linarith) (le_refl _)
  refine ⟨⟨_, rfl, rfl⟩, ?_, ?_, ?_, ?_, fun sqrtf w h => ?_⟩
  · unfold spawnSpeed
    rw [mul_comm (5 : ℚ), mul_comm (2 : ℚ)]
  · unfold spawnSpeed
    exact ⟨by linarith, by linarith⟩
  · unfold spawnSpeed
    simp only [Config.enemyBaseSpeed]
    exact ⟨by linarith, by linarith⟩
  · unfold spawnSpeed
    linarith
  · have hm := reachable_invariant MagnitudesOk magnitudesOk_tick magnitudesOk_input sqrtf w h
    exact ⟨hm.2.2.1, hm.2.2.2⟩

/-- Witness for C21: the state of wave 3 at score 0 (speed 106) against the same
state at score 40 in wave 60 (speed capped at 400). -/
theorem C21_spawn_speed_witness :
    spawnSpeed spawnReadyState = 106 ∧
    spawnSpeed { spawnReadyState with score := 40, wave := 60 } = 400 ∧
    (100 < spawnSpeed spawnReadyState ∧ spawnSpeed spawnReadyState ≤ 400) ∧
    spawnSpeed spawnReadyState ≤ spawnSpeed { spawnReadyState with score := 40, wave := 60 } :=
  ⟨by decide!, by decide!,
    (C21_spawn_speed spawnReadyState { spawnReadyState with score := 40, wave := 60 } [] 9 490
      (by decide) (by decide) (by decide) (by decide)).2.2.2.1,
    (C21_spawn_speed spawnReadyState { spawnReadyState with score := 40, wave := 60 } [] 9 490
      (by decide) (by decide) (by decide) (by decide)).2.2.2.2.1⟩

/-! ## C24: expired effects are at their baseline -/

theorem expireEffects_ends (g : GameState) (now : ℚ) :
    (expireEffects g now).bulletPowerUpEndTime = g.bulletPowerUpEndTime ∧
      (expireEffects g now).speedBoostEndTime = g.speedBoostEndTime ∧
      (expireEffects g now).scoreMultiplierEndTime = g.scoreMultiplierEndTime := by
  unfold expireEffects expireBulletPowerUp expireSpeedBoost expireScoreMultiplier
  simp only []
  split_ifs <;> exact ⟨rfl, rfl, rfl⟩

theorem expireEffects_speed_of_expired (g : GameState) (now : ℚ)
    (hm : g.speedBoostMultiplier = 1 ∨ g.speedBoostMultiplier = 3 / 2)
    (h : now > g.speedBoostEndTime) : (expireEffects g now).speedBoostMultiplier = 1 := by
  have e1 : (expireEffects g now).speedBoostMultiplier
      = (expireSpeedBoost g now).speedBoostMultiplier := by
    unfold expireEffects expireBulletPowerUp expireSpeedBoost expireScoreMultiplier
    simp only []
    split_ifs <;> rfl
  rw [e1]
  unfold expireSpeedBoost
  split_ifs with hc
  · rfl
  · rcases hm with hm | hm
    · exact hm
    · exact absurd ⟨h, by rw [hm]; norm_num⟩ hc

theorem expireEffects_score_of_expired (g : GameState) (now : ℚ)
    (hm : g.scoreMultiplier = 1 ∨ g.scoreMultiplier = 2)
    (h : now > g.scoreMultiplierEndTime) : (expireEffects g now).scoreMultiplier = 1 := by
  have e1 : (expireEffects g now).scoreMultiplier
      = (expireScoreMultiplier g now).scoreMultiplier := by
    unfold expireEffects expireBulletPowerUp expireSpeedBoost expireScoreMultiplier
    simp only []
    split_ifs <;> rfl
  rw [e1]
  unfold expireScoreMultiplier
  split_ifs with hc
  · rfl
  · rcases hm with hm | hm
    · exact hm
    · exact absurd ⟨h, by rw [hm]; norm_num⟩ hc

/-- C24: for every reachable state, right after the expiry-check stage of a
tick at time `now` (which leaves the three expiries as they were), an effect
whose expiry is strictly before `now` has its baseline magnitude: bullet count
1, speed multiplier 1, score multiplier 1. -/
theorem C24_expired_at_baseline (sqrtf : ℚ → ℚ) (w : World) (now : ℚ)
    (h : Reachable sqrtf w) :
    ((expireEffects w.game now).bulletPowerUpEndTime = w.game.bulletPowerUpEndTime ∧
      (expireEffects w.game now).speedBoostEndTime = w.game.speedBoostEndTime ∧
      (expireEffects w.game now).scoreMultiplierEndTime = w.game.scoreMultiplierEndTime) ∧
    (now > (expireEffects w.game now).bulletPowerUpEndTime →
      (expireEffects w.game now).bulletCount = 1) ∧
    (now > (expireEffects w.game now).speedBoostEndTime →
      (expireEffects w.game now).speedBoostMultiplier = 1) ∧
    (now > (expireEffects w.game now).scoreMultiplierEndTime →
      (expireEffects w.game now).scoreMultiplier = 1) := by
  have hb := reachable_invariant BulletCountOk bulletCountOk_tick bulletCountOk_input sqrtf w h
  have hm := reachable_invariant MagnitudesOk magnitudesOk_tick magnitudesOk_input sqrtf w h
  obtain ⟨e1, e2, e3⟩ := expireEffects_ends w.game now
  refine ⟨⟨e1, e2, e3⟩, fun h1 => ?_, fun h2 => ?_, fun h3 => ?_⟩
  · rw [e1] at h1
    exact expireEffects_bulletCount_of_expired w.game now hb.1 h1
  · rw [e2] at h2
    exact expireEffects_speed_of_expired w.game now hm.1 h2
  · rw [e3] at h3
    exact expireEffects_score_of_expired w.game now hm.2.1 h3

/-- Witness for C24: after `bulletPowerUpTrace` the bullet count is 2 with
expiry 20.1 s; the expiry check at 21 s. -/
theorem C24_expired_at_baseline_witness :
    ((run sqrtStub initWorld bulletPowerUpTrace).game.bulletCount = 2 ∧
      (run sqrtStub initWorld bulletPowerUpTrace).game.bulletPowerUpEndTime = 201 / 10) ∧
    (expireEffects (run sqrtStub initWorld bulletPowerUpTrace).game 21).bulletCount = 1 :=
  ⟨by decide!,
    (C24_expired_at_baseline sqrtStub (run sqrtStub initWorld bulletPowerUpTrace) 21
      ⟨bulletPowerUpTrace, rfl⟩).2.1 (by decide!)⟩

/-! ## C22: the shape of a burst -/

theorem burst_eq_fanned (g : GameState) (N : ℕ) (hN : g.bulletCount = (N : Int)) :
    burst g = (List.range N).map (fannedBullet g N) := by
  rw [burst_eq_map, hN, Int.toNat_ofNat]
  apply List.map_congr_left
  intro i _
  unfold fannedBullet
  push_cast
  rfl

/-- The sum of an arithmetic progression over the first `n` indices. -/
theorem sum_range_affine (a d : ℚ) (n : ℕ) :
    ((List.range n).map fun i : ℕ => a + (i : ℚ) * d).sum
      = (n : ℚ) * a + d * ((n : ℚ) * ((n : ℚ) - 1) / 2) := by
  induction n with
  | zero => simp
  | succ n ih =>
    rw [List.range_succ, List.map_append, List.sum_append, ih]
    simp only [List.map_cons, List.map_nil, List.sum_cons, List.sum_nil]
    push_cast
    ring

/-- C22: an honoured fire with bullet count `N` appends exactly the `N` bullets
`fannedBullet 0 .. N-1` (x = playerX - (N-1) * bulletOffset / 2 + i *
bulletOffset, y = playerY + playerSize / 2, velocity bulletSpeed) and leaves the
existing bullets in place; the x offsets from the player sum to zero, the
offset of bullet `N-1-i` is the negative of that of bullet `i`, and consecutive
bullets are `bulletOffset` apart. -/
theorem C22_burst_shape (w : World) (now : ℚ) (N : ℕ) (hN : w.game.bulletCount = (N : Int))
    (hc : now - w.game.lastShotTime > effectiveCooldown w.game now) :
    (fire w now).bullets = w.bullets ++ (List.range N).map (fannedBullet w.game N) ∧
    (fire w now).bullets.length = w.bullets.length + N ∧
    (∀ i : ℕ, i < w.bullets.length → (fire w now).bullets[i]? = w.bullets[i]?) ∧
    (∀ i : ℕ, i < N →
      (fire w now).bullets[w.bullets.length + i]? = some (fannedBullet w.game N i)) ∧
    (∀ i : ℕ,
      (fannedBullet w.game N i).x
          = w.game.playerX - ((N : ℚ) - 1) * Config.bulletOffset / 2
            + (i : ℚ) * Config.bulletOffset ∧
        (fannedBullet w.game N i).y = w.game.playerY + Config.playerSize / 2 ∧
        (fannedBullet w.game N i).dy = Config.bulletSpeed) ∧
    ((List.range N).map fun i => (fannedBullet w.game N i).x - w.game.playerX).sum = 0 ∧
    (∀ i : ℕ, i < N →
      (fannedBullet w.game N (N - 1 - i)).x - w.game.playerX
        = -((fannedBullet w.game N i).x - w.game.playerX)) ∧
    (∀ i : ℕ,
      (fannedBullet w.game N (i + 1)).x - (fannedBullet w.game N i).x = Config.bulletOffset) := by
  have hb : (fire w now).bullets = w.bullets ++ (List.range N).map (fannedBullet w.game N) := by
    rw [(fire_ready w now hc).1, burst_eq_fanned w.game N hN]
  refine ⟨hb, ?_, ?_, ?_, fun i => ⟨rfl, rfl, rfl⟩, ?_, ?_, ?_⟩
  · rw [hb, List.length_append, List.length_map, List.length_range]
  · intro i hi
    rw [hb, List.getElem?_append_left hi]
  · intro i hi
    rw [hb, List.getElem?_append_right (Nat.le_add_right _ _), Nat.add_sub_cancel_left,
      List.getElem?_map, List.getElem?_range hi]
    rfl
  · have h := sum_range_affine (-(((N : ℚ) - 1) * Config.bulletOffset / 2)) Config.bulletOffset N
    have e : (fun i : ℕ => (fannedBullet w.game N i).x - w.game.playerX)
        = fun i : ℕ => -(((N : ℚ) - 1) * Config.bulletOffset / 2)
            + (i : ℚ) * Config.bulletOffset := by
      funext i
      unfold fannedBullet
      simp only []
      ring
    rw [e, h]
    ring
  · intro i hi
    have hcast : ((N - 1 - i : ℕ) : ℚ) = (N : ℚ) - 1 - (i : ℚ) := by
      have h1 : i ≤ N - 1 := by omega
      have h2 : 1 ≤ N := by omega
      rw [Nat.cast_sub h1, Nat.cast_sub h2, Nat.cast_one]
    unfold fannedBullet
    simp only []
    rw [hcast]
    ring
  · intro i
    unfold fannedBullet
    simp only []
    push_cast
    ring

/-- Witness for C22: three bullets fired at 1 s from the player at (500, 50)
over one bullet already in flight: x = 490, 500, 510 at y = 60. -/
theorem C22_burst_shape_witness :
    (fire tripleWorld 1).bullets
      = [bulletAside, { x := 490, y := 60, dy := 400 }, { x := 500, y := 60, dy := 400 },
          { x := 510, y := 60, dy := 400 }] ∧
    (fire tripleWorld 1).bullets
      = tripleWorld.bullets ++ (List.range 3).map (fannedBullet tripleWorld.game 3) ∧
    ((List.range 3).map fun i => (fannedBullet tripleWorld.game 3 i).x
      - tripleWorld.game.playerX).sum = 0 :=
  ⟨by decide!,
    (C22_burst_shape tripleWorld 1 3 rfl (by decide!)).1,
    (C22_burst_shape tripleWorld 1 3 rfl (by decide!)).2.2.2.2.2.1⟩

/-! ## C23: timed power-ups overwrite -/

theorem playerVsPowerUps_of_no_touch (t : ℚ) (g : GameState) (ps : List PowerUp)
    (h : ∀ q ∈ ps, powerUpTouches g q = false) : playerVsPowerUps t g ps = (g, ps) := by
  induction ps with
  | nil => rfl
  | cons pu ps ih =>
    rw [playerVsPowerUps_cons_miss t g pu ps (h pu (List.mem_cons_self pu ps)),
      ih fun q hq => h q (List.mem_cons_of_mem pu hq)]

theorem playerVsPowerUps_append_of_no_touch (t : ℚ) (g : GameState) (pre ps : List PowerUp)
    (h : ∀ q ∈ pre, powerUpTouches g q = false) :
    playerVsPowerUps t g (pre ++ ps)
      = ((playerVsPowerUps t g ps).1, pre ++ (playerVsPowerUps t g ps).2) := by
  induction pre with
  | nil => rfl
  | cons pu pre ih =>
    rw [List.cons_append,
      playerVsPowerUps_cons_miss t g pu (pre ++ ps) (h pu (List.mem_cons_self pu pre)),
      ih fun q hq => h q (List.mem_cons_of_mem pu hq)]
    rfl

/-- Exactly one overlapping power-up: one application of the switch, and that
power-up is erased. -/
theorem playerVsPowerUps_single (t : ℚ) (g : GameState) (pre post : List PowerUp)
    (pu : PowerUp) (ht : powerUpTouches g pu = true)
    (hpre : ∀ q ∈ pre, powerUpTouches g q = false)
    (hpost : ∀ q ∈ post, powerUpTouches g q = false) :
    playerVsPowerUps t g (pre ++ pu :: post) = (applyPowerUp g t pu.type, pre ++ post) := by
  rw [playerVsPowerUps_append_of_no_touch t g pre (pu :: post) hpre,
    playerVsPowerUps_cons_touch t g pu post ht,
    playerVsPowerUps_of_no_touch t (applyPowerUp g t pu.type) post fun q hq => by
      rw [powerUpTouches_congr g _ (applyPowerUp_pos g t pu.type).1
        (applyPowerUp_pos g t pu.type).2]
      exact hpost q hq]

/-- C23: collected at time `now`, a speed boost sets its expiry to `now + 10`
and the speed multiplier to 1.5, faster shooting and invincibility set their
expiry to `now + 10`, a score multiplier sets its expiry to `now + 10` and the
score multiplier to 2, whatever the previous values, and each leaves every
other timed-effect expiry and magnitude unchanged; when the power-up is the
only one overlapping the player, this is the effect of the whole power-up stage
on the game state. -/
theorem C23_timed_powerups_overwrite (now : ℚ) (g : GameState) (pre post : List PowerUp)
    (pu : PowerUp) (ht : powerUpTouches g pu = true)
    (hpre : ∀ q ∈ pre, powerUpTouches g q = false)
    (hpost : ∀ q ∈ post, powerUpTouches g q = false) :
    timedEffects (applyPowerUp g now .SPEED_BOOST)
      = { timedEffects g with speedBoostEndTime := now + 10, speedBoostMultiplier := 3 / 2 } ∧
    timedEffects (applyPowerUp g now .FASTER_SHOOTING)
      = { timedEffects g with fasterShootingEndTime := now + 10 } ∧
    timedEffects (applyPowerUp g now .INVINCIBILITY)
      = { timedEffects g with invincibilityEndTime := now + 10 } ∧
    timedEffects (applyPowerUp g now .SCORE_MULTIPLIER)
      = { timedEffects g with scoreMultiplierEndTime := now + 10, scoreMultiplier := 2 } ∧
    playerVsPowerUps now g (pre ++ pu :: post) = (applyPowerUp g now pu.type, pre ++ post) :=
  ⟨rfl, rfl, rfl, rfl, playerVsPowerUps_single now g pre post pu ht hpre hpost⟩

/-- Witness for C23: every effect still active (expiries 18 and 20), a speed
boost on the player at 15 s between two power-ups in column 10: the speed
expiry becomes 25, not 30, and the other effects keep their values. -/
theorem C23_timed_powerups_overwrite_witness :
    timedEffects (playerVsPowerUps 15 activeState
        ([powerUpAside .INVINCIBILITY] ++ powerUpOnPlayer .SPEED_BOOST ::
          [powerUpAside .SCORE_MULTIPLIER])).1
      = { timedEffects activeState with speedBoostEndTime := 25 } ∧
    (playerVsPowerUps 15 activeState
        ([powerUpAside .INVINCIBILITY] ++ powerUpOnPlayer .SPEED_BOOST ::
          [powerUpAside .SCORE_MULTIPLIER])).2
      = [powerUpAside .INVINCIBILITY] ++ [powerUpAside .SCORE_MULTIPLIER] := by
  have h := (C23_timed_powerups_overwrite 15 activeState [powerUpAside .INVINCIBILITY]
    [powerUpAside .SCORE_MULTIPLIER] (powerUpOnPlayer .SPEED_BOOST) (by decide!)
    (fun q hq => by rw [List.mem_singleton.mp hq]; decide!)
    (fun q hq => by rw [List.mem_singleton.mp hq]; decide!)).2.2.2.2
  rw [h]
  exact ⟨by decide!, rfl⟩

/-! ## C25: game over and the health -/

/-- C25 (as stated, refuted): the state after `lateRestoreTrace` is reachable,
has `gameOver` set and health 1: the tick that took the health to 0 also
collected a health restore. -/
theorem C25_gameOver_with_positive_health :
    Reachable sqrtStub (run sqrtStub initWorld lateRestoreTrace) ∧
      (run sqrtStub initWorld lateRestoreTrace).game.gameOver = true ∧
      (run sqrtStub initWorld lateRestoreTrace).game.health = 1 ∧
      ¬ ((run sqrtStub initWorld lateRestoreTrace).game.gameOver = true ↔
        (run sqrtStub initWorld lateRestoreTrace).game.health ≤ 0) :=
  ⟨⟨lateRestoreTrace, rfl⟩, by decide!, by decide!, by decide!⟩

theorem damagePlayer_gameOver_iff (g : GameState) (t : ℚ)
    (h : g.gameOver = true ↔ g.health ≤ 0) :
    (damagePlayer g t).gameOver = true ↔ (damagePlayer g t).health ≤ 0 := by
  unfold damagePlayer
  split_ifs with h1 h2
  · exact ⟨fun _ => h2, fun _ => rfl⟩
  · constructor
    · intro hg
      have hg' : g.gameOver = true := hg
      have := h.mp hg'
      exact absurd (show g.health - 1 ≤ 0 by omega) h2
    · intro hh
      exact absurd hh h2
  · exact h

/-- C25 (amended): in every reachable state health ≤ 0 implies that `gameOver`
is set; and the player-enemy collision stage, the only code that sets
`gameOver`, keeps the equivalence of `gameOver` and health ≤ 0, in particular
when entered from a reachable state in which the game is not over. -/
theorem C25_zero_health_is_gameOver (sqrtf : ℚ → ℚ) (w : World) (h : Reachable sqrtf w) :
    (w.game.health ≤ 0 → w.game.gameOver = true) ∧
    (∀ (g : GameState) (now : ℚ) (enemies : List Enemy),
      (g.gameOver = true ↔ g.health ≤ 0) →
        ((playerVsEnemies now g enemies).1.gameOver = true ↔
          (playerVsEnemies now g enemies).1.health ≤ 0)) ∧
    (w.game.gameOver = false → ∀ (now : ℚ) (enemies : List Enemy),
      ((playerVsEnemies now w.game enemies).1.gameOver = true ↔
        (playerVsEnemies now w.game enemies).1.health ≤ 0)) := by
  have hk := reachable_invariant HealthOk healthOk_tick healthOk_input sqrtf w h
  have hstage : ∀ (g : GameState) (now : ℚ) (enemies : List Enemy),
      (g.gameOver = true ↔ g.health ≤ 0) →
        ((playerVsEnemies now g enemies).1.gameOver = true ↔
          (playerVsEnemies now g enemies).1.health ≤ 0) :=
    fun g now enemies hg =>
      playerVsEnemies_preserves (fun g' => g'.gameOver = true ↔ g'.health ≤ 0) now
        (fun g' hg' => damagePlayer_gameOver_iff g' now hg') enemies g hg
  refine ⟨fun hz => ?_, hstage, fun hgo now enemies => hstage w.game now enemies ?_⟩
  · cases hgo : w.game.gameOver with
    | true => rfl
    | false =>
      have := hk.2 hgo
      omega
  · have hp := hk.2 hgo
    constructor
    · intro hg
      rw [hgo] at hg
      exact absurd hg (by decide)
    · intro hz
      omega

/-- Witness for C25: the state after `gameOverTrace`, with health 0 and the
game over; and the state one tick earlier, with health 1, entering the
collision stage with an enemy on the player at 16 s. -/
theorem C25_zero_health_is_gameOver_witness :
    (run sqrtStub initWorld gameOverTrace).game.health = 0 ∧
    ((run sqrtStub initWorld gameOverTrace).game.health ≤ 0 →
      (run sqrtStub initWorld gameOverTrace).game.gameOver = true) ∧
    ((playerVsEnemies 16 (run sqrtStub initWorld (gameOverTrace.take 5)).game
        [enemyOnPlayer]).1.gameOver = true ↔
      (playerVsEnemies 16 (run sqrtStub initWorld (gameOverTrace.take 5)).game
        [enemyOnPlayer]).1.health ≤ 0) :=
  ⟨by decide!,
    (C25_zero_health_is_gameOver sqrtStub (run sqrtStub initWorld gameOverTrace)
      ⟨gameOverTrace, rfl⟩).1,
    (C25_zero_health_is_gameOver sqrtStub (run sqrtStub initWorld (gameOverTrace.take 5))
      ⟨gameOverTrace.take 5, rfl⟩).2.2 (by decide!) 16 [enemyOnPlayer]⟩


/-! ## Rounding to binary32 -/

theorem roundNE_bounds (r : ℚ) : ⌊r⌋ ≤ roundNE r ∧ roundNE r ≤ ⌊r⌋ + 1 := by
  unfold roundNE
  split_ifs <;> constructor <;> omega

theorem roundNE_intCast (n : Int) : roundNE (n : ℚ) = n := by
  unfold roundNE
  simp

/-- Rounding to the nearest integer is monotone. -/
theorem roundNE_mono {r s : ℚ} (h : r ≤ s) : roundNE r ≤ roundNE s := by
  have hf : ⌊r⌋ ≤ ⌊s⌋ := Int.floor_mono h
  rcases lt_or_eq_of_le hf with hlt | heq
  · have h1 := (roundNE_bounds r).2
    have h2 := (roundNE_bounds s).1
    omega
  · unfold roundNE
    rw [heq]
    have hd : r - (⌊s⌋ : ℚ) ≤ s - (⌊s⌋ : ℚ) := by linarith
    split_ifs <;> first | omega | (exfalso; linarith)

theorem roundNE_err (r : ℚ) : |(roundNE r : ℚ) - r| ≤ 1 / 2 := by
  have h1 : (⌊r⌋ : ℚ) ≤ r := Int.floor_le r
  have h2 : r < (⌊r⌋ : ℚ) + 1 := Int.lt_floor_add_one r
  unfold roundNE
  rw [abs_le]
  split_ifs <;> push_cast <;> constructor <;> linarith

theorem roundNE_neg (r : ℚ) : roundNE (-r) = -roundNE r := by
  by_cases hi : (⌊r⌋ : ℚ) = r
  · rw [← hi, ← Int.cast_neg, roundNE_intCast, roundNE_intCast]
  · have h1 : (⌊r⌋ : ℚ) < r := lt_of_le_of_ne (Int.floor_le r) hi
    have h2 : r < (⌊r⌋ : ℚ) + 1 := Int.lt_floor_add_one r
    have hfl : ⌊-r⌋ = -⌊r⌋ - 1 := by
      rw [Int.floor_eq_iff]
      push_cast
      constructor <;> linarith
    unfold roundNE
    rw [hfl]
    push_cast
    split_ifs <;> first | omega | (exfalso; linarith)

theorem log2Fuel_eq (fuel : Nat) : ∀ n : Nat, n ≤ fuel → log2Fuel fuel n = Nat.log2 n := by
  induction fuel with
  | zero =>
    intro n h
    have : n = 0 := by omega
    subst this
    rw [Nat.log2]
    rfl
  | succ fuel ih =>
    intro n h
    rw [log2Fuel, Nat.log2]
    by_cases h2 : 2 ≤ n
    · rw [if_pos h2, if_pos h2, ih (n / 2) (by omega)]
    · rw [if_neg h2, if_neg h2]

/-- The fuel of `nlog2` suffices. -/
theorem nlog2_eq (n : Nat) : nlog2 n = Nat.log2 n := log2Fuel_eq n n le_rfl

theorem abs_eq_natAbs_div (q : ℚ) : |q| = (q.num.natAbs : ℚ) / (q.den : ℚ) := by
  have hd : (0 : ℚ) < (q.den : ℚ) := by exact_mod_cast q.den_pos
  conv_lhs => rw [← Rat.num_div_den q]
  rw [abs_div, abs_of_pos hd, Nat.cast_natAbs, Int.cast_abs]

/-- For `q ≠ 0`, `ilog2 q` is the exponent `k` with `2^k ≤ |q| < 2^(k+1)`. -/
theorem ilog2_spec {q : ℚ} (hq : q ≠ 0) :
    (2 : ℚ) ^ ilog2 q ≤ |q| ∧ |q| < (2 : ℚ) ^ (ilog2 q + 1) := by
  have hd : (0 : ℚ) < (q.den : ℚ) := by exact_mod_cast q.den_pos
  have hn0 : q.num.natAbs ≠ 0 := Int.natAbs_ne_zero.mpr (Rat.num_ne_zero.mpr hq)
  have n1 : ((2 : ℚ) ^ (Nat.log2 q.num.natAbs)) ≤ (q.num.natAbs : ℚ) := by
    exact_mod_cast Nat.log2_self_le hn0
  have n2 : (q.num.natAbs : ℚ) < (2 : ℚ) ^ (Nat.log2 q.num.natAbs + 1) := by
    exact_mod_cast (Nat.lt_log2_self (n := q.num.natAbs))
  have d1 : ((2 : ℚ) ^ (Nat.log2 q.den)) ≤ (q.den : ℚ) := by
    exact_mod_cast Nat.log2_self_le q.den_nz
  have d2 : (q.den : ℚ) < (2 : ℚ) ^ (Nat.log2 q.den + 1) := by
    exact_mod_cast (Nat.lt_log2_self (n := q.den))
  have two : (2 : ℚ) ≠ 0 := by norm_num
  have pn : (0 : ℚ) < (2 : ℚ) ^ (Nat.log2 q.num.natAbs) := by positivity
  have pd : (0 : ℚ) < (2 : ℚ) ^ (Nat.log2 q.den) := by positivity
  have ea : (2 : ℚ) ^ ((Nat.log2 q.num.natAbs : Int) - (Nat.log2 q.den : Int))
      = (2 : ℚ) ^ (Nat.log2 q.num.natAbs) / (2 : ℚ) ^ (Nat.log2 q.den) := by
    rw [zpow_sub₀ two, zpow_natCast, zpow_natCast]
  -- upper bound: |q| < 2 ^ (a + 1)
  have up : |q| < (2 : ℚ) ^ ((Nat.log2 q.num.natAbs : Int) - (Nat.log2 q.den : Int) + 1) := by
    rw [zpow_add₀ two, ea, zpow_one, abs_eq_natAbs_div, div_lt_iff₀ hd]
    have : (2 : ℚ) ^ (Nat.log2 q.num.natAbs) / (2 : ℚ) ^ (Nat.log2 q.den) * 2 * (q.den : ℚ)
        = (2 : ℚ) ^ (Nat.log2 q.num.natAbs + 1) * ((q.den : ℚ) / (2 : ℚ) ^ (Nat.log2 q.den)) := by
      rw [pow_succ]
      field_simp
    rw [this]
    have h1 : (1 : ℚ) ≤ (q.den : ℚ) / (2 : ℚ) ^ (Nat.log2 q.den) := by
      rw [le_div_iff₀ pd]
      linarith
    have h2 : (0 : ℚ) < (2 : ℚ) ^ (Nat.log2 q.num.natAbs + 1) := by positivity
    nlinarith
  -- lower bound: 2 ^ (a - 1) ≤ |q|
  have low : (2 : ℚ) ^ ((Nat.log2 q.num.natAbs : Int) - (Nat.log2 q.den : Int) - 1) ≤ |q| := by
    rw [zpow_sub₀ two, ea, zpow_one, abs_eq_natAbs_div, le_div_iff₀ hd]
    have : (2 : ℚ) ^ (Nat.log2 q.num.natAbs) / (2 : ℚ) ^ (Nat.log2 q.den) / 2 * (q.den : ℚ)
        = (2 : ℚ) ^ (Nat.log2 q.num.natAbs) * ((q.den : ℚ) / (2 : ℚ) ^ (Nat.log2 q.den + 1)) := by
      rw [pow_succ]
      field_simp
    rw [this]
    have pd2 : (0 : ℚ) < (2 : ℚ) ^ (Nat.log2 q.den + 1) := by positivity
    have h1 : (q.den : ℚ) / (2 : ℚ) ^ (Nat.log2 q.den + 1) ≤ 1 := by
      rw [div_le_iff₀ pd2]
      linarith
    have h0 : (0 : ℚ) ≤ (q.den : ℚ) / (2 : ℚ) ^ (Nat.log2 q.den + 1) := by positivity
    nlinarith
  unfold ilog2
  rw [nlog2_eq, nlog2_eq]
  split_ifs with h
  · exact ⟨h, up⟩
  · refine ⟨low, ?_⟩
    rw [sub_add_cancel]
    exact not_le.mp h

theorem ilog2_eq_log {q : ℚ} (hq : q ≠ 0) : ilog2 q = Int.log 2 |q| := by
  have hp : 0 < |q| := abs_pos.mpr hq
  obtain ⟨h1, h2⟩ := ilog2_spec hq
  have a : ilog2 q ≤ Int.log 2 |q| := by
    rw [← Int.zpow_le_iff_le_log (by norm_num) hp]
    exact_mod_cast h1
  have b : Int.log 2 |q| < ilog2 q + 1 := by
    rw [← Int.lt_zpow_iff_log_lt (by norm_num) hp]
    exact_mod_cast h2
  omega

theorem expOf_eq {q : ℚ} (hq : q ≠ 0) : expOf q = max (Int.log 2 |q|) (-126) := by
  unfold expOf
  rw [ilog2_eq_log hq]

theorem ulp32_pos (q : ℚ) : 0 < ulp32 q := by
  unfold ulp32
  positivity

theorem ilog2_neg (q : ℚ) : ilog2 (-q) = ilog2 q := by
  unfold ilog2
  rw [Rat.num_neg_eq_neg_num, Int.natAbs_neg, Rat.den_neg_eq_den, abs_neg]

theorem ulp32_neg (q : ℚ) : ulp32 (-q) = ulp32 q := by
  unfold ulp32 expOf
  rw [ilog2_neg]

theorem f32_neg (q : ℚ) : f32 (-q) = -f32 q := by
  unfold f32
  rw [ulp32_neg, neg_div, roundNE_neg]
  push_cast
  ring

theorem f32_zero : f32 0 = 0 := by
  unfold f32
  simp [roundNE]

theorem expOf_ge (q : ℚ) : -126 ≤ expOf q := le_max_right _ _

theorem lt_zpow_expOf {p : ℚ} (hp : 0 < p) : p < (2 : ℚ) ^ (expOf p + 1) := by
  have h1 : p < ((2 : ℕ) : ℚ) ^ (Int.log 2 p + 1) := Int.lt_zpow_succ_log_self (by norm_num) p
  have h2 : ((2 : ℕ) : ℚ) ^ (Int.log 2 p + 1) ≤ (2 : ℚ) ^ (expOf p + 1) := by
    push_cast
    apply zpow_le_zpow_right₀ (by norm_num)
    rw [expOf_eq hp.ne', abs_of_pos hp]
    have := le_max_left (Int.log 2 p) (-126)
    omega
  exact lt_of_lt_of_le h1 h2

theorem zpow_expOf_le {p : ℚ} (hp : 0 < p) (he : -126 < expOf p) : (2 : ℚ) ^ expOf p ≤ p := by
  have h1 : ((2 : ℕ) : ℚ) ^ Int.log 2 p ≤ p := Int.zpow_log_le_self (by norm_num) hp
  have h2 : expOf p = Int.log 2 p := by
    rw [expOf_eq hp.ne', abs_of_pos hp] at he ⊢
    rcases max_cases (Int.log 2 p) (-126) with ⟨h, -⟩ | ⟨h, -⟩
    · exact h
    · omega
  rw [h2]
  exact_mod_cast h1

theorem expOf_mono {a b : ℚ} (ha : 0 < a) (hab : a ≤ b) : expOf a ≤ expOf b := by
  rw [expOf_eq ha.ne', expOf_eq (lt_of_lt_of_le ha hab).ne', abs_of_pos ha,
    abs_of_pos (lt_of_lt_of_le ha hab)]
  exact max_le_max (Int.log_mono_right ha hab) le_rfl

theorem ulp32_mul (q : ℚ) : ((2 ^ 23 : Int) : ℚ) * ulp32 q = (2 : ℚ) ^ expOf q := by
  unfold ulp32
  rw [zpow_sub₀ (by norm_num : (2 : ℚ) ≠ 0)]
  push_cast
  norm_num
  ring

theorem ulp32_mul_succ (q : ℚ) : ((2 ^ 24 : Int) : ℚ) * ulp32 q = (2 : ℚ) ^ (expOf q + 1) := by
  unfold ulp32
  rw [zpow_sub₀ (by norm_num : (2 : ℚ) ≠ 0), zpow_add₀ (by norm_num : (2 : ℚ) ≠ 0)]
  push_cast
  norm_num
  ring

theorem roundNE_le_of_le {r : ℚ} {n : Int} (h : r ≤ (n : ℚ)) : roundNE r ≤ n := by
  have := roundNE_mono h
  rwa [roundNE_intCast] at this

theorem le_roundNE_of_le {r : ℚ} {n : Int} (h : (n : ℚ) ≤ r) : n ≤ roundNE r := by
  have := roundNE_mono h
  rwa [roundNE_intCast] at this

theorem f32_nonneg {q : ℚ} (h : 0 ≤ q) : 0 ≤ f32 q := by
  unfold f32
  have hu := ulp32_pos q
  have : (0 : Int) ≤ roundNE (q / ulp32 q) := le_roundNE_of_le (by push_cast; positivity)
  have : (0 : ℚ) ≤ (roundNE (q / ulp32 q) : ℚ) := by exact_mod_cast this
  positivity

theorem f32_le_zpow {p : ℚ} (hp : 0 < p) : f32 p ≤ (2 : ℚ) ^ (expOf p + 1) := by
  have hu := ulp32_pos p
  have h1 : p / ulp32 p ≤ ((2 ^ 24 : Int) : ℚ) := by
    rw [div_le_iff₀ hu, ulp32_mul_succ]
    exact le_of_lt (lt_zpow_expOf hp)
  have h2 : (roundNE (p / ulp32 p) : ℚ) ≤ ((2 ^ 24 : Int) : ℚ) := by
    exact_mod_cast roundNE_le_of_le h1
  unfold f32
  rw [← ulp32_mul_succ]
  exact mul_le_mul_of_nonneg_right h2 (le_of_lt hu)

theorem zpow_le_f32 {p : ℚ} (hp : 0 < p) (he : -126 < expOf p) : (2 : ℚ) ^ expOf p ≤ f32 p := by
  have hu := ulp32_pos p
  have h1 : ((2 ^ 23 : Int) : ℚ) ≤ p / ulp32 p := by
    rw [le_div_iff₀ hu, ulp32_mul]
    exact zpow_expOf_le hp he
  have h2 : ((2 ^ 23 : Int) : ℚ) ≤ (roundNE (p / ulp32 p) : ℚ) := by
    exact_mod_cast le_roundNE_of_le h1
  unfold f32
  rw [← ulp32_mul]
  exact mul_le_mul_of_nonneg_right h2 (le_of_lt hu)

theorem f32_mono_pos {a b : ℚ} (ha : 0 < a) (hab : a ≤ b) : f32 a ≤ f32 b := by
  have hb : 0 < b := lt_of_lt_of_le ha hab
  rcases lt_or_eq_of_le (expOf_mono ha hab) with hlt | heq
  · have h1 := f32_le_zpow ha
    have h2 := zpow_le_f32 hb (lt_of_le_of_lt (expOf_ge a) hlt)
    have h3 : (2 : ℚ) ^ (expOf a + 1) ≤ (2 : ℚ) ^ expOf b :=
      zpow_le_zpow_right₀ (by norm_num) (by omega)
    linarith
  · have hu : ulp32 a = ulp32 b := by
      unfold ulp32
      rw [heq]
    unfold f32
    rw [hu]
    have hub := ulp32_pos b
    have h1 : a / ulp32 b ≤ b / ulp32 b := div_le_div_of_nonneg_right hab (le_of_lt hub)
    have h2 : (roundNE (a / ulp32 b) : ℚ) ≤ (roundNE (b / ulp32 b) : ℚ) := by
      exact_mod_cast roundNE_mono h1
    exact mul_le_mul_of_nonneg_right h2 (le_of_lt hub)

/-- Rounding to binary32 is monotone. -/
theorem f32_mono {a b : ℚ} (hab : a ≤ b) : f32 a ≤ f32 b := by
  rcases lt_trichotomy 0 a with ha | ha | ha
  · exact f32_mono_pos ha hab
  · rw [← ha] at hab ⊢
    rw [f32_zero]
    exact f32_nonneg hab
  · rcases lt_or_le b 0 with hb | hb
    · have h := f32_mono_pos (a := -b) (b := -a) (by linarith) (by linarith)
      rw [f32_neg, f32_neg] at h
      linarith
    · have h1 : 0 ≤ f32 (-a) := f32_nonneg (by linarith)
      rw [f32_neg] at h1
      have h2 := f32_nonneg hb
      linarith

/-- A strict comparison of two rounded values holds between the exact ones. -/
theorem lt_of_f32_lt {a b : ℚ} (h : f32 a < f32 b) : a < b := by
  by_contra hn
  exact absurd (f32_mono (not_lt.mp hn)) (not_le.mpr h)

theorem f32_err (q : ℚ) : |f32 q - q| ≤ ulp32 q / 2 := by
  have hu := ulp32_pos q
  have h := roundNE_err (q / ulp32 q)
  have e : f32 q - q = ((roundNE (q / ulp32 q) : ℚ) - q / ulp32 q) * ulp32 q := by
    unfold f32
    field_simp
  rw [e, abs_mul, abs_of_pos hu]
  calc |(roundNE (q / ulp32 q) : ℚ) - q / ulp32 q| * ulp32 q ≤ 1 / 2 * ulp32 q :=
        mul_le_mul_of_nonneg_right h (le_of_lt hu)
    _ = ulp32 q / 2 := by ring

theorem ulp32_le {q : ℚ} (hq0 : q ≠ 0) : ulp32 q ≤ |q| / 2 ^ 23 + 1 / 2 ^ 149 := by
  rcases eq_or_lt_of_le (expOf_ge q) with he | he
  · have : ulp32 q = 1 / 2 ^ 149 := by
      unfold ulp32
      rw [← he]
      norm_num
    rw [this]
    have := abs_nonneg q
    have : 0 ≤ |q| / 2 ^ 23 := by positivity
    linarith
  · have hq : 0 < |q| := abs_pos.mpr hq0
    have e1 : expOf |q| = expOf q := by
      rw [expOf_eq hq.ne', expOf_eq hq0, abs_abs]
    have h1 : (2 : ℚ) ^ expOf q ≤ |q| := by
      rw [← e1]
      exact zpow_expOf_le hq (by rw [e1]; exact he)
    have h2 := ulp32_mul q
    have h3 : ulp32 q = (2 : ℚ) ^ expOf q / 2 ^ 23 := by
      rw [← h2]
      push_cast
      ring
    rw [h3]
    have : (2 : ℚ) ^ expOf q / 2 ^ 23 ≤ |q| / 2 ^ 23 :=
      div_le_div_of_nonneg_right h1 (by positivity)
    have : (0 : ℚ) ≤ 1 / 2 ^ 149 := by positivity
    linarith

/-- The rounding error is at most half a unit in the last place: a relative
`2^-24`, or `2^-150` in the subnormal range. -/
theorem f32_err_rel (q : ℚ) : |f32 q - q| ≤ |q| / 2 ^ 24 + 1 / 2 ^ 150 := by
  rcases eq_or_ne q 0 with h0 | h0
  · rw [h0, f32_zero]
    norm_num
  have h1 := f32_err q
  have h2 := ulp32_le h0
  have : ulp32 q / 2 ≤ (|q| / 2 ^ 23 + 1 / 2 ^ 149) / 2 := by linarith
  have e : (|q| / 2 ^ 23 + 1 / 2 ^ 149) / 2 = |q| / 2 ^ 24 + 1 / 2 ^ 150 := by ring
  linarith

theorem f32_idem_pos {p : ℚ} (hp : 0 < p) : f32 (f32 p) = f32 p := by
  have hu := ulp32_pos p
  have hn0 : (0 : Int) ≤ roundNE (p / ulp32 p) := le_roundNE_of_le (by push_cast; positivity)
  have hn24 : roundNE (p / ulp32 p) ≤ 2 ^ 24 := by
    apply roundNE_le_of_le
    rw [div_le_iff₀ hu, ulp32_mul_succ]
    exact le_of_lt (lt_zpow_expOf hp)
  have hv : f32 p = (roundNE (p / ulp32 p) : ℚ) * ulp32 p := rfl
  rcases eq_or_lt_of_le hn0 with h0 | h0
  · have : f32 p = 0 := by rw [hv, ← h0]; simp
    rw [this, f32_zero]
  · have hvpos : 0 < f32 p := by
      rw [hv]
      have : (0 : ℚ) < (roundNE (p / ulp32 p) : ℚ) := by exact_mod_cast h0
      positivity
    rcases eq_or_lt_of_le hn24 with h24 | h24
    · -- rounded up to the next power of two
      have hv2 : f32 p = (2 : ℚ) ^ (expOf p + 1) := by
        rw [hv, h24, ulp32_mul_succ]
      have he : expOf (f32 p) = expOf p + 1 := by
        have hl : Int.log 2 ((2 : ℚ) ^ (expOf p + 1)) = expOf p + 1 := by
          have := Int.log_zpow (R := ℚ) (b := 2) (by norm_num) (expOf p + 1)
          exact_mod_cast this
        have := expOf_ge p
        rw [expOf_eq hvpos.ne', abs_of_pos hvpos, hv2, hl]
        exact max_eq_left (by omega)
      have hu2 : ulp32 (f32 p) = 2 * ulp32 p := by
        unfold ulp32
        rw [he, show expOf p + 1 - 23 = (expOf p - 23) + 1 by ring,
          zpow_add₀ (by norm_num : (2 : ℚ) ≠ 0)]
        ring
      have hq : f32 p / ulp32 (f32 p) = ((2 ^ 23 : Int) : ℚ) := by
        rw [hu2, hv, h24]
        push_cast
        field_simp
        ring
      show (roundNE (f32 p / ulp32 (f32 p)) : ℚ) * ulp32 (f32 p) = f32 p
      rw [hq, roundNE_intCast, hu2, hv, h24]
      push_cast
      ring
    · have hlt : f32 p < (2 : ℚ) ^ (expOf p + 1) := by
        rw [hv, ← ulp32_mul_succ]
        have : (roundNE (p / ulp32 p) : ℚ) < ((2 ^ 24 : Int) : ℚ) := by exact_mod_cast h24
        exact mul_lt_mul_of_pos_right this hu
      have hlog : Int.log 2 (f32 p) ≤ expOf p := by
        have : Int.log 2 (f32 p) < expOf p + 1 := by
          rw [← Int.lt_zpow_iff_log_lt (by norm_num) hvpos]
          exact_mod_cast hlt
        omega
      have he : expOf (f32 p) = expOf p := by
        rcases eq_or_lt_of_le (expOf_ge p) with h126 | h126
        · rw [expOf_eq hvpos.ne', abs_of_pos hvpos]
          have : max (Int.log 2 (f32 p)) (-126) = -126 := max_eq_right (by omega)
          rw [this]
          exact h126
        · have hge : (2 : ℚ) ^ expOf p ≤ f32 p := zpow_le_f32 hp h126
          have : expOf p ≤ Int.log 2 (f32 p) := by
            rw [← Int.zpow_le_iff_le_log (by norm_num) hvpos]
            exact_mod_cast hge
          have h2 : Int.log 2 (f32 p) = expOf p := le_antisymm hlog this
          rw [expOf_eq hvpos.ne', abs_of_pos hvpos, h2]
          exact max_eq_left (by omega)
      have hu2 : ulp32 (f32 p) = ulp32 p := by
        unfold ulp32
        rw [he]
      have hq : f32 p / ulp32 (f32 p) = ((roundNE (p / ulp32 p) : Int) : ℚ) := by
        rw [hu2, hv]
        field_simp
      show (roundNE (f32 p / ulp32 (f32 p)) : ℚ) * ulp32 (f32 p) = f32 p
      rw [hq, roundNE_intCast, hu2]
      exact hv.symm

/-- Binary32 numbers are not changed by rounding. -/
theorem f32_idem (q : ℚ) : f32 (f32 q) = f32 q := by
  rcases lt_trichotomy 0 q with h | h | h
  · exact f32_idem_pos h
  · rw [← h, f32_zero, f32_zero]
  · have := f32_idem_pos (p := -q) (by linarith)
    rw [f32_neg, f32_neg] at this
    linarith

/-- Values of `f32`: the constants `0.8f`, `0.2f`, `0.05f`, `0.01f` and `1/3`,
two ties (to the even significand), a value that rounds up to a power of two,
and the subnormal range. -/
theorem f32_examples :
    (f32 (8 / 10) = 13421773 / 16777216 ∧ f32 (2 / 10) = 13421773 / 67108864 ∧
      f32 (5 / 100) = 13421773 / 268435456 ∧ f32 (1 / 100) = 5368709 / 536870912 ∧
      f32 (1 / 3) = 11184811 / 33554432) ∧
    (f32 (1 + 1 / 2 ^ 24) = 1 ∧ f32 (1 + 3 / 2 ^ 24) = 1 + 1 / 2 ^ 22 ∧
      f32 (2 - 1 / 2 ^ 25) = 2) ∧
    (f32 (1 / 2 ^ 149) = 1 / 2 ^ 149 ∧ f32 (1 / 2 ^ 150) = 0 ∧ f32 (3 / 2 ^ 150) = 1 / 2 ^ 148 ∧
      f32 (-(1 / 3)) = -(11184811 / 33554432)) := by
  decide!

/-- If `b` exceeds `a` by more than the two rounding errors, the rounded values
compare strictly. -/
theorem f32_lt_of_gap {a b : ℚ} (h : a + (|a| + |b|) / 2 ^ 24 + 1 / 2 ^ 149 < b) :
    f32 a < f32 b := by
  have ha := (abs_le.mp (f32_err_rel a)).2
  have hb := (abs_le.mp (f32_err_rel b)).1
  have e : (1 : ℚ) / 2 ^ 149 = 1 / 2 ^ 150 + 1 / 2 ^ 150 := by norm_num
  rw [e] at h
  have e2 : (|a| + |b|) / 2 ^ 24 = |a| / 2 ^ 24 + |b| / 2 ^ 24 := by ring
  rw [e2] at h
  linarith

/-- A binary32 number at or below the exact value stays at or below the
rounded value. -/
theorem le_f32_of_le {c q : ℚ} (hc : f32 c = c) (h : c ≤ q) : c ≤ f32 q := by
  rw [← hc]
  exact f32_mono h

/-! ## C10: the collision test in binary32 -/

theorem checkCollision32_iff (x1 y1 size1 x2 y2 size2 : ℚ) :
    checkCollision32 x1 y1 size1 x2 y2 size2 = true ↔
      (f32 (x1 - half32 size1) < f32 (x2 + half32 size2) ∧
        f32 (x1 + half32 size1) > f32 (x2 - half32 size2)) ∧
      (f32 (y1 - half32 size1) < f32 (y2 + half32 size2) ∧
        f32 (y1 + half32 size1) > f32 (y2 - half32 size2)) := by
  unfold checkCollision32
  simp only [Bool.and_eq_true, decide_eq_true_eq]
  constructor
  · rintro ⟨⟨⟨h1, h2⟩, h3⟩, h4⟩
    exact ⟨⟨h1, h2⟩, h3, h4⟩
  · rintro ⟨⟨h1, h2⟩, h3, h4⟩
    exact ⟨⟨⟨h1, h2⟩, h3⟩, h4⟩

/-- On one axis the two rounded comparisons imply that the centres are closer
than the sum of the half extents. -/
theorem axis32_exact {c1 h1 c2 h2 : ℚ} (ha : f32 (c1 - h1) < f32 (c2 + h2))
    (hb : f32 (c1 + h1) > f32 (c2 - h2)) : |c1 - c2| < h1 + h2 := by
  have a := lt_of_f32_lt ha
  have b := lt_of_f32_lt hb
  rw [abs_lt]
  constructor <;> linarith

/-- On one axis, centres closer than the sum of the half extents by more than
the rounding slack pass the two rounded comparisons. -/
theorem axis32_of_margin {c1 h1 c2 h2 : ℚ}
    (h : |c1 - c2| + (|c1| + |c2| + |h1| + |h2| + 1) / 2 ^ 24 < h1 + h2) :
    f32 (c1 - h1) < f32 (c2 + h2) ∧ f32 (c1 + h1) > f32 (c2 - h2) := by
  have k1 : |c1 - h1| ≤ |c1| + |h1| := abs_sub c1 h1
  have k2 : |c2 + h2| ≤ |c2| + |h2| := abs_add c2 h2
  have k3 : |c1 + h1| ≤ |c1| + |h1| := abs_add c1 h1
  have k4 : |c2 - h2| ≤ |c2| + |h2| := abs_sub c2 h2
  have d1 := le_abs_self (c1 - c2)
  have d2 := neg_abs_le (c1 - c2)
  have e : (|c1| + |c2| + |h1| + |h2| + 1) / 2 ^ 24
      = (|c1| + |h1|) / 2 ^ 24 + (|c2| + |h2|) / 2 ^ 24 + 1 / 2 ^ 24 := by ring
  rw [e] at h
  have t : (1 : ℚ) / 2 ^ 149 ≤ 1 / 2 ^ 24 := by norm_num
  have q1 : |c1 - h1| / 2 ^ 24 ≤ (|c1| + |h1|) / 2 ^ 24 :=
    div_le_div_of_nonneg_right k1 (by positivity)
  have q2 : |c2 + h2| / 2 ^ 24 ≤ (|c2| + |h2|) / 2 ^ 24 :=
    div_le_div_of_nonneg_right k2 (by positivity)
  have q3 : |c1 + h1| / 2 ^ 24 ≤ (|c1| + |h1|) / 2 ^ 24 :=
    div_le_div_of_nonneg_right k3 (by positivity)
  have q4 : |c2 - h2| / 2 ^ 24 ≤ (|c2| + |h2|) / 2 ^ 24 :=
    div_le_div_of_nonneg_right k4 (by positivity)
  constructor
  · apply f32_lt_of_gap
    have e2 : (|c1 - h1| + |c2 + h2|) / 2 ^ 24 = |c1 - h1| / 2 ^ 24 + |c2 + h2| / 2 ^ 24 := by
      ring
    rw [e2]
    linarith
  · apply f32_lt_of_gap
    have e2 : (|c2 - h2| + |c1 + h1|) / 2 ^ 24 = |c2 - h2| / 2 ^ 24 + |c1 + h1| / 2 ^ 24 := by
      ring
    rw [e2]
    linarith

/-- C10 (as stated, refuted): with the player at x = 505 + 2^-15 and an enemy at
x = 521 on the same height (all inputs are binary32 numbers, both sizes 20, half
extents 8), the centres are closer than 0.4 * (20 + 20) = 16 on both axes and
the shrunk boxes share a point on each, but `x1 + half1` rounds to 513, which
is `x2 - half2`, and the binary32 `checkCollision` returns false. -/
theorem C10_rounding_counterexample :
    checkCollision32 (505 + 1 / 2 ^ 15) 50 Config.playerSize 521 50 Config.enemySize = false ∧
    (f32 (505 + 1 / 2 ^ 15) = 505 + 1 / 2 ^ 15 ∧ f32 521 = 521 ∧ f32 50 = 50 ∧
      f32 Config.playerSize = Config.playerSize ∧ f32 Config.enemySize = Config.enemySize) ∧
    (|(505 + 1 / 2 ^ 15 : ℚ) - 521| < 2 / 5 * (Config.playerSize + Config.enemySize) ∧
      |(50 : ℚ) - 50| < 2 / 5 * (Config.playerSize + Config.enemySize)) ∧
    (shrunkOverlap (505 + 1 / 2 ^ 15) Config.playerSize 521 Config.enemySize ∧
      shrunkOverlap 50 Config.playerSize 50 Config.enemySize) ∧
    (f32 (505 + 1 / 2 ^ 15 + half32 Config.playerSize) = 513 ∧
      f32 (521 - half32 Config.enemySize) = 513) := by
  refine ⟨by decide!, by decide!, by decide!, ⟨?_, ?_⟩, by decide!⟩
  · rw [shrunkOverlap_iff _ _ _ _ (by decide!) (by decide!)]
    decide!
  · rw [shrunkOverlap_iff _ _ _ _ (by decide!) (by decide!)]
    decide!

/-- C10 (amended): the binary32 `checkCollision` returns true iff its four
comparisons hold between the rounded sums `x ± half`, `y ± half`, with
`half = size * 0.8f / 2`.  A true result implies that the centres are closer
than `half1 + half2` on both axes; centres closer than that by more than the
rounding slack give true; and when the eight sums are binary32 numbers the
result is true iff the centres are closer than `half1 + half2` on both axes.
For the four sizes of the game `half` is exactly `0.4 * size`, and then a true
result implies that the boxes shrunk to 80% share a point on each axis. -/
theorem C10_checkCollision32_spec (x1 y1 size1 x2 y2 size2 : ℚ) :
    (checkCollision32 x1 y1 size1 x2 y2 size2 = true ↔
      (f32 (x1 - half32 size1) < f32 (x2 + half32 size2) ∧
        f32 (x1 + half32 size1) > f32 (x2 - half32 size2)) ∧
      (f32 (y1 - half32 size1) < f32 (y2 + half32 size2) ∧
        f32 (y1 + half32 size1) > f32 (y2 - half32 size2))) ∧
    (checkCollision32 x1 y1 size1 x2 y2 size2 = true →
      |x1 - x2| < half32 size1 + half32 size2 ∧ |y1 - y2| < half32 size1 + half32 size2) ∧
    (|x1 - x2| + collisionSlack x1 size1 x2 size2 < half32 size1 + half32 size2 →
      |y1 - y2| + collisionSlack y1 size1 y2 size2 < half32 size1 + half32 size2 →
      checkCollision32 x1 y1 size1 x2 y2 size2 = true) ∧
    (f32 (x1 - half32 size1) = x1 - half32 size1 → f32 (x1 + half32 size1) = x1 + half32 size1 →
      f32 (x2 - half32 size2) = x2 - half32 size2 → f32 (x2 + half32 size2) = x2 + half32 size2 →
      f32 (y1 - half32 size1) = y1 - half32 size1 → f32 (y1 + half32 size1) = y1 + half32 size1 →
      f32 (y2 - half32 size2) = y2 - half32 size2 → f32 (y2 + half32 size2) = y2 + half32 size2 →
      (checkCollision32 x1 y1 size1 x2 y2 size2 = true ↔
        |x1 - x2| < half32 size1 + half32 size2 ∧ |y1 - y2| < half32 size1 + half32 size2)) ∧
    (half32 Config.playerSize = 2 / 5 * Config.playerSize ∧
      half32 Config.enemySize = 2 / 5 * Config.enemySize ∧
      half32 Config.powerUpSize = 2 / 5 * Config.powerUpSize ∧
      half32 Config.bulletSize = 2 / 5 * Config.bulletSize) ∧
    (0 < size1 → 0 < size2 → half32 size1 = 2 / 5 * size1 → half32 size2 = 2 / 5 * size2 →
      checkCollision32 x1 y1 size1 x2 y2 size2 = true →
      shrunkOverlap x1 size1 x2 size2 ∧ shrunkOverlap y1 size1 y2 size2) := by
  have hnec : checkCollision32 x1 y1 size1 x2 y2 size2 = true →
      |x1 - x2| < half32 size1 + half32 size2 ∧ |y1 - y2| < half32 size1 + half32 size2 := by
    intro h
    rw [checkCollision32_iff] at h
    exact ⟨axis32_exact h.1.1 h.1.2, axis32_exact h.2.1 h.2.2⟩
  refine ⟨checkCollision32_iff x1 y1 size1 x2 y2 size2, hnec, fun hx hy => ?_,
    fun a1 a2 a3 a4 b1 b2 b3 b4 => ?_, ⟨by decide!, by decide!, by decide!, by decide!⟩,
    fun p1 p2 e1 e2 h => ?_⟩
  · rw [checkCollision32_iff]
    exact ⟨axis32_of_margin hx, axis32_of_margin hy⟩
  · rw [checkCollision32_iff, a1, a2, a3, a4, b1, b2, b3, b4, abs_lt, abs_lt]
    constructor
    · rintro ⟨⟨h1, h2⟩, h3, h4⟩
      refine ⟨⟨?_, ?_⟩, ?_, ?_⟩ <;> linarith
    · rintro ⟨⟨h1, h2⟩, h3, h4⟩
      refine ⟨⟨?_, ?_⟩, ?_, ?_⟩ <;> linarith
  · have := hnec h
    rw [shrunkOverlap_iff x1 size1 x2 size2 p1 p2, shrunkOverlap_iff y1 size1 y2 size2 p1 p2]
    rw [e1, e2] at this
    constructor
    · linarith [this.1]
    · linarith [this.2]

/-- Witness for C10: a bullet at (500, 792) against an enemy at (509, 800), where
every sum is a binary32 number: the result is true and the centres are 9 and 8
apart, below 2 + 8; and the same bullet against an enemy at (511, 800), 11 apart. -/
theorem C10_checkCollision32_spec_witness :
    (checkCollision32 500 792 Config.bulletSize 509 800 Config.enemySize = true ∧
      (checkCollision32 500 792 Config.bulletSize 509 800 Config.enemySize = true ↔
        |(500 : ℚ) - 509| < half32 Config.bulletSize + half32 Config.enemySize ∧
          |(792 : ℚ) - 800| < half32 Config.bulletSize + half32 Config.enemySize)) ∧
    (shrunkOverlap 500 Config.bulletSize 509 Config.enemySize ∧
      shrunkOverlap 792 Config.bulletSize 800 Config.enemySize) ∧
    checkCollision32 500 792 Config.bulletSize 511 800 Config.enemySize = false :=
  ⟨⟨by decide!,
    (C10_checkCollision32_spec 500 792 Config.bulletSize 509 800 Config.enemySize).2.2.2.1
      (by decide!) (by decide!) (by decide!) (by decide!) (by decide!) (by decide!) (by decide!)
      (by decide!)⟩,
    (C10_checkCollision32_spec 500 792 Config.bulletSize 509 800 Config.enemySize).2.2.2.2.2
      (by decide!) (by decide!) (by decide!) (by decide!) (by decide!),
    by decide!⟩

/-! ## C13: the fire cooldown in binary32 -/

/-- The space key is exactly the fire block, in every mode. -/
theorem keyboardDown32_space (w : World) (t : ℚ) :
    keyboardDown32 w (Char.ofNat 32) t = fire32 w t := rfl

theorem fire32_ready (w : World) (t : ℚ)
    (h : f32 (t - w.game.lastShotTime) > effectiveCooldown32 w.game t) :
    (fire32 w t).bullets = w.bullets ++ burst w.game ∧
      (fire32 w t).game = { w.game with lastShotTime := t } := by
  unfold fire32
  rw [if_pos h]
  exact ⟨rfl, rfl⟩

theorem fire32_not_ready (w : World) (t : ℚ)
    (h : ¬ f32 (t - w.game.lastShotTime) > effectiveCooldown32 w.game t) : fire32 w t = w := by
  unfold fire32
  rw [if_neg h]

theorem fire32_game_of_field (f : GameState → α)
    (hshot : ∀ (g : GameState) (t : ℚ), f { g with lastShotTime := t } = f g)
    (w : World) (t : ℚ) : f (fire32 w t).game = f w.game := by
  unfold fire32
  split_ifs
  · exact hshot _ _
  · rfl

/-- In Playing mode a left press changes the bullets and `lastShotTime` exactly
as the fire block does (the press may also hit the pause button). -/
theorem mouse32_left_fire (w : World) (x y : Int) (t : ℚ)
    (hg : w.game.gameOver = false) (hp : w.game.paused = false) :
    (mouse32 w GLUT.LEFT_BUTTON GLUT.DOWN x y t).bullets = (fire32 w t).bullets ∧
      (mouse32 w GLUT.LEFT_BUTTON GLUT.DOWN x y t).game.lastShotTime
        = (fire32 w t).game.lastShotTime := by
  unfold mouse32
  rw [if_neg (by decide)]
  lift_lets
  intro fy w1 w2 w3
  have e1 : w1 = fire32 w t := by
    simp only [w1]
    rw [if_pos ⟨hg, hp, trivial⟩]
  have g1 : w1.game.gameOver = false := by
    rw [e1]
    exact (fire32_game_of_field (fun g => g.gameOver) (fun _ _ => rfl) w t).trans hg
  have e2 : w2.bullets = (fire32 w t).bullets ∧
      w2.game.lastShotTime = (fire32 w t).game.lastShotTime ∧ w2.game.gameOver = false :=
    ite_world (Q := fun v => v.bullets = (fire32 w t).bullets ∧
        v.game.lastShotTime = (fire32 w t).game.lastShotTime ∧ v.game.gameOver = false)
      ⟨by rw [← e1]; rfl, by rw [← e1]; rfl, g1⟩ ⟨by rw [e1], by rw [e1], g1⟩
  have e3 : w3.bullets = (fire32 w t).bullets ∧
      w3.game.lastShotTime = (fire32 w t).game.lastShotTime ∧ w3.game.gameOver = false :=
    ite_world (Q := fun v => v.bullets = (fire32 w t).bullets ∧
        v.game.lastShotTime = (fire32 w t).game.lastShotTime ∧ v.game.gameOver = false)
      e2 e2
  rw [if_neg]
  · exact ⟨e3.1, e3.2.1⟩
  · rintro ⟨hc, -⟩
    rw [e3.2.2] at hc
    exact absurd hc (by decide)

/-- The effective cooldown is a binary32 number. -/
theorem effectiveCooldown32_rep (g : GameState) (t : ℚ) :
    f32 (effectiveCooldown32 g t) = effectiveCooldown32 g t := by
  unfold effectiveCooldown32
  split_ifs <;> exact f32_idem _

/-- C13 (as stated, refuted): with faster shooting active (collected at 10.09 s,
expiry 20.09 s) two presses of the space key at clock 11000 ms and 11100 ms, less
than `bulletCooldown` apart, fire two bursts, in binary32 and in exact
arithmetic alike.  Without faster shooting, presses at clock 1000 ms and 1200 ms
(200 ms apart) fire two bursts in binary32, because `1.2f - 1.0f` exceeds
`0.2f`; and a press at clock 200 ms after start-up fires nothing, although the
binary32 clock value `0.2f` exceeds 0.2. -/
theorem C13_two_bursts_within_cooldown :
    (fasterShootingWorld.game.gameOver = false ∧ fasterShootingWorld.game.paused = false ∧
      fasterShootingWorld.bullets = [] ∧ fasterShootingWorld.game.bulletCount = 1 ∧
      fasterShootingWorld.game.fasterShootingEndTime = 2009 / 100) ∧
    (clock32 11100 - clock32 11000 < Config.bulletCooldown ∧
      (keyboardDown32 (keyboardDown32 fasterShootingWorld (Char.ofNat 32) (clock32 11000))
        (Char.ofNat 32) (clock32 11100)).bullets.length = 2 ∧
      (keyboardDown (keyboardDown fasterShootingWorld (Char.ofNat 32) 11)
        (Char.ofNat 32) (111 / 10)).bullets.length = 2) ∧
    (((1200 : ℚ) - 1000) / 1000 ≤ Config.bulletCooldown ∧
      (keyboardDown32 (keyboardDown32 initWorld (Char.ofNat 32) (clock32 1000))
        (Char.ofNat 32) (clock32 1200)).bullets.length = 2) ∧
    (clock32 200 - initWorld.game.lastShotTime > Config.bulletCooldown ∧
      keyboardDown32 initWorld (Char.ofNat 32) (clock32 200) = initWorld) := by
  decide!

/-- C13 (amended): in Playing mode a fire trigger at time `now` (space key or
left press) runs the fire block, which adds the burst and sets
`lastShotTime = now` iff the binary32 difference `now - lastShotTime` exceeds
the effective cooldown, `0.05f` while `now < fasterShootingEndTime` and `0.2f`
otherwise.  In exact terms: a trigger at most the effective cooldown after
`lastShotTime` is ignored, one that is at least a binary32 number above the
cooldown later is honoured, and when the difference is a binary32 number the
test is the exact one.  After an honoured trigger a second one at most the
cooldown in effect then later changes nothing, and one whose binary32 distance
exceeds the cooldown adds a second burst. -/
theorem C13_fire32_cooldown (w : World) (now : ℚ)
    (hg : w.game.gameOver = false) (hp : w.game.paused = false)
    (hb : 1 ≤ w.game.bulletCount) :
    (effectiveCooldown32 w.game now
      = if now < w.game.fasterShootingEndTime then f32 (5 / 100) else f32 (2 / 10)) ∧
    keyboardDown32 w (Char.ofNat 32) now = fire32 w now ∧
    (∀ x y : Int,
      (mouse32 w GLUT.LEFT_BUTTON GLUT.DOWN x y now).bullets = (fire32 w now).bullets ∧
        (mouse32 w GLUT.LEFT_BUTTON GLUT.DOWN x y now).game.lastShotTime
          = (fire32 w now).game.lastShotTime) ∧
    (f32 (now - w.game.lastShotTime) > effectiveCooldown32 w.game now →
      (fire32 w now).bullets = w.bullets ++ burst w.game ∧ burst w.game ≠ [] ∧
        (fire32 w now).game.lastShotTime = now) ∧
    (¬ f32 (now - w.game.lastShotTime) > effectiveCooldown32 w.game now → fire32 w now = w) ∧
    (w.bullets.length < (fire32 w now).bullets.length ↔
      f32 (now - w.game.lastShotTime) > effectiveCooldown32 w.game now) ∧
    (now - w.game.lastShotTime ≤ effectiveCooldown32 w.game now → fire32 w now = w) ∧
    (∀ c : ℚ, f32 c = c → effectiveCooldown32 w.game now < c → c ≤ now - w.game.lastShotTime →
      w.bullets.length < (fire32 w now).bullets.length) ∧
    (f32 (now - w.game.lastShotTime) = now - w.game.lastShotTime →
      (w.bullets.length < (fire32 w now).bullets.length ↔
        now - w.game.lastShotTime > effectiveCooldown32 w.game now)) ∧
    (f32 (now - w.game.lastShotTime) > effectiveCooldown32 w.game now →
      (∀ t2 : ℚ, t2 - now ≤ effectiveCooldown32 w.game t2 →
        fire32 (fire32 w now) t2 = fire32 w now) ∧
      (∀ t3 : ℚ, f32 (t3 - now) > effectiveCooldown32 w.game t3 →
        (fire32 (fire32 w now) t3).bullets = w.bullets ++ burst w.game ++ burst w.game ∧
          (fire32 (fire32 w now) t3).game.lastShotTime = t3)) := by
  have hlen : 0 < (burst w.game).length := by
    rw [burst_length]
    omega
  have hne : burst w.game ≠ [] := List.ne_nil_of_length_pos hlen
  have hiff : w.bullets.length < (fire32 w now).bullets.length ↔
      f32 (now - w.game.lastShotTime) > effectiveCooldown32 w.game now := by
    constructor
    · intro hlt
      by_contra hc
      rw [fire32_not_ready w now hc] at hlt
      exact lt_irrefl _ hlt
    · intro hc
      rw [(fire32_ready w now hc).1, List.length_append]
      omega
  have hle : ∀ (v : World) (t : ℚ), t - v.game.lastShotTime ≤ effectiveCooldown32 v.game t →
      ¬ f32 (t - v.game.lastShotTime) > effectiveCooldown32 v.game t := by
    intro v t h
    have := f32_mono h
    rw [effectiveCooldown32_rep] at this
    exact not_lt.mpr this
  refine ⟨?_, keyboardDown32_space w now, fun x y => mouse32_left_fire w x y now hg hp, ?_,
    fire32_not_ready w now, hiff, fun h => fire32_not_ready w now (hle w now h), ?_, ?_, ?_⟩
  · unfold effectiveCooldown32
    simp only [Config.fastBulletCooldown, Config.bulletCooldown]
  · intro hc
    exact ⟨(fire32_ready w now hc).1, hne, by rw [(fire32_ready w now hc).2]⟩
  · intro c hc h1 h2
    rw [hiff]
    exact lt_of_lt_of_le h1 (le_f32_of_le hc h2)
  · intro he
    rw [hiff, he]
  · intro hc
    have l1 : (fire32 w now).game.lastShotTime = now := by rw [(fire32_ready w now hc).2]
    have l2 : ∀ t : ℚ,
        effectiveCooldown32 (fire32 w now).game t = effectiveCooldown32 w.game t := by
      intro t
      rw [(fire32_ready w now hc).2]
      rfl
    have l3 : burst (fire32 w now).game = burst w.game := by
      rw [(fire32_ready w now hc).2]
      rfl
    refine ⟨fun t2 h2 => ?_, fun t3 h3 => ?_⟩
    · apply fire32_not_ready
      apply hle
      rw [l1, l2]
      exact h2
    · have h3b : f32 (t3 - (fire32 w now).game.lastShotTime)
          > effectiveCooldown32 (fire32 w now).game t3 := by
        rw [l1, l2]
        exact h3
      refine ⟨?_, ?_⟩
      · rw [(fire32_ready (fire32 w now) t3 h3b).1, l3, (fire32_ready w now hc).1]
      · rw [(fire32_ready (fire32 w now) t3 h3b).2]

/-- Witness for C13: from start-up, triggers when the clock reads 1000 ms,
1050 ms and 1250 ms fire one bullet, none, and the second bullet; the cooldown
constants and the binary32 number next above `0.2f`. -/
theorem C13_fire32_cooldown_witness :
    ((fire32 initWorld (clock32 1000)).bullets.length = 1 ∧
      (fire32 (fire32 initWorld (clock32 1000)) (clock32 1050)).bullets.length = 1 ∧
      (fire32 (fire32 (fire32 initWorld (clock32 1000)) (clock32 1050))
        (clock32 1250)).bullets.length = 2) ∧
    (f32 (2 / 10) = 13421773 / 67108864 ∧ f32 (5 / 100) = 13421773 / 268435456 ∧
      f32 (6710887 / 33554432) = 6710887 / 33554432 ∧
      (6710887 / 33554432 : ℚ) = 13421773 / 67108864 + 1 / 2 ^ 26) ∧
    ((initWorld.bullets.length < (fire32 initWorld (clock32 1000)).bullets.length ↔
      f32 (clock32 1000 - initWorld.game.lastShotTime)
        > effectiveCooldown32 initWorld.game (clock32 1000)) ∧
    (clock32 1000 - initWorld.game.lastShotTime
        ≤ effectiveCooldown32 initWorld.game (clock32 1000) →
      fire32 initWorld (clock32 1000) = initWorld) ∧
    (∀ c : ℚ, f32 c = c → effectiveCooldown32 initWorld.game (clock32 1000) < c →
      c ≤ clock32 1000 - initWorld.game.lastShotTime →
      initWorld.bullets.length < (fire32 initWorld (clock32 1000)).bullets.length) ∧
    (f32 (clock32 1000 - initWorld.game.lastShotTime)
        = clock32 1000 - initWorld.game.lastShotTime →
      (initWorld.bullets.length < (fire32 initWorld (clock32 1000)).bullets.length ↔
        clock32 1000 - initWorld.game.lastShotTime
          > effectiveCooldown32 initWorld.game (clock32 1000))) ∧
    (f32 (clock32 1000 - initWorld.game.lastShotTime)
        > effectiveCooldown32 initWorld.game (clock32 1000) →
      (∀ t2 : ℚ, t2 - clock32 1000 ≤ effectiveCooldown32 initWorld.game t2 →
        fire32 (fire32 initWorld (clock32 1000)) t2 = fire32 initWorld (clock32 1000)) ∧
      (∀ t3 : ℚ, f32 (t3 - clock32 1000) > effectiveCooldown32 initWorld.game t3 →
        (fire32 (fire32 initWorld (clock32 1000)) t3).bullets
            = initWorld.bullets ++ burst initWorld.game ++ burst initWorld.game ∧
          (fire32 (fire32 initWorld (clock32 1000)) t3).game.lastShotTime = t3))) :=
  ⟨by decide!, by decide!,
    (C13_fire32_cooldown initWorld (clock32 1000) (by decide!) (by decide!)
      (by decide!)).2.2.2.2.2⟩

/-! ## C20: enemy spawn pacing in binary32 -/

theorem f32_one : f32 1 = 1 := by decide!

theorem f32_half : f32 (1 / 2) = 1 / 2 := by decide!

/-- The spawn interval is a binary32 number. -/
theorem spawnInterval32_rep (score : Int) :
    f32 (spawnInterval32 score) = spawnInterval32 score := by
  unfold spawnInterval32
  rcases max_cases
    (f32 (Config.spawnInterval / f32 (1 + f32 (f32 (score : ℚ) * f32 (1 / 100))))) (1 / 2)
    with ⟨h, -⟩ | ⟨h, -⟩
  · rw [h]
    exact f32_idem _
  · rw [h]
    exact f32_half

/-- For a score that is not negative the spawn interval is at most 1. -/
theorem spawnInterval32_le_one (score : Int) (h : 0 ≤ score) : spawnInterval32 score ≤ 1 := by
  unfold spawnInterval32
  have hs : (0 : ℚ) ≤ f32 (score : ℚ) := f32_nonneg (by exact_mod_cast h)
  have hc : (0 : ℚ) ≤ f32 (1 / 100) := f32_nonneg (by norm_num)
  have hp : (0 : ℚ) ≤ f32 (f32 (score : ℚ) * f32 (1 / 100)) := f32_nonneg (mul_nonneg hs hc)
  have hd : (1 : ℚ) ≤ f32 (1 + f32 (f32 (score : ℚ) * f32 (1 / 100))) := by
    have := f32_mono (show (1 : ℚ) ≤ 1 + f32 (f32 (score : ℚ) * f32 (1 / 100)) by linarith)
    rwa [f32_one] at this
  have hq : Config.spawnInterval / f32 (1 + f32 (f32 (score : ℚ) * f32 (1 / 100))) ≤ 1 := by
    rw [div_le_one (by linarith)]
    exact hd
  have := f32_mono hq
  rw [f32_one] at this
  exact max_le this (by norm_num)

/-- The new `lastSpawnTime` differs from `now - interval + 0.5` by at most the
rounding slack. -/
theorem lastSpawnTime32_err (now si : ℚ) (hsi : 0 ≤ si) :
    |f32 (f32 (now - si) + 1 / 2) - (now - si + 1 / 2)| ≤ spawnSlack now si := by
  have h1 := f32_err_rel (now - si)
  have h2 := f32_err_rel (f32 (now - si) + 1 / 2)
  have kA : |now - si| ≤ |now| + si := by
    have := abs_sub now si
    rwa [abs_of_nonneg hsi] at this
  have ka : |f32 (now - si)| ≤ |now - si| + |f32 (now - si) - (now - si)| := by
    have := abs_add (now - si) (f32 (now - si) - (now - si))
    rwa [add_sub_cancel] at this
  have kB : |f32 (now - si) + 1 / 2| ≤ |f32 (now - si)| + 1 / 2 := by
    have := abs_add (f32 (now - si)) (1 / 2)
    rwa [abs_of_pos (by norm_num : (0 : ℚ) < 1 / 2)] at this
  have split : f32 (f32 (now - si) + 1 / 2) - (now - si + 1 / 2)
      = (f32 (f32 (now - si) + 1 / 2) - (f32 (now - si) + 1 / 2))
        + (f32 (now - si) - (now - si)) := by ring
  have tri := abs_add (f32 (f32 (now - si) + 1 / 2) - (f32 (now - si) + 1 / 2))
    (f32 (now - si) - (now - si))
  rw [split]
  have n0 := abs_nonneg now
  have a0 := abs_nonneg (now - si)
  unfold spawnSlack
  have q1 : |now - si| / 2 ^ 24 ≤ (|now| + si) / 2 ^ 24 :=
    div_le_div_of_nonneg_right kA (by positivity)
  have q2 : |f32 (now - si) + 1 / 2| / 2 ^ 24
      ≤ (|now - si| + (|now - si| / 2 ^ 24 + 1 / 2 ^ 150) + 1 / 2) / 2 ^ 24 :=
    div_le_div_of_nonneg_right (by linarith) (by positivity)
  have q3 : |now - si| / 2 ^ 24 / 2 ^ 24 ≤ (|now| + si) / 2 ^ 24 :=
    le_trans (div_le_self (by positivity) (by norm_num)) q1
  have t1 : (1 : ℚ) / 2 ^ 150 ≤ 1 / 2 ^ 26 := by norm_num
  have t2 : (1 : ℚ) / 2 ^ 150 / 2 ^ 24 ≤ 1 / 2 ^ 26 := by norm_num
  have e1 : (|now - si| + (|now - si| / 2 ^ 24 + 1 / 2 ^ 150) + 1 / 2) / 2 ^ 24
      = |now - si| / 2 ^ 24 + |now - si| / 2 ^ 24 / 2 ^ 24 + 1 / 2 ^ 150 / 2 ^ 24
        + 1 / 2 ^ 25 := by ring
  have e2 : (|now| + si + 1) / 2 ^ 22 = 4 * ((|now| + si) / 2 ^ 24) + 4 * (1 / 2 ^ 24) := by
    ring
  have e3 : (1 : ℚ) / 2 ^ 25 = 1 / 2 * (1 / 2 ^ 24) := by norm_num
  have e4 : (1 : ℚ) / 2 ^ 26 = 1 / 4 * (1 / 2 ^ 24) := by norm_num
  have p24 : (0 : ℚ) < 1 / 2 ^ 24 := by positivity
  have pq : (0 : ℚ) ≤ (|now| + si) / 2 ^ 24 := by positivity
  rw [e1] at q2
  rw [e2]
  rw [e4] at t1 t2
  rw [e3] at q2
  linarith

/-- The time test of the next spawn fails until `0.5 - slack` after this one. -/
theorem nextSpawn32_not_before (now si later : ℚ) (hsi : 0 ≤ si) (hrep : f32 si = si)
    (h : f32 (later - f32 (f32 (now - si) + 1 / 2)) > si) :
    later - now > 1 / 2 - spawnSlack now si := by
  rw [← hrep] at h
  have h1 := lt_of_f32_lt h
  rw [hrep] at h1
  have h2 := (abs_le.mp (lastSpawnTime32_err now si hsi)).1
  linarith

/-- The time test of the next spawn holds from `0.5 + 2 * slack` after this one. -/
theorem nextSpawn32_after (now si later : ℚ) (hsi : 0 ≤ si)
    (h : later - now ≥ 1 / 2 + 2 * spawnSlack now si) :
    f32 (later - f32 (f32 (now - si) + 1 / 2)) > si := by
  have h2 := (abs_le.mp (lastSpawnTime32_err now si hsi)).2
  have hE : (si + 1) / 2 ^ 22 ≤ spawnSlack now si := by
    unfold spawnSlack
    exact div_le_div_of_nonneg_right (by linarith [abs_nonneg now]) (by positivity)
  have hD : si + spawnSlack now si ≤ later - f32 (f32 (now - si) + 1 / 2) := by linarith
  have hE0 : 0 < spawnSlack now si := lt_of_lt_of_le (by positivity) hE
  have hDpos : 0 ≤ later - f32 (f32 (now - si) + 1 / 2) := by linarith
  have h3 := (abs_le.mp (f32_err_rel (later - f32 (f32 (now - si) + 1 / 2)))).1
  rw [abs_of_nonneg hDpos] at h3
  have e1 : (si + 1) / 2 ^ 22 = 4 * (si / 2 ^ 24) + 4 * (1 / 2 ^ 24) := by ring
  rw [e1] at hE
  have t1 : (1 : ℚ) / 2 ^ 150 ≤ 1 / 2 ^ 24 := by norm_num
  have p24 : (0 : ℚ) < 1 / 2 ^ 24 := by positivity
  have ps : (0 : ℚ) ≤ si / 2 ^ 24 := by positivity
  -- f32 D ≥ D - D / 2^24 - 2^-150 and D ≥ si + slack
  have key : si < (later - f32 (f32 (now - si) + 1 / 2))
      - ((later - f32 (f32 (now - si) + 1 / 2)) / 2 ^ 24 + 1 / 2 ^ 150) := by
    have m : (later - f32 (f32 (now - si) + 1 / 2))
        - (later - f32 (f32 (now - si) + 1 / 2)) / 2 ^ 24
        = (later - f32 (f32 (now - si) + 1 / 2)) * (1 - 1 / 2 ^ 24) := by ring
    have c : (0 : ℚ) < 1 - 1 / 2 ^ 24 := by norm_num
    have m2 : (si + spawnSlack now si) * (1 - 1 / 2 ^ 24)
        ≤ (later - f32 (f32 (now - si) + 1 / 2)) * (1 - 1 / 2 ^ 24) :=
      mul_le_mul_of_nonneg_right hD (le_of_lt c)
    have m3 : (si + spawnSlack now si) * (1 - 1 / 2 ^ 24)
        = si - si / 2 ^ 24 + spawnSlack now si * (1 - 1 / 2 ^ 24) := by ring
    have m4 : spawnSlack now si * (1 - 1 / 2 ^ 24) ≥ spawnSlack now si * (1 / 2) :=
      mul_le_mul_of_nonneg_left (by norm_num) (le_of_lt hE0)
    linarith
  linarith

theorem enemySpawnStep32_spawn (g : GameState) (enemies : List Enemy) (now si : ℚ) (r : Nat)
    (hc : g.enemiesToSpawn > 0 ∧ f32 (now - g.lastSpawnTime) > si) :
    (enemySpawnStep32 g enemies now si r).1.enemiesToSpawn = g.enemiesToSpawn - 1 ∧
    (∃ e : Enemy, (enemySpawnStep32 g enemies now si r).2 = enemies ++ [e]) ∧
    (enemySpawnStep32 g enemies now si r).1.score = g.score ∧
    (enemySpawnStep32 g enemies now si r).1.lastSpawnTime = f32 (f32 (now - si) + 1 / 2) := by
  unfold enemySpawnStep32 spawnEnemy
  rw [if_pos hc]
  exact ⟨rfl, ⟨_, rfl⟩, rfl, rfl⟩

theorem enemySpawnStep32_skip (g : GameState) (enemies : List Enemy) (now si : ℚ) (r : Nat)
    (hc : ¬ (g.enemiesToSpawn > 0 ∧ f32 (now - g.lastSpawnTime) > si)) :
    enemySpawnStep32 g enemies now si r = (g, enemies) := by
  unfold enemySpawnStep32
  rw [if_neg hc]

/-- C20 (as stated, refuted): at score 3 with quota 2, the tick at clock 16471 ms
spawns an enemy, and the tick at clock 16971 ms, whose binary32 clock value is
exactly 0.5 later, spawns the next one, although no more than 0.5 s have
elapsed. -/
theorem C20_spawn_after_half_second :
    (scoreThreeSpawned.2.length = 1 ∧ scoreThreeSpawned.1.enemiesToSpawn = 1 ∧
      scoreThreeSpawned.1.score = 3) ∧
    (clock32 16971 - clock32 16471 = 1 / 2 ∧ ((16971 : ℚ) - 16471) / 1000 = 1 / 2) ∧
    (enemySpawnStep32 scoreThreeSpawned.1 scoreThreeSpawned.2 (clock32 16971)
      (spawnInterval32 scoreThreeSpawned.1.score) 490).2.length = 2 := by
  decide!

/-- C20 (amended): with `interval` the binary32 value of
`max (spawnInterval / (1 + score * 0.01f)) 0.5` (at least 0.5, at most 1 for a
score that is not negative; the wave step before the spawn step keeps the score),
the spawn step at time `now` spawns iff the quota is positive and the binary32
difference `now - lastSpawnTime` exceeds `interval`; in exact terms it does not
spawn while `now - lastSpawnTime ≤ interval` and, the quota being positive,
spawns once the difference reaches a binary32 number above `interval`.  A spawn
takes one off the quota, appends one enemy, keeps the score and leaves
`lastSpawnTime` the binary32 value of `now - interval + 0.5`, within
`spawnSlack` of the exact value; with the same interval the time test of the
next spawn fails up to `0.5 - spawnSlack` after this spawn and holds from
`0.5 + 2 * spawnSlack` after it. -/
theorem C20_spawn_pacing32 (g : GameState) (enemies : List Enemy) (now : ℚ) (r : Nat) :
    (spawnInterval32 g.score
        = max (f32 (Config.spawnInterval
            / f32 (1 + f32 (f32 (g.score : ℚ) * f32 (1 / 100))))) (1 / 2) ∧
      Config.spawnInterval = 1 ∧ 1 / 2 ≤ spawnInterval32 g.score ∧
      (0 ≤ g.score → spawnInterval32 g.score ≤ 1) ∧
      f32 (spawnInterval32 g.score) = spawnInterval32 g.score) ∧
    spawnInterval32 (waveStep g enemies now).score = spawnInterval32 g.score ∧
    ((enemySpawnStep32 g enemies now (spawnInterval32 g.score) r).2.length = enemies.length + 1 ↔
      g.enemiesToSpawn > 0 ∧ f32 (now - g.lastSpawnTime) > spawnInterval32 g.score) ∧
    (¬ (g.enemiesToSpawn > 0 ∧ f32 (now - g.lastSpawnTime) > spawnInterval32 g.score) →
      enemySpawnStep32 g enemies now (spawnInterval32 g.score) r = (g, enemies)) ∧
    (now - g.lastSpawnTime ≤ spawnInterval32 g.score →
      enemySpawnStep32 g enemies now (spawnInterval32 g.score) r = (g, enemies)) ∧
    (∀ c : ℚ, f32 c = c → spawnInterval32 g.score < c → c ≤ now - g.lastSpawnTime →
      g.enemiesToSpawn > 0 →
      (enemySpawnStep32 g enemies now (spawnInterval32 g.score) r).2.length
        = enemies.length + 1) ∧
    (g.enemiesToSpawn > 0 ∧ f32 (now - g.lastSpawnTime) > spawnInterval32 g.score →
      (enemySpawnStep32 g enemies now (spawnInterval32 g.score) r).1.enemiesToSpawn
        = g.enemiesToSpawn - 1 ∧
      (∃ e : Enemy, (enemySpawnStep32 g enemies now (spawnInterval32 g.score) r).2
        = enemies ++ [e]) ∧
      (enemySpawnStep32 g enemies now (spawnInterval32 g.score) r).1.score = g.score ∧
      (enemySpawnStep32 g enemies now (spawnInterval32 g.score) r).1.lastSpawnTime
        = f32 (f32 (now - spawnInterval32 g.score) + 1 / 2) ∧
      |(enemySpawnStep32 g enemies now (spawnInterval32 g.score) r).1.lastSpawnTime
          - (now - spawnInterval32 g.score + 1 / 2)| ≤ spawnSlack now (spawnInterval32 g.score) ∧
      (∀ later : ℚ,
        f32 (later - (enemySpawnStep32 g enemies now (spawnInterval32 g.score) r).1.lastSpawnTime)
            > spawnInterval32 g.score →
          later - now > 1 / 2 - spawnSlack now (spawnInterval32 g.score)) ∧
      (∀ later : ℚ, later - now ≥ 1 / 2 + 2 * spawnSlack now (spawnInterval32 g.score) →
        f32 (later - (enemySpawnStep32 g enemies now (spawnInterval32 g.score) r).1.lastSpawnTime)
            > spawnInterval32 g.score)) := by
  have hge : (1 : ℚ) / 2 ≤ spawnInterval32 g.score := le_max_right _ _
  have h0 : (0 : ℚ) ≤ spawnInterval32 g.score := by linarith
  have hrep := spawnInterval32_rep g.score
  have hiff : (enemySpawnStep32 g enemies now (spawnInterval32 g.score) r).2.length
        = enemies.length + 1 ↔
      g.enemiesToSpawn > 0 ∧ f32 (now - g.lastSpawnTime) > spawnInterval32 g.score := by
    constructor
    · intro hl
      by_contra hc
      rw [enemySpawnStep32_skip g enemies now _ r hc] at hl
      exact absurd hl (by simp)
    · intro hc
      obtain ⟨e, he⟩ := (enemySpawnStep32_spawn g enemies now _ r hc).2.1
      rw [he, List.length_append, List.length_singleton]
  refine ⟨⟨rfl, rfl, hge, spawnInterval32_le_one g.score, hrep⟩, ?_, hiff,
    enemySpawnStep32_skip g enemies now _ r, fun h => ?_, fun c hc h1 h2 hq => ?_, fun hc => ?_⟩
  · unfold waveStep
    split_ifs <;> rfl
  · apply enemySpawnStep32_skip
    rintro ⟨-, h2⟩
    have := f32_mono h
    rw [hrep] at this
    exact absurd h2 (not_lt.mpr this)
  · rw [hiff]
    exact ⟨hq, lt_of_lt_of_le h1 (le_f32_of_le hc h2)⟩
  · obtain ⟨a, b, c, d⟩ := enemySpawnStep32_spawn g enemies now _ r hc
    refine ⟨a, b, c, d, ?_, fun later hl => ?_, fun later hl => ?_⟩
    · rw [d]
      exact lastSpawnTime32_err now _ h0
    · rw [d] at hl
      exact nextSpawn32_not_before now _ later h0 hrep hl
    · rw [d]
      exact nextSpawn32_after now _ later h0 hl

/-- Witness for C20: quota 2 at score 3, last spawn time 15, spawn step when the
clock reads 16471 ms; the interval at scores 0 and 100. -/
theorem C20_spawn_pacing32_witness :
    (spawnInterval32 0 = 1 ∧ spawnInterval32 100 = 1 / 2 ∧
      spawnInterval32 scoreThreeState.score = 1018035 / 1048576) ∧
    (scoreThreeState.enemiesToSpawn > 0 ∧
      f32 (clock32 16471 - scoreThreeState.lastSpawnTime)
        > spawnInterval32 scoreThreeState.score) ∧
    ((enemySpawnStep32 scoreThreeState [] (clock32 16471)
        (spawnInterval32 scoreThreeState.score) 490).1.enemiesToSpawn
        = scoreThreeState.enemiesToSpawn - 1 ∧
      (∀ later : ℚ,
        later - clock32 16471
            ≥ 1 / 2 + 2 * spawnSlack (clock32 16471) (spawnInterval32 scoreThreeState.score) →
          f32 (later - (enemySpawnStep32 scoreThreeState [] (clock32 16471)
              (spawnInterval32 scoreThreeState.score) 490).1.lastSpawnTime)
            > spawnInterval32 scoreThreeState.score)) ∧
    spawnSlack (clock32 16471) (spawnInterval32 scoreThreeState.score) < 1 / 200000 :=
  ⟨by decide!, by decide!,
    ⟨((C20_spawn_pacing32 scoreThreeState [] (clock32 16471) 490).2.2.2.2.2.2 (by decide!)).1,
      ((C20_spawn_pacing32 scoreThreeState [] (clock32 16471) 490).2.2.2.2.2.2
        (by decide!)).2.2.2.2.2.2⟩,
    by decide!⟩

end Shooter
